import Mathlib

/-!
# The video scaler and the adder of gst-plugins-base

A shallow embedding of `gst/videoscale/gstvideoscale.c` (plane geometry,
negotiation, scaling orchestration, navigation events) and of the mixing loop
of `gst/adder/gstadder.c`.

* `gint` quantities (widths, heights, strides, format and method codes) are
  integers; C's `/` and `%` on `int` are `Int.tdiv` and `Int.tmod`
  (truncation toward zero).  The arithmetic of the plane geometry is exact:
  the element's caps restrict both dimensions to `[1, 32767]`
  (`GST_VIDEO_SIZE_RANGE`), a range in which none of its products leaves 32
  bits.
* in `gst_video_scale_fixate_caps` the scaled dimension is a 64-bit value
  that the code casts to `guint` and stores in a `gint`; the conversions are
  spelled out there with `% 2 ^ 64` and `% 2 ^ 32`.
* a pointer into a buffer is the integer address of the byte it designates,
  so `GST_BUFFER_DATA (buf) + n` is `buf + n`.
* a kernel of `vs_image.h` / `vs_4tap.h` is not executed; a call of one is
  recorded with the plane descriptors it is handed.  The nearest-neighbour
  kernel and the chain function of `GstBaseTransform`, whose code is not among
  the sources, are modelled from the specification where a statement needs
  them, and marked so.
* a `gdouble` is an IEEE 754 binary64 value with an integer significand and
  exponent; every operation rounds to nearest, ties to even, as an
  implementation that evaluates `double` expressions in `double` does.
* the samples of the adder are integers; a load or store through
  `gint32 *`, `gint16 *` or `gint8 *` is spelled out with `to_signed`.
-/

namespace VideoScale

/-! ## Data model -/

/-- The anonymous format enumeration `GST_VIDEO_SCALE_RGBA = 0, ...`. -/
inductive VideoScaleFormat
  | GST_VIDEO_SCALE_RGBA
  | GST_VIDEO_SCALE_ARGB
  | GST_VIDEO_SCALE_BGRA
  | GST_VIDEO_SCALE_ABGR
  | GST_VIDEO_SCALE_AYUV
  | GST_VIDEO_SCALE_RGBx
  | GST_VIDEO_SCALE_xRGB
  | GST_VIDEO_SCALE_BGRx
  | GST_VIDEO_SCALE_xBGR
  | GST_VIDEO_SCALE_Y444
  | GST_VIDEO_SCALE_v308
  | GST_VIDEO_SCALE_RGB
  | GST_VIDEO_SCALE_BGR
  | GST_VIDEO_SCALE_Y42B
  | GST_VIDEO_SCALE_YUY2
  | GST_VIDEO_SCALE_YVYU
  | GST_VIDEO_SCALE_UYVY
  | GST_VIDEO_SCALE_I420
  | GST_VIDEO_SCALE_YV12
  | GST_VIDEO_SCALE_Y41B
  | GST_VIDEO_SCALE_RGB565
  | GST_VIDEO_SCALE_RGB555
  | GST_VIDEO_SCALE_GRAY16
  | GST_VIDEO_SCALE_GRAY8
  | GST_VIDEO_SCALE_Y
  deriving DecidableEq, Repr

open VideoScaleFormat

/-- The enumerators in declaration order: the enumerator at index `i` has the
integer value `i`. -/
def format_enum : List VideoScaleFormat :=
  [GST_VIDEO_SCALE_RGBA, GST_VIDEO_SCALE_ARGB, GST_VIDEO_SCALE_BGRA,
   GST_VIDEO_SCALE_ABGR, GST_VIDEO_SCALE_AYUV, GST_VIDEO_SCALE_RGBx,
   GST_VIDEO_SCALE_xRGB, GST_VIDEO_SCALE_BGRx, GST_VIDEO_SCALE_xBGR,
   GST_VIDEO_SCALE_Y444, GST_VIDEO_SCALE_v308, GST_VIDEO_SCALE_RGB,
   GST_VIDEO_SCALE_BGR, GST_VIDEO_SCALE_Y42B, GST_VIDEO_SCALE_YUY2,
   GST_VIDEO_SCALE_YVYU, GST_VIDEO_SCALE_UYVY, GST_VIDEO_SCALE_I420,
   GST_VIDEO_SCALE_YV12, GST_VIDEO_SCALE_Y41B, GST_VIDEO_SCALE_RGB565,
   GST_VIDEO_SCALE_RGB555, GST_VIDEO_SCALE_GRAY16, GST_VIDEO_SCALE_GRAY8,
   GST_VIDEO_SCALE_Y]

/-- The enumerator named by a `gint format`, if any: what selects the `case`
of a `switch (format)`; `none` selects `default`. -/
def format_of_code (format : Int) : Option VideoScaleFormat :=
  if format < 0 then none else format_enum[format.toNat]?

/-- The integer value of an enumerator. -/
def code_of_format (f : VideoScaleFormat) : Int :=
  (format_enum.indexOf f : Nat)

/-- The plane descriptor `VSImage` of `vs_image.h`. -/
structure VSImage where
  pixels : Int
  width : Int
  height : Int
  stride : Int
  deriving DecidableEq, Repr

/-- Modelled from the spec: the macro `GST_ROUND_UP_2` of gstutils.h, which is
not among the sources; it rounds up to the next multiple of 2. -/
def GST_ROUND_UP_2 (num : Int) : Int := (num + 1) / 2 * 2

/-- Modelled from the spec: the macro `GST_ROUND_UP_4` of gstutils.h, which is
not among the sources; it rounds up to the next multiple of 4. -/
def GST_ROUND_UP_4 (num : Int) : Int := (num + 3) / 4 * 4

/-- Modelled from the spec: the macro `GST_ROUND_UP_8` of gstutils.h, which is
not among the sources; it rounds up to the next multiple of 8. -/
def GST_ROUND_UP_8 (num : Int) : Int := (num + 7) / 8 * 8

/-- Modelled from the spec: the macro `GST_ROUND_UP_16` of gstutils.h, which is
not among the sources; it rounds up to the next multiple of 16. -/
def GST_ROUND_UP_16 (num : Int) : Int := (num + 15) / 16 * 16

/-! ## `gst_video_scale_prepare_size` -/

/-- The function `gst_video_scale_prepare_size`: `none` is the return of
`FALSE` through `unknown_format`; `some (img, size)` is the return of `TRUE`
with the descriptor as written and the exact integer value of the expression
assigned to `*size`. -/
def gst_video_scale_prepare_size (format : Int) (img : VSImage)
    (width height : Int) : Option (VSImage × Int) :=
  let img := { img with width := width, height := height }
  match format_of_code format with
  | some GST_VIDEO_SCALE_RGBx
  | some GST_VIDEO_SCALE_xRGB
  | some GST_VIDEO_SCALE_BGRx
  | some GST_VIDEO_SCALE_xBGR
  | some GST_VIDEO_SCALE_RGBA
  | some GST_VIDEO_SCALE_ARGB
  | some GST_VIDEO_SCALE_BGRA
  | some GST_VIDEO_SCALE_ABGR
  | some GST_VIDEO_SCALE_AYUV =>
    let img := { img with stride := img.width * 4 }
    some (img, img.stride * img.height)
  | some GST_VIDEO_SCALE_Y444 =>
    let img := { img with stride := GST_ROUND_UP_4 img.width }
    some (img, img.stride * img.height * 3)
  | some GST_VIDEO_SCALE_RGB
  | some GST_VIDEO_SCALE_BGR
  | some GST_VIDEO_SCALE_v308 =>
    let img := { img with stride := GST_ROUND_UP_4 (img.width * 3) }
    some (img, img.stride * img.height)
  | some GST_VIDEO_SCALE_Y42B =>
    let img := { img with stride := GST_ROUND_UP_4 img.width }
    some (img, (GST_ROUND_UP_4 img.width + GST_ROUND_UP_8 img.width) * img.height)
  | some GST_VIDEO_SCALE_YUY2
  | some GST_VIDEO_SCALE_YVYU
  | some GST_VIDEO_SCALE_UYVY =>
    let img := { img with stride := GST_ROUND_UP_4 (img.width * 2) }
    some (img, img.stride * img.height)
  | some GST_VIDEO_SCALE_Y41B =>
    let img := { img with stride := GST_ROUND_UP_4 img.width }
    some (img, (GST_ROUND_UP_4 img.width
      + Int.tdiv (GST_ROUND_UP_16 img.width) 2) * img.height)
  | some GST_VIDEO_SCALE_Y
  | some GST_VIDEO_SCALE_GRAY8 =>
    let img := { img with stride := GST_ROUND_UP_4 img.width }
    some (img, img.stride * img.height)
  | some GST_VIDEO_SCALE_GRAY16 =>
    let img := { img with stride := GST_ROUND_UP_4 (img.width * 2) }
    some (img, img.stride * img.height)
  | some GST_VIDEO_SCALE_I420
  | some GST_VIDEO_SCALE_YV12 =>
    let img := { img with stride := GST_ROUND_UP_4 img.width }
    let img_u_height := Int.tdiv (GST_ROUND_UP_2 img.height) 2
    let img_u_stride := GST_ROUND_UP_4 (Int.tdiv img.stride 2)
    some (img, img.stride * GST_ROUND_UP_2 img.height
      + 2 * img_u_stride * img_u_height)
  | some GST_VIDEO_SCALE_RGB565 =>
    let img := { img with stride := GST_ROUND_UP_4 (img.width * 2) }
    some (img, img.stride * img.height)
  | some GST_VIDEO_SCALE_RGB555 =>
    let img := { img with stride := GST_ROUND_UP_4 (img.width * 2) }
    some (img, img.stride * img.height)
  | none => none

/-! ## `gst_video_scale_prepare_image` -/

/-- The two statements that close every case of the switch in
`gst_video_scale_prepare_image`, for one chroma descriptor `p` (the source
applies them to `img_u` and to `img_v` alike):
`if (interlaced && step == 1) p->pixels += p->stride;` and then
`if (interlaced) { p->height = p->height / 2 + ((step == 0 && p->height % 2 == 1) ? 1 : 0); p->stride *= 2; }`. -/
def prepare_field (step : Int) (interlaced : Bool) (p : VSImage) : VSImage :=
  let p := if interlaced ∧ step = 1 then { p with pixels := p.pixels + p.stride } else p
  if interlaced then
    { p with
      height := Int.tdiv p.height 2
        + (if step = 0 ∧ Int.tmod p.height 2 = 1 then 1 else 0)
      stride := p.stride * 2 }
  else p

/-- The function `gst_video_scale_prepare_image`: `buf` is
`GST_BUFFER_DATA (buf)`; the result is the pair `(*img_u, *img_v)` on return
(the function always returns `TRUE`). -/
def gst_video_scale_prepare_image (format : Int) (buf : Int)
    (img img_u img_v : VSImage) (step : Int) (interlaced : Bool) :
    VSImage × VSImage :=
  match format_of_code format with
  | some GST_VIDEO_SCALE_I420
  | some GST_VIDEO_SCALE_YV12 =>
    let img_u := { img_u with pixels := buf + GST_ROUND_UP_2 img.height * img.stride }
    let img_u := { img_u with height := Int.tdiv (GST_ROUND_UP_2 img.height) 2 }
    let img_u := { img_u with width := Int.tdiv (GST_ROUND_UP_2 img.width) 2 }
    let img_u := { img_u with stride := GST_ROUND_UP_4 img_u.width }
    let img_v := img_u
    let img_v := { img_v with pixels := img_u.pixels + img_u.height * img_u.stride }
    (prepare_field step interlaced img_u, prepare_field step interlaced img_v)
  | some GST_VIDEO_SCALE_Y444 =>
    let img_u := { img_u with pixels := buf + GST_ROUND_UP_4 img.width * img.height }
    let img_u := { img_u with height := img.height }
    let img_u := { img_u with width := img.width }
    let img_u := { img_u with stride := img.stride }
    let img_v := img_u
    let img_v := { img_v with pixels := buf + GST_ROUND_UP_4 img.width * img.height * 2 }
    (prepare_field step interlaced img_u, prepare_field step interlaced img_v)
  | some GST_VIDEO_SCALE_Y42B =>
    let img_u := { img_u with pixels := buf + GST_ROUND_UP_4 img.width * img.height }
    let img_u := { img_u with height := img.height }
    let img_u := { img_u with width := Int.tdiv (GST_ROUND_UP_2 img.width) 2 }
    let img_u := { img_u with stride := Int.tdiv (GST_ROUND_UP_8 img.width) 2 }
    let img_v := img_u
    let img_v := { img_v with pixels := buf + (GST_ROUND_UP_4 img.width
      + Int.tdiv (GST_ROUND_UP_8 img.width) 2) * img.height }
    (prepare_field step interlaced img_u, prepare_field step interlaced img_v)
  | some GST_VIDEO_SCALE_Y41B =>
    let img_u := { img_u with pixels := buf + GST_ROUND_UP_4 img.width * img.height }
    let img_u := { img_u with height := img.height }
    let img_u := { img_u with width := Int.tdiv (GST_ROUND_UP_4 img.width) 4 }
    let img_u := { img_u with stride := Int.tdiv (GST_ROUND_UP_16 img.width) 4 }
    let img_v := img_u
    let img_v := { img_v with pixels := buf + (GST_ROUND_UP_4 img.width
      + Int.tdiv (GST_ROUND_UP_16 img.width) 4) * img.height }
    (prepare_field step interlaced img_u, prepare_field step interlaced img_v)
  | _ => (img_u, img_v)

/-! ## Negotiated state, `parse_caps`, `gst_video_scale_set_caps`,
`gst_video_scale_get_unit_size` -/

/-- What the functions below read from a `GstCaps`: the outcome of
`gst_structure_get_int` for "width" and "height", of
`gst_structure_get_boolean` for "interlaced", and the value returned by
`gst_video_scale_get_format (caps)` (the index of the first entry of
`gst_video_scale_format_caps` the caps intersect, or `-1`). -/
structure Caps where
  width : Option Int
  height : Option Int
  interlaced_field : Option Bool
  get_format : Int
  deriving DecidableEq, Repr

/-- The fields of `GstVideoScale` that the functions below read or write.
`tmp_buf` is the byte size of the allocated scratch buffer, `none` for `NULL`. -/
structure GstVideoScale where
  method : Int
  format : Int
  from_width : Int
  from_height : Int
  to_width : Int
  to_height : Int
  src : VSImage
  dest : VSImage
  src_size : Int
  dest_size : Int
  interlaced : Bool
  tmp_buf : Option Int
  deriving DecidableEq, Repr

/-- The function `parse_caps`, given the previous contents of `*width` and
`*height` (left as they are when the field is missing): the result is
`(ret, *format, *width, *height, *interlaced)`; a caller that passes `NULL`
for `format` or `interlaced` ignores that component. -/
def parse_caps (caps : Caps) (width height : Int) : Bool × Int × Int × Int × Bool :=
  let ret := caps.width.isSome
  let ret := ret && caps.height.isSome
  (ret, caps.get_format, caps.width.getD width, caps.height.getD height,
    caps.interlaced_field.getD false)

/-- The function `gst_video_scale_set_caps`: the returned `gboolean` and the
element afterwards. -/
def gst_video_scale_set_caps (videoscale : GstVideoScale) (inc out : Caps) :
    Bool × GstVideoScale :=
  let p := parse_caps inc videoscale.from_width videoscale.from_height
  let videoscale := { videoscale with
    format := p.2.1, from_width := p.2.2.1, from_height := p.2.2.2.1,
    interlaced := p.2.2.2.2 }
  let q := parse_caps out videoscale.to_width videoscale.to_height
  let videoscale := { videoscale with to_width := q.2.2.1, to_height := q.2.2.2.1 }
  let ret := p.1 && q.1
  if !ret then (false, videoscale)
  else
    match gst_video_scale_prepare_size videoscale.format videoscale.src
        videoscale.from_width videoscale.from_height with
    | none =>
      (false, { videoscale with src := { videoscale.src with
        width := videoscale.from_width, height := videoscale.from_height } })
    | some (src, src_size) =>
      let videoscale := { videoscale with src := src, src_size := src_size }
      match gst_video_scale_prepare_size videoscale.format videoscale.dest
          videoscale.to_width videoscale.to_height with
      | none =>
        (false, { videoscale with dest := { videoscale.dest with
          width := videoscale.to_width, height := videoscale.to_height } })
      | some (dest, dest_size) =>
        let videoscale := { videoscale with dest := dest, dest_size := dest_size }
        (true, { videoscale with
          tmp_buf := some (videoscale.dest.stride * 4
            * (if videoscale.interlaced then 2 else 1)) })

/-- The function `gst_video_scale_get_unit_size`: `none` is the return of
`FALSE`, `some size` the return of `TRUE` with `*size` as written. -/
def gst_video_scale_get_unit_size (caps : Caps) : Option Int :=
  let p := parse_caps caps 0 0
  if !p.1 then none
  else
    match gst_video_scale_prepare_size p.2.1 ⟨0, 0, 0, 0⟩ p.2.2.1 p.2.2.2.1 with
    | none => none
    | some (_, size) => some size

/-! ## `gst_video_scale_transform` -/

/-- Modelled from the spec: the enumerator `GST_VIDEO_SCALE_NEAREST` of
`GstVideoScaleMethod` in gstvideoscale.h, which is not among the sources; the
first of the three methods NEAREST, BILINEAR, 4TAP. -/
def GST_VIDEO_SCALE_NEAREST : Int := 0

/-- Modelled from the spec: the enumerator `GST_VIDEO_SCALE_BILINEAR` of
`GstVideoScaleMethod` in gstvideoscale.h, which is not among the sources; the
second of the three methods. -/
def GST_VIDEO_SCALE_BILINEAR : Int := 1

/-- Modelled from the spec: the enumerator `GST_VIDEO_SCALE_4TAP` of
`GstVideoScaleMethod` in gstvideoscale.h, which is not among the sources; the
third of the three methods. -/
def GST_VIDEO_SCALE_4TAP : Int := 2

/-- The algorithm of a kernel, as its name spells it. -/
inductive KernelMethod
  | nearest
  | linear
  | fourtap
  deriving DecidableEq, Repr

/-- The pixel layout of a kernel, as its name spells it. -/
inductive PixelLayout
  | RGBA
  | RGB
  | YUYV
  | UYVY
  | Y
  | Y16
  | RGB565
  | RGB555
  deriving DecidableEq, Repr

/-- A kernel `vs_image_scale_<method>_<layout>` of vs_image.h / vs_4tap.h. -/
structure Kernel where
  method : KernelMethod
  layout : PixelLayout
  deriving DecidableEq, Repr

/-- The kernel `vs_image_scale_nearest_RGBA`. -/
def vs_image_scale_nearest_RGBA : Kernel := ⟨KernelMethod.nearest, PixelLayout.RGBA⟩

/-- The kernel `vs_image_scale_nearest_RGB`. -/
def vs_image_scale_nearest_RGB : Kernel := ⟨KernelMethod.nearest, PixelLayout.RGB⟩

/-- The kernel `vs_image_scale_nearest_YUYV`. -/
def vs_image_scale_nearest_YUYV : Kernel := ⟨KernelMethod.nearest, PixelLayout.YUYV⟩

/-- The kernel `vs_image_scale_nearest_UYVY`. -/
def vs_image_scale_nearest_UYVY : Kernel := ⟨KernelMethod.nearest, PixelLayout.UYVY⟩

/-- The kernel `vs_image_scale_nearest_Y`. -/
def vs_image_scale_nearest_Y : Kernel := ⟨KernelMethod.nearest, PixelLayout.Y⟩

/-- The kernel `vs_image_scale_nearest_Y16`. -/
def vs_image_scale_nearest_Y16 : Kernel := ⟨KernelMethod.nearest, PixelLayout.Y16⟩

/-- The kernel `vs_image_scale_nearest_RGB565`. -/
def vs_image_scale_nearest_RGB565 : Kernel := ⟨KernelMethod.nearest, PixelLayout.RGB565⟩

/-- The kernel `vs_image_scale_nearest_RGB555`. -/
def vs_image_scale_nearest_RGB555 : Kernel := ⟨KernelMethod.nearest, PixelLayout.RGB555⟩

/-- The kernel `vs_image_scale_linear_RGBA`. -/
def vs_image_scale_linear_RGBA : Kernel := ⟨KernelMethod.linear, PixelLayout.RGBA⟩

/-- The kernel `vs_image_scale_linear_RGB`. -/
def vs_image_scale_linear_RGB : Kernel := ⟨KernelMethod.linear, PixelLayout.RGB⟩

/-- The kernel `vs_image_scale_linear_YUYV`. -/
def vs_image_scale_linear_YUYV : Kernel := ⟨KernelMethod.linear, PixelLayout.YUYV⟩

/-- The kernel `vs_image_scale_linear_UYVY`. -/
def vs_image_scale_linear_UYVY : Kernel := ⟨KernelMethod.linear, PixelLayout.UYVY⟩

/-- The kernel `vs_image_scale_linear_Y`. -/
def vs_image_scale_linear_Y : Kernel := ⟨KernelMethod.linear, PixelLayout.Y⟩

/-- The kernel `vs_image_scale_linear_Y16`. -/
def vs_image_scale_linear_Y16 : Kernel := ⟨KernelMethod.linear, PixelLayout.Y16⟩

/-- The kernel `vs_image_scale_linear_RGB565`. -/
def vs_image_scale_linear_RGB565 : Kernel := ⟨KernelMethod.linear, PixelLayout.RGB565⟩

/-- The kernel `vs_image_scale_linear_RGB555`. -/
def vs_image_scale_linear_RGB555 : Kernel := ⟨KernelMethod.linear, PixelLayout.RGB555⟩

/-- The kernel `vs_image_scale_4tap_RGBA`. -/
def vs_image_scale_4tap_RGBA : Kernel := ⟨KernelMethod.fourtap, PixelLayout.RGBA⟩

/-- The kernel `vs_image_scale_4tap_RGB`. -/
def vs_image_scale_4tap_RGB : Kernel := ⟨KernelMethod.fourtap, PixelLayout.RGB⟩

/-- The kernel `vs_image_scale_4tap_YUYV`. -/
def vs_image_scale_4tap_YUYV : Kernel := ⟨KernelMethod.fourtap, PixelLayout.YUYV⟩

/-- The kernel `vs_image_scale_4tap_UYVY`. -/
def vs_image_scale_4tap_UYVY : Kernel := ⟨KernelMethod.fourtap, PixelLayout.UYVY⟩

/-- The kernel `vs_image_scale_4tap_Y`. -/
def vs_image_scale_4tap_Y : Kernel := ⟨KernelMethod.fourtap, PixelLayout.Y⟩

/-- The kernel `vs_image_scale_4tap_Y16`. -/
def vs_image_scale_4tap_Y16 : Kernel := ⟨KernelMethod.fourtap, PixelLayout.Y16⟩

/-- The kernel `vs_image_scale_4tap_RGB565`. -/
def vs_image_scale_4tap_RGB565 : Kernel := ⟨KernelMethod.fourtap, PixelLayout.RGB565⟩

/-- The kernel `vs_image_scale_4tap_RGB555`. -/
def vs_image_scale_4tap_RGB555 : Kernel := ⟨KernelMethod.fourtap, PixelLayout.RGB555⟩

/-- Which pair of local descriptors of `gst_video_scale_transform` a kernel
is handed: `(&dest, &src)`, `(&dest_u, &src_u)` or `(&dest_v, &src_v)`. -/
inductive Plane
  | main
  | u
  | v
  deriving DecidableEq, Repr

/-- One kernel call `kernel (&dest, &src, videoscale->tmp_buf)` with the
contents of the two descriptors at the time of the call. -/
structure KernelCall where
  kernel : Kernel
  plane : Plane
  dest : VSImage
  src : VSImage
  deriving DecidableEq, Repr

/-- The local descriptors of `gst_video_scale_transform`. -/
structure TransformLocals where
  dest : VSImage
  src : VSImage
  dest_u : VSImage
  dest_v : VSImage
  src_u : VSImage
  src_v : VSImage
  deriving DecidableEq, Repr

/-- The type `GstFlowReturn`, as far as the function returns it. -/
inductive GstFlowReturn
  | GST_FLOW_OK
  | GST_FLOW_ERROR
  deriving DecidableEq, Repr

open GstFlowReturn

/-- The inner `switch (videoscale->format)` of `case GST_VIDEO_SCALE_NEAREST`: `none` is `goto unsupported`. -/
def scale_nearest (format : Int) (l : TransformLocals) : Option (List KernelCall) :=
  match format_of_code format with
  | some GST_VIDEO_SCALE_RGBx
  | some GST_VIDEO_SCALE_xRGB
  | some GST_VIDEO_SCALE_BGRx
  | some GST_VIDEO_SCALE_xBGR
  | some GST_VIDEO_SCALE_RGBA
  | some GST_VIDEO_SCALE_ARGB
  | some GST_VIDEO_SCALE_BGRA
  | some GST_VIDEO_SCALE_ABGR
  | some GST_VIDEO_SCALE_AYUV =>
    some [⟨vs_image_scale_nearest_RGBA, Plane.main, l.dest, l.src⟩]
  | some GST_VIDEO_SCALE_RGB
  | some GST_VIDEO_SCALE_BGR
  | some GST_VIDEO_SCALE_v308 =>
    some [⟨vs_image_scale_nearest_RGB, Plane.main, l.dest, l.src⟩]
  | some GST_VIDEO_SCALE_YUY2
  | some GST_VIDEO_SCALE_YVYU =>
    some [⟨vs_image_scale_nearest_YUYV, Plane.main, l.dest, l.src⟩]
  | some GST_VIDEO_SCALE_UYVY =>
    some [⟨vs_image_scale_nearest_UYVY, Plane.main, l.dest, l.src⟩]
  | some GST_VIDEO_SCALE_Y
  | some GST_VIDEO_SCALE_GRAY8 =>
    some [⟨vs_image_scale_nearest_Y, Plane.main, l.dest, l.src⟩]
  | some GST_VIDEO_SCALE_GRAY16 =>
    some [⟨vs_image_scale_nearest_Y16, Plane.main, l.dest, l.src⟩]
  | some GST_VIDEO_SCALE_I420
  | some GST_VIDEO_SCALE_YV12
  | some GST_VIDEO_SCALE_Y444
  | some GST_VIDEO_SCALE_Y42B
  | some GST_VIDEO_SCALE_Y41B =>
    some [⟨vs_image_scale_nearest_Y, Plane.main, l.dest, l.src⟩,
      ⟨vs_image_scale_nearest_Y, Plane.u, l.dest_u, l.src_u⟩,
      ⟨vs_image_scale_nearest_Y, Plane.v, l.dest_v, l.src_v⟩]
  | some GST_VIDEO_SCALE_RGB565 =>
    some [⟨vs_image_scale_nearest_RGB565, Plane.main, l.dest, l.src⟩]
  | some GST_VIDEO_SCALE_RGB555 =>
    some [⟨vs_image_scale_nearest_RGB555, Plane.main, l.dest, l.src⟩]
  | none => none

/-- The inner `switch (videoscale->format)` of `case GST_VIDEO_SCALE_BILINEAR`: `none` is `goto unsupported`. -/
def scale_linear (format : Int) (l : TransformLocals) : Option (List KernelCall) :=
  match format_of_code format with
  | some GST_VIDEO_SCALE_RGBx
  | some GST_VIDEO_SCALE_xRGB
  | some GST_VIDEO_SCALE_BGRx
  | some GST_VIDEO_SCALE_xBGR
  | some GST_VIDEO_SCALE_RGBA
  | some GST_VIDEO_SCALE_ARGB
  | some GST_VIDEO_SCALE_BGRA
  | some GST_VIDEO_SCALE_ABGR
  | some GST_VIDEO_SCALE_AYUV =>
    some [⟨vs_image_scale_linear_RGBA, Plane.main, l.dest, l.src⟩]
  | some GST_VIDEO_SCALE_RGB
  | some GST_VIDEO_SCALE_BGR
  | some GST_VIDEO_SCALE_v308 =>
    some [⟨vs_image_scale_linear_RGB, Plane.main, l.dest, l.src⟩]
  | some GST_VIDEO_SCALE_YUY2
  | some GST_VIDEO_SCALE_YVYU =>
    some [⟨vs_image_scale_linear_YUYV, Plane.main, l.dest, l.src⟩]
  | some GST_VIDEO_SCALE_UYVY =>
    some [⟨vs_image_scale_linear_UYVY, Plane.main, l.dest, l.src⟩]
  | some GST_VIDEO_SCALE_Y
  | some GST_VIDEO_SCALE_GRAY8 =>
    some [⟨vs_image_scale_linear_Y, Plane.main, l.dest, l.src⟩]
  | some GST_VIDEO_SCALE_GRAY16 =>
    some [⟨vs_image_scale_linear_Y16, Plane.main, l.dest, l.src⟩]
  | some GST_VIDEO_SCALE_I420
  | some GST_VIDEO_SCALE_YV12
  | some GST_VIDEO_SCALE_Y444
  | some GST_VIDEO_SCALE_Y42B
  | some GST_VIDEO_SCALE_Y41B =>
    some [⟨vs_image_scale_linear_Y, Plane.main, l.dest, l.src⟩,
      ⟨vs_image_scale_linear_Y, Plane.u, l.dest_u, l.src_u⟩,
      ⟨vs_image_scale_linear_Y, Plane.v, l.dest_v, l.src_v⟩]
  | some GST_VIDEO_SCALE_RGB565 =>
    some [⟨vs_image_scale_linear_RGB565, Plane.main, l.dest, l.src⟩]
  | some GST_VIDEO_SCALE_RGB555 =>
    some [⟨vs_image_scale_linear_RGB555, Plane.main, l.dest, l.src⟩]
  | none => none

/-- The inner `switch (videoscale->format)` of `case GST_VIDEO_SCALE_4TAP`: `none` is `goto unsupported`. -/
def scale_4tap (format : Int) (l : TransformLocals) : Option (List KernelCall) :=
  match format_of_code format with
  | some GST_VIDEO_SCALE_RGBx
  | some GST_VIDEO_SCALE_xRGB
  | some GST_VIDEO_SCALE_BGRx
  | some GST_VIDEO_SCALE_xBGR
  | some GST_VIDEO_SCALE_RGBA
  | some GST_VIDEO_SCALE_ARGB
  | some GST_VIDEO_SCALE_BGRA
  | some GST_VIDEO_SCALE_ABGR
  | some GST_VIDEO_SCALE_AYUV =>
    some [⟨vs_image_scale_4tap_RGBA, Plane.main, l.dest, l.src⟩]
  | some GST_VIDEO_SCALE_RGB
  | some GST_VIDEO_SCALE_BGR
  | some GST_VIDEO_SCALE_v308 =>
    some [⟨vs_image_scale_4tap_RGB, Plane.main, l.dest, l.src⟩]
  | some GST_VIDEO_SCALE_YUY2
  | some GST_VIDEO_SCALE_YVYU =>
    some [⟨vs_image_scale_4tap_YUYV, Plane.main, l.dest, l.src⟩]
  | some GST_VIDEO_SCALE_UYVY =>
    some [⟨vs_image_scale_4tap_UYVY, Plane.main, l.dest, l.src⟩]
  | some GST_VIDEO_SCALE_Y
  | some GST_VIDEO_SCALE_GRAY8 =>
    some [⟨vs_image_scale_4tap_Y, Plane.main, l.dest, l.src⟩]
  | some GST_VIDEO_SCALE_GRAY16 =>
    some [⟨vs_image_scale_4tap_Y16, Plane.main, l.dest, l.src⟩]
  | some GST_VIDEO_SCALE_I420
  | some GST_VIDEO_SCALE_YV12
  | some GST_VIDEO_SCALE_Y444
  | some GST_VIDEO_SCALE_Y42B
  | some GST_VIDEO_SCALE_Y41B =>
    some [⟨vs_image_scale_4tap_Y, Plane.main, l.dest, l.src⟩,
      ⟨vs_image_scale_4tap_Y, Plane.u, l.dest_u, l.src_u⟩,
      ⟨vs_image_scale_4tap_Y, Plane.v, l.dest_v, l.src_v⟩]
  | some GST_VIDEO_SCALE_RGB565 =>
    some [⟨vs_image_scale_4tap_RGB565, Plane.main, l.dest, l.src⟩]
  | some GST_VIDEO_SCALE_RGB555 =>
    some [⟨vs_image_scale_4tap_RGB555, Plane.main, l.dest, l.src⟩]
  | none => none

/-- The `switch (method)` of the loop body: `none` is a jump to `unsupported`
or to `unknown_mode`, both of which return `GST_FLOW_ERROR`. -/
def scale_switch (method format : Int) (l : TransformLocals) : Option (List KernelCall) :=
  if method = GST_VIDEO_SCALE_NEAREST then scale_nearest format l
  else if method = GST_VIDEO_SCALE_BILINEAR then scale_linear format l
  else if method = GST_VIDEO_SCALE_4TAP then scale_4tap format l
  else none

/-- The loop body of `gst_video_scale_transform` before the `switch`: the two
calls of `gst_video_scale_prepare_image` and the per-field adjustment of the
local `src` and `dest`; `inb` and `outb` are `GST_BUFFER_DATA` of the
buffers. -/
def transform_fields (videoscale : GstVideoScale) (inb outb : Int)
    (interlaced : Bool) (step : Int) (l : TransformLocals) : TransformLocals :=
  let s := gst_video_scale_prepare_image videoscale.format inb videoscale.src
    l.src_u l.src_v step interlaced
  let d := gst_video_scale_prepare_image videoscale.format outb videoscale.dest
    l.dest_u l.dest_v step interlaced
  let l := { l with src_u := s.1, src_v := s.2, dest_u := d.1, dest_v := d.2 }
  if step = 0 ∧ interlaced then
    let l := if Int.tmod videoscale.from_height 2 = 1
      then { l with src := { l.src with height := l.src.height + 1 } } else l
    let l := if Int.tmod videoscale.to_height 2 = 1
      then { l with dest := { l.dest with height := l.dest.height + 1 } } else l
    l
  else if step = 1 ∧ interlaced then
    let l := if Int.tmod videoscale.from_height 2 = 1
      then { l with src := { l.src with height := l.src.height - 1 } } else l
    let l := if Int.tmod videoscale.to_height 2 = 1
      then { l with dest := { l.dest with height := l.dest.height - 1 } } else l
    let l := { l with src := { l.src with pixels := l.src.pixels + Int.tdiv l.src.stride 2 } }
    let l := { l with dest := { l.dest with pixels := l.dest.pixels + Int.tdiv l.dest.stride 2 } }
    l
  else l

/-- The loop `for (step = 0; step < (interlaced ? 2 : 1); step++)`, with
`n` iterations left to run from `step`; `calls` are the kernel calls made so
far. -/
def transform_loop (videoscale : GstVideoScale) (inb outb : Int) (method : Int)
    (interlaced : Bool) : Nat → Int → TransformLocals → List KernelCall →
    GstFlowReturn × List KernelCall
  | 0, _, _, calls => (GST_FLOW_OK, calls)
  | n + 1, step, l, calls =>
    let l := transform_fields videoscale inb outb interlaced step l
    match scale_switch method videoscale.format l with
    | none => (GST_FLOW_ERROR, calls)
    | some cs => transform_loop videoscale inb outb method interlaced n (step + 1) l (calls ++ cs)

/-- The function `gst_video_scale_transform`: the returned `GstFlowReturn` and
the kernel calls made, in order; `inb` and `outb` are `GST_BUFFER_DATA (in)`
and `GST_BUFFER_DATA (out)`. -/
def gst_video_scale_transform (videoscale : GstVideoScale) (inb outb : Int) :
    GstFlowReturn × List KernelCall :=
  let dest := videoscale.dest
  let src := videoscale.src
  let interlaced := videoscale.interlaced
  let method := videoscale.method
  let src := { src with pixels := inb }
  let dest := { dest with pixels := outb }
  let dest := if interlaced then { dest with height := Int.tdiv dest.height 2 } else dest
  let src := if interlaced then { src with height := Int.tdiv src.height 2 } else src
  let dest := if interlaced then { dest with stride := dest.stride * 2 } else dest
  let src := if interlaced then { src with stride := src.stride * 2 } else src
  let method := if src.height < 4 ∧ method = GST_VIDEO_SCALE_4TAP
    then GST_VIDEO_SCALE_BILINEAR else method
  transform_loop videoscale inb outb method interlaced (if interlaced then 2 else 1) 0
    ⟨dest, src, ⟨0, 0, 0, 0⟩, ⟨0, 0, 0, 0⟩, ⟨0, 0, 0, 0⟩, ⟨0, 0, 0, 0⟩⟩ []

/-! ## `gst_video_scale_fixate_caps` -/

/-- Modelled from the spec: the value of the "width" or "height" field of a
caps structure (`GstStructure` is not among the sources): missing, a fixed
integer, or the open range of §4.3 step 6. -/
inductive IntField
  | absent
  | fixed (v : Int)
  | range (lo hi : Int)
  deriving DecidableEq, Repr

/-- Modelled from the spec: the value of the "pixel-aspect-ratio" field of a
caps structure (`GstStructure` is not among the sources): missing, a fixed
fraction `n/d`, or unconstrained (§4.3 step 1). -/
inductive FractionField
  | absent
  | fixed (n d : Int)
  | unconstrained
  deriving DecidableEq, Repr

/-- The fields of the first structure of a caps that
`gst_video_scale_fixate_caps` reads or writes. -/
structure CapsStructure where
  width : IntField
  height : IntField
  par : FractionField
  deriving DecidableEq, Repr

/-- The constant `G_MAXINT` of a 32-bit `gint`. -/
def G_MAXINT : Int := 2147483647

/-- The constant `G_MAXUINT64`. -/
def G_MAXUINT64 : Int := 18446744073709551615

/-- Modelled from the spec: `gst_caps_is_fixed` of the GStreamer core, which is
not among the sources: no field of the structure is open. -/
def gst_caps_is_fixed (s : CapsStructure) : Bool :=
  (match s.width with | IntField.range _ _ => false | _ => true)
  && (match s.height with | IntField.range _ _ => false | _ => true)
  && (match s.par with | FractionField.unconstrained => false | _ => true)

/-- Modelled from the spec: `gst_structure_get_int` of the GStreamer core,
which is not among the sources: success and the value for a fixed integer
field; otherwise failure, the variable keeping its previous value `old`. -/
def gst_structure_get_int (f : IntField) (old : Int) : Bool × Int :=
  match f with
  | IntField.fixed v => (true, v)
  | _ => (false, old)

/-- Modelled from the spec: `gst_structure_fixate_field_nearest_int` of the
GStreamer core, which is not among the sources; §4.3 step 6: "Round the
derived dimension to the nearest integer satisfying any open range
constraint".  A fixed or missing field is left as it is. -/
def gst_structure_fixate_field_nearest_int (f : IntField) (target : Int) : IntField :=
  match f with
  | IntField.range lo hi =>
    let target := if target < lo then lo else target
    let target := if target > hi then hi else target
    IntField.fixed target
  | other => other

/-- Modelled from the spec: `gst_structure_fixate_field_nearest_fraction` of
the GStreamer core, which is not among the sources; §4.3 step 1: "If
destination PAR is unconstrained, default it to source PAR". -/
def gst_structure_fixate_field_nearest_fraction (f : FractionField) (n d : Int) :
    FractionField :=
  match f with
  | FractionField.unconstrained => FractionField.fixed n d
  | other => other

/-- Modelled from the spec: `gst_video_calculate_display_ratio` of
gst-libs/gst/video/video.c, which is not among the sources; §4.3 step 3:
"Compute reduced display-ratio fraction `num/den` from (src_w, src_h, src_par,
dst_par); overflow in the cross-multiplication is fatal".  `none` is the
return of `FALSE`; a cross product that is not positive gives no ratio
either. -/
def gst_video_calculate_display_ratio (video_width video_height video_par_n video_par_d
    display_par_n display_par_d : Int) : Option (Int × Int) :=
  let n := video_width * video_par_n * display_par_d
  let d := video_height * video_par_d * display_par_n
  if n ≤ 0 ∨ d ≤ 0 ∨ G_MAXINT < n ∨ G_MAXINT < d then none
  else some (n / (Int.gcd n d : Int), d / (Int.gcd n d : Int))

/-- Modelled from the spec: `gst_util_uint64_scale_int` of the GStreamer core,
which is not among the sources; §4.3 step 4 derives a dimension "via the
ratio".  The library function computes `val * num / denom` in 64-bit
unsigned arithmetic, truncates a quotient that is no integer, and returns
`G_MAXUINT64` when the arguments are refused or the result does not fit. -/
def gst_util_uint64_scale_int (val num denom : Int) : Int :=
  if denom ≤ 0 ∨ num < 0 then G_MAXUINT64
  else if G_MAXUINT64 < val * num / denom then G_MAXUINT64
  else val * num / denom

/-- The expression `(guint) gst_util_uint64_scale_int (val, num, denom)` as
stored in a `gint`: `val` is converted to `guint64`, the result is cut to 32
bits by the cast and read back as a signed 32-bit integer. -/
def scale_to_gint (val num denom : Int) : Int :=
  let r := gst_util_uint64_scale_int (val % 2 ^ 64) num denom
  let r := r % 2 ^ 32
  if r < 2 ^ 31 then r else r - 2 ^ 32

/-- The statements of `gst_video_scale_fixate_caps` from
`/* if one of the output width or height is fixed, we work from there */` to
`/* now fixate */`: the final `(w, h)`, given the `w` and `h` read from the
destination (0 where not fixed).  In `from_h % den` and `from_w % num` the
`gint` operand is converted to `guint`. -/
def fixate_scaled_size (from_w from_h w h num den : Int) : Int × Int :=
  if h ≠ 0 then
    (scale_to_gint h num den, h)
  else if w ≠ 0 then
    (w, scale_to_gint w den num)
  else
    if (from_h % 2 ^ 32) % den = 0 then
      (scale_to_gint from_h num den, from_h)
    else if (from_w % 2 ^ 32) % num = 0 then
      (from_w, scale_to_gint from_w den num)
    else
      (scale_to_gint from_h num den, from_h)

/-- What `gst_video_scale_fixate_caps` leaves behind: the first structure of
`othercaps`, and whether `GST_ELEMENT_ERROR (base, CORE, NEGOTIATION, ...)`
was posted. -/
structure FixateResult where
  othercaps : CapsStructure
  error : Bool
  deriving DecidableEq, Repr

/-- The branch `if (from_par && to_par)` of `gst_video_scale_fixate_caps`
from the reading of `to_par_n`, `to_par_d` on: `outs` already holds the
fixated destination pixel-aspect-ratio `to_par_n / to_par_d`.  `from_w` and
`from_h` are read from `ins` (0 stands for the indeterminate value of the
locals when the field is missing). -/
def fixate_with_par (ins outs : CapsStructure)
    (from_par_n from_par_d to_par_n to_par_d : Int) : FixateResult :=
  let rw := gst_structure_get_int outs.width 0
  let rh := gst_structure_get_int outs.height 0
  let count := (if rw.1 then 1 else 0) + (if rh.1 then 1 else 0)
  if count = 2 then ⟨outs, false⟩
  else
    let from_w := (gst_structure_get_int ins.width 0).2
    let from_h := (gst_structure_get_int ins.height 0).2
    match gst_video_calculate_display_ratio from_w from_h from_par_n from_par_d
        to_par_n to_par_d with
    | none => ⟨outs, true⟩
    | some (num, den) =>
      let wh := fixate_scaled_size from_w from_h rw.2 rh.2 num den
      let outs := { outs with
        width := gst_structure_fixate_field_nearest_int outs.width wh.1 }
      let outs := { outs with
        height := gst_structure_fixate_field_nearest_int outs.height wh.2 }
      ⟨outs, false⟩

/-- The `else` branch of `gst_video_scale_fixate_caps`: a pixel-aspect-ratio
is missing on one side. -/
def fixate_without_par (ins outs : CapsStructure) : FixateResult :=
  let r := gst_structure_get_int ins.width 0
  let outs :=
    if r.1 then
      (if outs.width ≠ IntField.absent then
        { outs with width := gst_structure_fixate_field_nearest_int outs.width r.2 }
      else outs)
    else outs
  let r := gst_structure_get_int ins.height 0
  let outs :=
    if r.1 then
      (if outs.height ≠ IntField.absent then
        { outs with height := gst_structure_fixate_field_nearest_int outs.height r.2 }
      else outs)
    else outs
  ⟨outs, false⟩

/-- The function `gst_video_scale_fixate_caps` on the first structures of
`caps` and `othercaps`.  The two `g_return_if_fail` return with nothing
changed.  `to_par` points into `outs`, so after
`gst_structure_fixate_field_nearest_fraction` it reads the fixated
fraction. -/
def gst_video_scale_fixate_caps (caps othercaps : CapsStructure) : FixateResult :=
  if !gst_caps_is_fixed caps then ⟨othercaps, false⟩
  else
    let ins := caps
    let outs := othercaps
    match ins.par, outs.par with
    | FractionField.fixed from_par_n from_par_d, FractionField.fixed to_par_n to_par_d =>
      fixate_with_par ins outs from_par_n from_par_d to_par_n to_par_d
    | FractionField.fixed from_par_n from_par_d, FractionField.unconstrained =>
      let outs := { outs with par :=
        gst_structure_fixate_field_nearest_fraction outs.par from_par_n from_par_d }
      match outs.par with
      | FractionField.fixed to_par_n to_par_d =>
        fixate_with_par ins outs from_par_n from_par_d to_par_n to_par_d
      | _ => ⟨outs, false⟩
    | FractionField.unconstrained, FractionField.fixed _ _ => ⟨outs, false⟩
    | FractionField.unconstrained, FractionField.unconstrained => ⟨outs, false⟩
    | _, _ => fixate_without_par ins outs

/-! ## Vocabulary of the statements -/

/-- The planar formats: the five formats for which
`gst_video_scale_prepare_image` fills `img_u` and `img_v` and for which
`gst_video_scale_transform` scales three planes. -/
def is_planar (f : VideoScaleFormat) : Prop :=
  f = GST_VIDEO_SCALE_I420 ∨ f = GST_VIDEO_SCALE_YV12 ∨ f = GST_VIDEO_SCALE_Y444
    ∨ f = GST_VIDEO_SCALE_Y42B ∨ f = GST_VIDEO_SCALE_Y41B

/-- The number of bytes one pixel takes in a row of the plane that
`gst_video_scale_prepare_size` lays out (the packed plane, or the luma plane
of a planar format): the factor by which that function multiplies the width
before rounding, 1 where it does not multiply. -/
def bytes_per_pixel : VideoScaleFormat → Int
  | GST_VIDEO_SCALE_RGBA | GST_VIDEO_SCALE_ARGB | GST_VIDEO_SCALE_BGRA
  | GST_VIDEO_SCALE_ABGR | GST_VIDEO_SCALE_AYUV | GST_VIDEO_SCALE_RGBx
  | GST_VIDEO_SCALE_xRGB | GST_VIDEO_SCALE_BGRx | GST_VIDEO_SCALE_xBGR => 4
  | GST_VIDEO_SCALE_v308 | GST_VIDEO_SCALE_RGB | GST_VIDEO_SCALE_BGR => 3
  | GST_VIDEO_SCALE_YUY2 | GST_VIDEO_SCALE_YVYU | GST_VIDEO_SCALE_UYVY
  | GST_VIDEO_SCALE_RGB565 | GST_VIDEO_SCALE_RGB555 | GST_VIDEO_SCALE_GRAY16 => 2
  | GST_VIDEO_SCALE_Y444 | GST_VIDEO_SCALE_Y42B | GST_VIDEO_SCALE_I420
  | GST_VIDEO_SCALE_YV12 | GST_VIDEO_SCALE_Y41B | GST_VIDEO_SCALE_GRAY8
  | GST_VIDEO_SCALE_Y => 1

/-- The `(src, dest)` descriptor pairs of the calls made on the locals
`(&dest, &src)`, the luma or packed plane, in call order. -/
def main_planes (calls : List KernelCall) : List (VSImage × VSImage) :=
  (calls.filter (fun c => c.plane = Plane.main)).map (fun c => (c.src, c.dest))

/-- The element after `gst_video_scale_init`: `tmp_buf = NULL`,
`method = DEFAULT_PROP_METHOD` (bilinear), every other field as the zeroed
instance memory leaves it. -/
def gst_video_scale_init : GstVideoScale :=
  { method := GST_VIDEO_SCALE_BILINEAR, format := 0, from_width := 0, from_height := 0,
    to_width := 0, to_height := 0, src := ⟨0, 0, 0, 0⟩, dest := ⟨0, 0, 0, 0⟩,
    src_size := 0, dest_size := 0, interlaced := false, tmp_buf := none }

/-- The value of the local `method` of `gst_video_scale_transform` when the
loop starts: the element's method, replaced by bilinear when it is 4-tap and
the local `src.height` (halved for interlaced content) is below 4. -/
def effective_method (videoscale : GstVideoScale) : Int :=
  if (if videoscale.interlaced then Int.tdiv videoscale.src.height 2
        else videoscale.src.height) < 4
      ∧ videoscale.method = GST_VIDEO_SCALE_4TAP
  then GST_VIDEO_SCALE_BILINEAR else videoscale.method

/-- The algorithm of the kernels called under `case method` of the
`switch (method)`, `none` for `default`. -/
def kernel_method_of (method : Int) : Option KernelMethod :=
  if method = GST_VIDEO_SCALE_NEAREST then some KernelMethod.nearest
  else if method = GST_VIDEO_SCALE_BILINEAR then some KernelMethod.linear
  else if method = GST_VIDEO_SCALE_4TAP then some KernelMethod.fourtap
  else none

/-- The algorithm and plane of every call of one pass, in call order. -/
def pass_shape (km : KernelMethod) (planar : Bool) : List (KernelMethod × Plane) :=
  if planar then [(km, Plane.main), (km, Plane.u), (km, Plane.v)] else [(km, Plane.main)]

/-- Membership in the planar formats is decidable. -/
instance (f : VideoScaleFormat) : Decidable (is_planar f) := by
  unfold is_planar; infer_instance

/-- A "width" or "height" field that lies in the size range of the pad
templates, `GST_VIDEO_SIZE_RANGE` = "(int) [ 1, 32767]": a fixed value in the
range, or a non-empty part of it. -/
def within_size_range : IntField → Prop
  | IntField.absent => False
  | IntField.fixed v => 1 ≤ v ∧ v ≤ 32767
  | IntField.range lo hi => 1 ≤ lo ∧ lo ≤ hi ∧ hi ≤ 32767

/-- Membership in the size range is decidable. -/
instance (f : IntField) : Decidable (within_size_range f) := by
  cases f <;> unfold within_size_range <;> infer_instance

/-- The pixel-layout family of a format, as the description of the dispatch
puts it: RGBA for the nine 4-byte formats, RGB for RGB, BGR and v308, YUYV
for YUY2 and YVYU, UYVY for UYVY, Y for GRAY8 / Y800 and for the planar
formats, Y16 for GRAY16, and RGB565 and RGB555 for themselves.  It is
compared with the kernels that `gst_video_scale_transform` calls. -/
def layout_family : VideoScaleFormat → PixelLayout
  | GST_VIDEO_SCALE_RGBA | GST_VIDEO_SCALE_ARGB | GST_VIDEO_SCALE_BGRA
  | GST_VIDEO_SCALE_ABGR | GST_VIDEO_SCALE_AYUV | GST_VIDEO_SCALE_RGBx
  | GST_VIDEO_SCALE_xRGB | GST_VIDEO_SCALE_BGRx | GST_VIDEO_SCALE_xBGR => PixelLayout.RGBA
  | GST_VIDEO_SCALE_RGB | GST_VIDEO_SCALE_BGR | GST_VIDEO_SCALE_v308 => PixelLayout.RGB
  | GST_VIDEO_SCALE_YUY2 | GST_VIDEO_SCALE_YVYU => PixelLayout.YUYV
  | GST_VIDEO_SCALE_UYVY => PixelLayout.UYVY
  | GST_VIDEO_SCALE_GRAY8 | GST_VIDEO_SCALE_Y | GST_VIDEO_SCALE_I420
  | GST_VIDEO_SCALE_YV12 | GST_VIDEO_SCALE_Y444 | GST_VIDEO_SCALE_Y42B
  | GST_VIDEO_SCALE_Y41B => PixelLayout.Y
  | GST_VIDEO_SCALE_GRAY16 => PixelLayout.Y16
  | GST_VIDEO_SCALE_RGB565 => PixelLayout.RGB565
  | GST_VIDEO_SCALE_RGB555 => PixelLayout.RGB555

/-- The local descriptors of `gst_video_scale_transform` when the loop is
entered: `src` and `dest` point at the buffers and, for interlaced content,
have half the height and twice the stride; the chroma descriptors are
zeroed. -/
def initial_locals (videoscale : GstVideoScale) (inb outb : Int) : TransformLocals :=
  ⟨⟨outb, videoscale.dest.width,
      if videoscale.interlaced then Int.tdiv videoscale.dest.height 2
        else videoscale.dest.height,
      if videoscale.interlaced then videoscale.dest.stride * 2 else videoscale.dest.stride⟩,
    ⟨inb, videoscale.src.width,
      if videoscale.interlaced then Int.tdiv videoscale.src.height 2
        else videoscale.src.height,
      if videoscale.interlaced then videoscale.src.stride * 2 else videoscale.src.stride⟩,
    ⟨0, 0, 0, 0⟩, ⟨0, 0, 0, 0⟩, ⟨0, 0, 0, 0⟩, ⟨0, 0, 0, 0⟩⟩

/-- The local descriptors at the `switch (method)` of pass `step` (0 or 1) of
the loop of `gst_video_scale_transform`. -/
def pass_locals (videoscale : GstVideoScale) (inb outb : Int) : Nat → TransformLocals
  | 0 => transform_fields videoscale inb outb videoscale.interlaced 0
      (initial_locals videoscale inb outb)
  | n + 1 => transform_fields videoscale inb outb videoscale.interlaced (n + 1 : Nat)
      (pass_locals videoscale inb outb n)

/-- The kernel calls of one pass for a catalog format and a kernel algorithm:
one call on the main plane, followed for a planar format by the calls on the U
and V planes. -/
def pass_calls (km : KernelMethod) (f : VideoScaleFormat) (l : TransformLocals) :
    List KernelCall :=
  ⟨⟨km, layout_family f⟩, Plane.main, l.dest, l.src⟩ ::
    (if is_planar f then
      [⟨⟨km, PixelLayout.Y⟩, Plane.u, l.dest_u, l.src_u⟩,
       ⟨⟨km, PixelLayout.Y⟩, Plane.v, l.dest_v, l.src_v⟩]
    else [])

/-- The start addresses of the rows of a plane descriptor: `pixels + stride * y`
for `0 <= y < height`. -/
def rows (img : VSImage) : List Int :=
  (List.range img.height.toNat).map (fun (y : Nat) => img.pixels + img.stride * (y : Int))

/-- Two field descriptors split a plane: their heights add up to the plane's
height, every row of the plane is a row of exactly one field, and a field has
no other rows. -/
def fields_split (full f0 f1 : VSImage) : Prop :=
  f0.height + f1.height = full.height
  ∧ (∀ a, a ∈ rows full ↔ (a ∈ rows f0 ∨ a ∈ rows f1))
  ∧ (∀ a, ¬ (a ∈ rows f0 ∧ a ∈ rows f1))

/-- The value of a `guint` that is assigned the integer `x`. -/
def to_guint (x : Int) : Int := x % 2 ^ 32

/-- The value of a 32-bit `gint` that holds the integer `x` modulo `2 ^ 32`. -/
def to_gint (x : Int) : Int := (x + 2 ^ 31) % 2 ^ 32 - 2 ^ 31

/-! ## The adder: `gst_adder_loop` of gst/adder/gstadder.c -/

/-- The constant `MAX_INT_32`. -/
def MAX_INT_32 : Int := 2147483647

/-- The constant `MAX_INT_16`. -/
def MAX_INT_16 : Int := 32767

/-- The constant `MAX_INT_8`. -/
def MAX_INT_8 : Int := 127

/-- The constant `MIN_INT_32`, written `(-2147483647L -1L)`. -/
def MIN_INT_32 : Int := -2147483647 - 1

/-- The constant `MIN_INT_16`. -/
def MIN_INT_16 : Int := -32768

/-- The constant `MIN_INT_8`. -/
def MIN_INT_8 : Int := -128

/-- Modelled from the spec: the macro `CLAMP` of GLib, which is not among the
sources (the spec leaves the adder out; the definition is GLib's
`(((x) > (high)) ? (high) : (((x) < (low)) ? (low) : (x)))`). -/
def CLAMP (x low high : Int) : Int :=
  if x > high then high else if x < low then low else x

/-- The value of a signed integer object of `bits` bits that is assigned, or
read from storage holding, the integer `x` modulo `2 ^ bits`. -/
def to_signed (bits : Nat) (x : Int) : Int :=
  (x + 2 ^ (bits - 1)) % 2 ^ bits - 2 ^ (bits - 1)

/-- Modelled from the spec: the formats `GST_ADDER_FORMAT_UNSET`,
`GST_ADDER_FORMAT_INT` and `GST_ADDER_FORMAT_FLOAT` of gstadder.h, which is not
among the sources (the spec leaves the adder out; these are the three names
the source uses). -/
inductive GstAdderFormat
  | GST_ADDER_FORMAT_UNSET
  | GST_ADDER_FORMAT_INT
  | GST_ADDER_FORMAT_FLOAT
  deriving DecidableEq, Repr

open GstAdderFormat

/-- The fields of `GstAdder` that `gst_adder_loop` tests. -/
structure GstAdder where
  format : GstAdderFormat
  width : Int
  channels : Int
  rate : Int
  deriving DecidableEq, Repr

/-- The event that `gst_bytestream_get_status` hands back after a short read;
for `GST_EVENT_INTERRUPT` the flag is the return of `gst_element_interrupt`. -/
inductive AdderEvent
  | GST_EVENT_EOS
  | GST_EVENT_INTERRUPT (interrupt : Bool)
  | other

/-- Modelled from the spec: one answer of the bytestream library, which is
not among the sources, to `gst_bytestream_peek_bytes (input->bytestream,
&raw_in, GST_BUFFER_SIZE (buf_out))`: the full size, with the samples found at
`raw_in` (sample `i` of the element's width), or fewer bytes, with the event
of `gst_bytestream_get_status`, if any. -/
inductive PeekResult
  | data (raw_in : Nat → Int)
  | short (event : Option AdderEvent)

/-- One entry of `adder->input_channels`: `GST_PAD_IS_USABLE (input->sinkpad)`
and the answers its bytestream gives to successive peeks (after the last one
it has no data and no event). -/
structure GstAdderInputChannel where
  usable : Bool
  peeks : List PeekResult

/-- How `gst_adder_loop` ends: `gst_pad_push` of the output buffer (its
samples in order), the return after `gst_element_interrupt`, or one of the
`GST_ELEMENT_ERROR` returns. -/
inductive AdderResult
  | pushed (buf_out : List Int)
  | interrupted
  | error_too_lazy
  | error_format
  | error_negotiation
  deriving DecidableEq, Repr

/-- The statement `out[i] = CLAMP (((gint64) out[i]) + ((gint64) in[i]),
MIN_INT_32, MAX_INT_32)` on `gint32` samples: the stored `out[i]` for the
samples `o` and `x` found in `out[i]` and `in[i]`. -/
def add_sample_32 (o x : Int) : Int :=
  to_signed 32 (CLAMP (to_signed 64 (to_signed 32 o + to_signed 32 x)) MIN_INT_32 MAX_INT_32)

/-- The statement `out[i] = CLAMP (out[i] + in[i], MIN_INT_16, MAX_INT_16)` on
`gint16` samples; the sum is an `int`. -/
def add_sample_16 (o x : Int) : Int :=
  to_signed 16 (CLAMP (to_signed 32 (to_signed 16 o + to_signed 16 x)) MIN_INT_16 MAX_INT_16)

/-- The statement `out[i] = CLAMP (out[i] + in[i], MIN_INT_8, MAX_INT_8)` on
`gint8` samples; the sum is an `int`. -/
def add_sample_8 (o x : Int) : Int :=
  to_signed 8 (CLAMP (to_signed 32 (to_signed 8 o + to_signed 8 x)) MIN_INT_8 MAX_INT_8)

/-- A loop `for (i = 0; i < n; i++) out[i] = f (out[i], in[i]);` over the `n`
samples of the output buffer, from index `i` on. -/
def mix_loop (f : Int → Int → Int) (raw_in : Nat → Int) : Nat → List Int → List Int
  | _, [] => []
  | i, o :: out => f o (raw_in i) :: mix_loop f raw_in (i + 1) out

/-- The number of samples that the loops of `gst_adder_loop` run over in the
1024 bytes of `buf_out`: `GST_BUFFER_SIZE (buf_out)` divided by the sample
size; the bytes themselves where no loop applies. -/
def sample_count (adder : GstAdder) : Nat :=
  match adder.format with
  | GST_ADDER_FORMAT_INT =>
    if adder.width = 32 then 1024 / 4 else if adder.width = 16 then 1024 / 2 else 1024
  | GST_ADDER_FORMAT_FLOAT =>
    if adder.width = 64 then 1024 / 8 else if adder.width = 32 then 1024 / 4 else 1024
  | GST_ADDER_FORMAT_UNSET => 1024

/-- The block under `/* here's where the data gets copied. */`: the output
samples after the input has been added, or `none` for a `GST_ELEMENT_ERROR`
return.  `float_mix width o x` stands for the floating-point
`CLAMP (out[i] + in[i], -1.0, 1.0)` on the representations of the samples,
which is not interpreted here. -/
def mix_channel (float_mix : Int → Int → Int → Int) (adder : GstAdder)
    (out : List Int) (raw_in : Nat → Int) : Option (List Int) :=
  match adder.format with
  | GST_ADDER_FORMAT_INT =>
    if adder.width = 32 then some (mix_loop add_sample_32 raw_in 0 out)
    else if adder.width = 16 then some (mix_loop add_sample_16 raw_in 0 out)
    else if adder.width = 8 then some (mix_loop add_sample_8 raw_in 0 out)
    else none
  | GST_ADDER_FORMAT_FLOAT =>
    if adder.width = 64 then some (mix_loop (float_mix 64) raw_in 0 out)
    else if adder.width = 32 then some (mix_loop (float_mix 32) raw_in 0 out)
    else none
  | GST_ADDER_FORMAT_UNSET => none

/-- What the body of `while (inputs)` does with one usable input, from the
label `repeat` on: `Except.ok out` goes on to the next input with the output
samples `out`, `Except.error r` returns from `gst_adder_loop`. -/
def peek_input (float_mix : Int → Int → Int → Int) (adder : GstAdder) (out : List Int) :
    List PeekResult → Except AdderResult (List Int)
  | [] => Except.ok out
  | PeekResult.data raw_in :: _ =>
    match mix_channel float_mix adder out raw_in with
    | none => Except.error AdderResult.error_format
    | some out => Except.ok out
  | PeekResult.short none :: _ => Except.ok out
  | PeekResult.short (some AdderEvent.GST_EVENT_EOS) :: _ => Except.ok out
  | PeekResult.short (some (AdderEvent.GST_EVENT_INTERRUPT true)) :: _ =>
    Except.error AdderResult.interrupted
  | PeekResult.short (some (AdderEvent.GST_EVENT_INTERRUPT false)) :: rest =>
    peek_input float_mix adder out rest
  | PeekResult.short (some AdderEvent.other) :: rest =>
    peek_input float_mix adder out rest

/-- The loop `while (inputs)` of `gst_adder_loop`. -/
def mix_inputs (float_mix : Int → Int → Int → Int) (adder : GstAdder) :
    List Int → List GstAdderInputChannel → Except AdderResult (List Int)
  | out, [] => Except.ok out
  | out, input :: inputs =>
    if !input.usable then mix_inputs float_mix adder out inputs
    else
      match peek_input float_mix adder out input.peeks with
      | Except.error r => Except.error r
      | Except.ok out => mix_inputs float_mix adder out inputs

/-- The function `gst_adder_loop`: `alloc_ok` tells whether
`gst_buffer_new_and_alloc (1024)` returned a buffer, `inputs` is
`adder->input_channels`.  The timestamp and offset bookkeeping that precedes
`gst_pad_push` is left out. -/
def gst_adder_loop (float_mix : Int → Int → Int → Int) (alloc_ok : Bool) (adder : GstAdder)
    (inputs : List GstAdderInputChannel) : AdderResult :=
  if !alloc_ok then AdderResult.error_too_lazy
  else
    let buf_out := List.replicate (sample_count adder) (0 : Int)
    match mix_inputs float_mix adder buf_out inputs with
    | Except.error r => r
    | Except.ok buf_out =>
      if adder.width = 0 then AdderResult.error_negotiation
      else if adder.channels = 0 then AdderResult.error_negotiation
      else if adder.rate = 0 then AdderResult.error_negotiation
      else AdderResult.pushed buf_out

/-- The least value of a signed sample of the given width (8, 16 or 32). -/
def sample_min (width : Int) : Int :=
  if width = 32 then MIN_INT_32 else if width = 16 then MIN_INT_16 else MIN_INT_8

/-- The greatest value of a signed sample of the given width (8, 16 or 32). -/
def sample_max (width : Int) : Int :=
  if width = 32 then MAX_INT_32 else if width = 16 then MAX_INT_16 else MAX_INT_8

/-- The value of the sample of the given width found in storage that holds
`x`. -/
def sample_read (width : Int) (x : Int) : Int := to_signed width.toNat x

/-! ## The nearest-neighbour kernels and the pass-through of the base class -/

/-- Modelled from the spec: the number of bytes of one sample of a kernel's
pixel layout (vs_image.c and vs_scanline.c are not among the sources); §4.4:
the kernels are "specialized by sample width (1/2/3/4 bytes, or 16-bit)". -/
def layout_bytes : PixelLayout → Int
  | PixelLayout.RGBA => 4
  | PixelLayout.RGB => 3
  | PixelLayout.YUYV => 2
  | PixelLayout.UYVY => 2
  | PixelLayout.Y => 1
  | PixelLayout.Y16 => 2
  | PixelLayout.RGB565 => 2
  | PixelLayout.RGB555 => 2

/-- The address of the first byte of sample `(x, y)` of a plane whose samples
take `bytes` bytes. -/
def sample_address (img : VSImage) (bytes x y : Int) : Int :=
  img.pixels + y * img.stride + x * bytes

/-- Modelled from the spec: the source sample that a nearest-neighbour kernel
copies to the destination sample `(x, y)` (vs_image.c is not among the
sources); §4.4: "destination sample (x,y) ← source sample at
(⌊x·src_w/dst_w⌋, ⌊y·src_h/dst_h⌋)". -/
def nearest_source (dest src : VSImage) (x y : Int) : Int × Int :=
  (x * src.width / dest.width, y * src.height / dest.height)

/-- Modelled from the spec: the memory after a call
`vs_image_scale_nearest_<layout> (&dest, &src, tmpbuf)` in terms of the memory
`mem` before it (vs_image.c is not among the sources); §4.4: every byte of a
destination sample `(x, y)` holds the byte of the source sample
`nearest_source dest src x y` at the same position in the sample, every other
byte is left alone. -/
def vs_image_scale_nearest (bytes : Int) (dest src : VSImage) (mem : Int → Int) :
    Int → Int :=
  fun a =>
    let off := a - dest.pixels
    let y := off / dest.stride
    let x := off % dest.stride / bytes
    let k := off % dest.stride % bytes
    if 0 < bytes ∧ 0 < dest.stride ∧ 0 ≤ off ∧ y < dest.height ∧ x < dest.width then
      mem (sample_address src bytes (nearest_source dest src x y).1
        (nearest_source dest src x y).2 + k)
    else mem a

/-- The memory after a kernel call, for the kernels whose effect is modelled:
the nearest-neighbour ones. -/
def kernel_run (c : KernelCall) (mem : Int → Int) : Option (Int → Int) :=
  match c.kernel.method with
  | KernelMethod.nearest =>
    some (vs_image_scale_nearest (layout_bytes c.kernel.layout) c.dest c.src mem)
  | _ => none

/-- Modelled from the spec: the class structure `GstBaseTransformClass` of the
GStreamer base library, which is not among the sources, as far as
`gst_video_scale_class_init` sets a flag in it. -/
structure GstBaseTransformClass where
  passthrough_on_same_caps : Bool
  deriving DecidableEq, Repr

/-- The function `gst_video_scale_class_init`, as far as the flag goes:
`trans_class->passthrough_on_same_caps = TRUE;`.  The installation of the
property and of the virtual methods is left out. -/
def gst_video_scale_class_init (klass : GstBaseTransformClass) : GstBaseTransformClass :=
  { klass with passthrough_on_same_caps := true }

/-- Modelled from the spec: the buffer that the base class `GstBaseTransform`
(not among the sources) pushes for the input buffer `inbuf`; §8: "Identity:
scaling a frame to its own dimensions with any method returns the source
bit-for-bit": with `passthrough_on_same_caps` set and the same caps on both
pads the element is in pass-through mode and the input buffer is pushed as it
is; otherwise the buffer `outbuf` filled by the `transform` method is
pushed. -/
def gst_base_transform_chain (klass : GstBaseTransformClass) (same_caps : Bool)
    (inbuf outbuf : List Int) : List Int :=
  if klass.passthrough_on_same_caps && same_caps then inbuf else outbuf

/-! ## Navigation events: `gst_video_scale_src_event` -/

/-- A value of the C type `double` (`gdouble`), IEEE 754 binary64: not a
number, an infinity with its sign, or the finite number `m * 2 ^ e` in the
encoding's own form: `2 ^ 52 <= |m| < 2 ^ 53` with `-1074 <= e <= 971`, or
`|m| < 2 ^ 52` with `e = -1074` (subnormal numbers and zero).  The sign of a
zero is not kept. -/
inductive GDouble
  | nan
  | inf (neg : Bool)
  | fin (m : Int) (e : Int)
  deriving DecidableEq, Repr

/-- The number of binary digits of `n`, added to `acc`, by halving at most
`fuel` times. -/
def bit_length_aux : Nat → Nat → Nat → Nat
  | 0, _, acc => acc
  | fuel + 1, n, acc => if n = 0 then acc else bit_length_aux fuel (n / 2) (acc + 1)

/-- The number of binary digits of `n < 2 ^ 256`: 0 for 0, else the `L` with
`2 ^ (L - 1) <= n < 2 ^ L`.  The bound covers every product and quotient of
significands that the operations below form. -/
def bit_length (n : Nat) : Nat := bit_length_aux 256 n 0

/-- The `double` nearest to `(-1) ^ neg * (m + t) * 2 ^ e`, where `0 < t < 1`
if `sticky` and `t = 0` otherwise: IEEE 754 rounding to nearest, ties to
even, with overflow to infinity and gradual underflow.  `s` is the number of
low digits of `m` that do not fit the 53 digits of the significand; with
`sticky` the digits of `m` are expected to exceed 54. -/
def round_to_double (neg : Bool) (m : Nat) (e : Int) (sticky : Bool) : GDouble :=
  if m = 0 then GDouble.fin 0 (-1074)
  else
    let sign : Int := if neg then -1 else 1
    let s : Int := max ((bit_length m : Int) - 53) (-1074 - e)
    if s ≤ 0 then
      if e + s > 971 then GDouble.inf neg
      else GDouble.fin (sign * ((m * 2 ^ (-s).toNat : Nat) : Int)) (e + s)
    else
      let q := m / 2 ^ s.toNat
      let r := m % 2 ^ s.toNat
      let half := 2 ^ (s.toNat - 1)
      let up := decide (r > half) || (decide (r = half) && (sticky || decide (q % 2 = 1)))
      let q := if up then q + 1 else q
      if q = 2 ^ 53 then
        (if e + s + 1 > 971 then GDouble.inf neg
          else GDouble.fin (sign * (2 ^ 52 : Nat)) (e + s + 1))
      else if e + s > 971 then GDouble.inf neg
      else GDouble.fin (sign * (q : Int)) (e + s)

/-- The conversion of a `gint` to `double`, which is exact. -/
def gdouble_of_int (x : Int) : GDouble :=
  round_to_double (decide (x < 0)) x.natAbs 0 false

/-- The product `a * b` of two `double`. -/
def gdouble_mul : GDouble → GDouble → GDouble
  | GDouble.nan, _ => GDouble.nan
  | _, GDouble.nan => GDouble.nan
  | GDouble.inf s, GDouble.inf t => GDouble.inf (xor s t)
  | GDouble.inf s, GDouble.fin m _ =>
    if m = 0 then GDouble.nan else GDouble.inf (xor s (decide (m < 0)))
  | GDouble.fin m _, GDouble.inf t =>
    if m = 0 then GDouble.nan else GDouble.inf (xor (decide (m < 0)) t)
  | GDouble.fin m1 e1, GDouble.fin m2 e2 =>
    round_to_double (xor (decide (m1 < 0)) (decide (m2 < 0))) (m1.natAbs * m2.natAbs)
      (e1 + e2) false

/-- The quotient `a / b` of two `double`; a zero divisor counts as `+0`, which
is what the conversion of the `gint` 0 gives. -/
def gdouble_div : GDouble → GDouble → GDouble
  | GDouble.nan, _ => GDouble.nan
  | _, GDouble.nan => GDouble.nan
  | GDouble.inf _, GDouble.inf _ => GDouble.nan
  | GDouble.inf s, GDouble.fin m _ => GDouble.inf (xor s (decide (m < 0)))
  | GDouble.fin _ _, GDouble.inf _ => GDouble.fin 0 (-1074)
  | GDouble.fin m1 e1, GDouble.fin m2 e2 =>
    if m2 = 0 then (if m1 = 0 then GDouble.nan else GDouble.inf (decide (m1 < 0)))
    else if m1 = 0 then GDouble.fin 0 (-1074)
    else
      let k := 55 + bit_length m2.natAbs - bit_length m1.natAbs
      let n := m1.natAbs * 2 ^ k
      round_to_double (xor (decide (m1 < 0)) (decide (m2 < 0))) (n / m2.natAbs)
        (e1 - e2 - (k : Int)) (decide (n % m2.natAbs ≠ 0))

/-- Modelled from the spec: the value of a field of a `GstStructure` (not
among the sources), as far as `gst_structure_get_double` tells: a `double`,
or a value of another type. -/
inductive GValue
  | double (d : GDouble)
  | other (v : String)
  deriving DecidableEq, Repr

/-- The type of an event, as far as the `switch (GST_EVENT_TYPE (event))`
tells. -/
inductive GstEventType
  | GST_EVENT_NAVIGATION
  | other (code : Int)
  deriving DecidableEq, Repr

/-- Modelled from the spec: a `GstEvent` (not among the sources): its type and
the fields of its structure, by name. -/
structure GstEvent where
  type : GstEventType
  fields : List (String × GValue)
  deriving DecidableEq, Repr

/-- Modelled from the spec: `gst_structure_get_double` of the GStreamer core,
which is not among the sources: the value of the field if it exists and holds
a `double`, `none` for the return of `FALSE`. -/
def gst_structure_get_double (fields : List (String × GValue)) (name : String) :
    Option GDouble :=
  match fields.lookup name with
  | some (GValue.double d) => some d
  | _ => none

/-- Modelled from the spec: `gst_structure_set (structure, name, G_TYPE_DOUBLE,
d, NULL)` of the GStreamer core, which is not among the sources, on a
structure that has the field: the field gets the value, the others stay. -/
def gst_structure_set_double (fields : List (String × GValue)) (name : String)
    (d : GDouble) : List (String × GValue) :=
  fields.map (fun p => if p.1 = name then (p.1, GValue.double d) else p)

/-- The function `gst_video_scale_src_event`: the event handed to the
`src_event` of the parent class, and the value that call returns
(`parent_src_event`), which the function returns; `s` is the local
`structure`. -/
def gst_video_scale_src_event (videoscale : GstVideoScale)
    (parent_src_event : GstEvent → Bool) (event : GstEvent) : Bool × GstEvent :=
  let event :=
    match event.type with
    | GstEventType.GST_EVENT_NAVIGATION =>
      let s := event.fields
      let s :=
        match gst_structure_get_double s "pointer_x" with
        | some a =>
          gst_structure_set_double s "pointer_x"
            (gdouble_div (gdouble_mul a (gdouble_of_int videoscale.from_width))
              (gdouble_of_int videoscale.to_width))
        | none => s
      let s :=
        match gst_structure_get_double s "pointer_y" with
        | some a =>
          gst_structure_set_double s "pointer_y"
            (gdouble_div (gdouble_mul a (gdouble_of_int videoscale.from_height))
              (gdouble_of_int videoscale.to_height))
        | none => s
      { event with fields := s }
    | _ => event
  (parent_src_event event, event)

/-- The fields that `gst_video_scale_src_event` leaves in a navigation event
with the fields `s`: the body of the case `GST_EVENT_NAVIGATION`, named to
state facts about it. -/
def navigation_fields (videoscale : GstVideoScale) (s : List (String × GValue)) :
    List (String × GValue) :=
  let s :=
    match gst_structure_get_double s "pointer_x" with
    | some a =>
      gst_structure_set_double s "pointer_x"
        (gdouble_div (gdouble_mul a (gdouble_of_int videoscale.from_width))
          (gdouble_of_int videoscale.to_width))
    | none => s
  match gst_structure_get_double s "pointer_y" with
  | some a =>
    gst_structure_set_double s "pointer_y"
      (gdouble_div (gdouble_mul a (gdouble_of_int videoscale.from_height))
        (gdouble_of_int videoscale.to_height))
  | none => s

/-! ## Auxiliary facts -/

theorem format_of_code_code_of_format (f : VideoScaleFormat) :
    format_of_code (code_of_format f) = some f := by
  cases f <;> rfl

theorem chroma_stride_agree (w : Int) :
    GST_ROUND_UP_4 (GST_ROUND_UP_2 w / 2) = GST_ROUND_UP_4 (GST_ROUND_UP_4 w / 2) := by
  unfold GST_ROUND_UP_4 GST_ROUND_UP_2; omega

theorem main_planes_append (a b : List KernelCall) :
    main_planes (a ++ b) = main_planes a ++ main_planes b := by
  simp [main_planes]

theorem format_of_code_eq_none (format : Int) :
    format_of_code format = none ↔ format < 0 ∨ 24 < format := by
  unfold format_of_code
  split
  · simp; omega
  · rw [List.getElem?_eq_none_iff]
    have : format_enum.length = 25 := rfl
    omega

theorem prepare_size_eq_none (format : Int) (img : VSImage) (w h : Int) :
    gst_video_scale_prepare_size format img w h = none ↔ format_of_code format = none := by
  unfold gst_video_scale_prepare_size
  cases hf : format_of_code format with
  | none => simp
  | some f => cases f <;> simp

theorem prepare_size_dims (format : Int) (img img1 : VSImage) (w h size : Int)
    (hp : gst_video_scale_prepare_size format img w h = some (img1, size)) :
    img1.width = w ∧ img1.height = h ∧ img1.pixels = img.pixels := by
  unfold gst_video_scale_prepare_size at hp
  cases hf : format_of_code format with
  | none => simp [hf] at hp
  | some f =>
    cases f <;> simp [hf] at hp <;> obtain ⟨rfl, _⟩ := hp <;> simp

/-- What a successful `gst_video_scale_set_caps` leaves in the element. -/
theorem set_caps_true (vs0 vs : GstVideoScale) (inc out : Caps)
    (hcaps : gst_video_scale_set_caps vs0 inc out = (true, vs)) :
    inc.width = some vs.from_width ∧ inc.height = some vs.from_height
    ∧ out.width = some vs.to_width ∧ out.height = some vs.to_height
    ∧ vs.format = inc.get_format ∧ vs.interlaced = inc.interlaced_field.getD false
    ∧ vs.method = vs0.method
    ∧ gst_video_scale_prepare_size vs.format vs0.src vs.from_width vs.from_height
        = some (vs.src, vs.src_size)
    ∧ gst_video_scale_prepare_size vs.format vs0.dest vs.to_width vs.to_height
        = some (vs.dest, vs.dest_size)
    ∧ vs.tmp_buf = some (vs.dest.stride * 4 * (if vs.interlaced then 2 else 1)) := by
  unfold gst_video_scale_set_caps at hcaps
  simp only [parse_caps] at hcaps
  cases ha : inc.width <;> cases hb : inc.height <;> cases hc : out.width <;>
    cases hd : out.height <;> simp [ha, hb, hc, hd] at hcaps
  split at hcaps
  · simp at hcaps
  · rename_i src src_size hsrc
    split at hcaps
    · simp at hcaps
    · rename_i dest dest_size hdest
      simp only [Prod.mk.injEq, true_and] at hcaps
      subst hcaps
      simp [hsrc, hdest]

theorem scale_switch_main (m fmt : Int) (l : TransformLocals) (cs : List KernelCall)
    (h : scale_switch m fmt l = some cs) : main_planes cs = [(l.src, l.dest)] := by
  unfold scale_switch at h
  split_ifs at h
  · unfold scale_nearest at h
    cases hf : format_of_code fmt with
    | none => simp [hf] at h
    | some f => cases f <;> simp [hf] at h <;> subst h <;> rfl
  · unfold scale_linear at h
    cases hf : format_of_code fmt with
    | none => simp [hf] at h
    | some f => cases f <;> simp [hf] at h <;> subst h <;> rfl
  · unfold scale_4tap at h
    cases hf : format_of_code fmt with
    | none => simp [hf] at h
    | some f => cases f <;> simp [hf] at h <;> subst h <;> rfl

theorem scale_switch_isSome (m fmt : Int) (l : TransformLocals)
    (hm : m = GST_VIDEO_SCALE_NEAREST ∨ m = GST_VIDEO_SCALE_BILINEAR ∨ m = GST_VIDEO_SCALE_4TAP)
    (hf : format_of_code fmt ≠ none) : ∃ cs, scale_switch m fmt l = some cs := by
  cases hc : format_of_code fmt with
  | none => exact absurd hc hf
  | some f =>
    rcases hm with rfl | rfl | rfl <;>
      cases f <;>
      simp [scale_switch, scale_nearest, scale_linear, scale_4tap, hc,
        GST_VIDEO_SCALE_NEAREST, GST_VIDEO_SCALE_BILINEAR, GST_VIDEO_SCALE_4TAP]

theorem downgrade_valid (c : Prop) [Decidable c] (m : Int)
    (hm : m = GST_VIDEO_SCALE_NEAREST ∨ m = GST_VIDEO_SCALE_BILINEAR ∨ m = GST_VIDEO_SCALE_4TAP) :
    (if c then GST_VIDEO_SCALE_BILINEAR else m) = GST_VIDEO_SCALE_NEAREST
    ∨ (if c then GST_VIDEO_SCALE_BILINEAR else m) = GST_VIDEO_SCALE_BILINEAR
    ∨ (if c then GST_VIDEO_SCALE_BILINEAR else m) = GST_VIDEO_SCALE_4TAP := by
  split
  · exact Or.inr (Or.inl rfl)
  · exact hm

theorem transform_loop_two (vs : GstVideoScale) (inb outb m : Int) (il : Bool)
    (l : TransformLocals)
    (hm : m = GST_VIDEO_SCALE_NEAREST ∨ m = GST_VIDEO_SCALE_BILINEAR ∨ m = GST_VIDEO_SCALE_4TAP)
    (hf : format_of_code vs.format ≠ none) :
    ∃ cs1 cs2,
      scale_switch m vs.format (transform_fields vs inb outb il 0 l) = some cs1
      ∧ scale_switch m vs.format
          (transform_fields vs inb outb il 1 (transform_fields vs inb outb il 0 l)) = some cs2
      ∧ transform_loop vs inb outb m il 2 0 l [] = (GST_FLOW_OK, cs1 ++ cs2) := by
  obtain ⟨cs1, h1⟩ := scale_switch_isSome m vs.format (transform_fields vs inb outb il 0 l) hm hf
  obtain ⟨cs2, h2⟩ := scale_switch_isSome m vs.format
    (transform_fields vs inb outb il 1 (transform_fields vs inb outb il 0 l)) hm hf
  exact ⟨cs1, cs2, h1, h2, by simp [transform_loop, h1, h2]⟩

theorem transform_loop_one (vs : GstVideoScale) (inb outb m : Int) (il : Bool)
    (l : TransformLocals)
    (hm : m = GST_VIDEO_SCALE_NEAREST ∨ m = GST_VIDEO_SCALE_BILINEAR ∨ m = GST_VIDEO_SCALE_4TAP)
    (hf : format_of_code vs.format ≠ none) :
    ∃ cs1,
      scale_switch m vs.format (transform_fields vs inb outb il 0 l) = some cs1
      ∧ transform_loop vs inb outb m il 1 0 l [] = (GST_FLOW_OK, cs1) := by
  obtain ⟨cs1, h1⟩ := scale_switch_isSome m vs.format (transform_fields vs inb outb il 0 l) hm hf
  exact ⟨cs1, h1, by simp [transform_loop, h1]⟩

theorem transform_fields_src (vs : GstVideoScale) (inb outb : Int) (il : Bool) (step : Int)
    (l : TransformLocals) :
    (transform_fields vs inb outb il step l).src
      = if step = 0 ∧ il then
          (if Int.tmod vs.from_height 2 = 1
            then { l.src with height := l.src.height + 1 } else l.src)
        else if step = 1 ∧ il then
          { pixels := l.src.pixels + Int.tdiv l.src.stride 2
            width := l.src.width
            height := if Int.tmod vs.from_height 2 = 1 then l.src.height - 1 else l.src.height
            stride := l.src.stride }
        else l.src := by
  unfold transform_fields
  split_ifs <;> rfl

theorem transform_fields_dest (vs : GstVideoScale) (inb outb : Int) (il : Bool) (step : Int)
    (l : TransformLocals) :
    (transform_fields vs inb outb il step l).dest
      = if step = 0 ∧ il then
          (if Int.tmod vs.to_height 2 = 1
            then { l.dest with height := l.dest.height + 1 } else l.dest)
        else if step = 1 ∧ il then
          { pixels := l.dest.pixels + Int.tdiv l.dest.stride 2
            width := l.dest.width
            height := if Int.tmod vs.to_height 2 = 1 then l.dest.height - 1 else l.dest.height
            stride := l.dest.stride }
        else l.dest := by
  unfold transform_fields
  split_ifs <;> rfl

theorem transform_fields_src_u (vs : GstVideoScale) (inb outb : Int) (il : Bool) (step : Int)
    (l : TransformLocals) :
    (transform_fields vs inb outb il step l).src_u
      = (gst_video_scale_prepare_image vs.format inb vs.src l.src_u l.src_v step il).1 := by
  unfold transform_fields
  split_ifs <;> rfl

theorem transform_fields_src_v (vs : GstVideoScale) (inb outb : Int) (il : Bool) (step : Int)
    (l : TransformLocals) :
    (transform_fields vs inb outb il step l).src_v
      = (gst_video_scale_prepare_image vs.format inb vs.src l.src_u l.src_v step il).2 := by
  unfold transform_fields
  split_ifs <;> rfl

/-- Every call made by the `switch (method)` is handed the locals of its
plane, and a 4-tap kernel is only called under `case GST_VIDEO_SCALE_4TAP`. -/
theorem scale_switch_call (m fmt : Int) (l : TransformLocals) (cs : List KernelCall)
    (c : KernelCall) (h : scale_switch m fmt l = some cs) (hc : c ∈ cs) :
    (c.kernel.method = KernelMethod.fourtap → m = GST_VIDEO_SCALE_4TAP)
    ∧ (c.plane = Plane.main → c.src = l.src ∧ c.dest = l.dest)
    ∧ (c.plane = Plane.u → c.src = l.src_u ∧ c.dest = l.dest_u)
    ∧ (c.plane = Plane.v → c.src = l.src_v ∧ c.dest = l.dest_v) := by
  unfold scale_switch at h
  split_ifs at h with h1 h2 h3
  · unfold scale_nearest at h
    cases hf : format_of_code fmt with
    | none => simp [hf] at h
    | some f =>
      cases f <;> simp [hf] at h <;> subst h <;> simp at hc <;>
        (try rcases hc with rfl | rfl | rfl) <;>
        simp [vs_image_scale_nearest_RGBA, vs_image_scale_nearest_RGB,
          vs_image_scale_nearest_YUYV, vs_image_scale_nearest_UYVY, vs_image_scale_nearest_Y,
          vs_image_scale_nearest_Y16, vs_image_scale_nearest_RGB565,
          vs_image_scale_nearest_RGB555]
  · unfold scale_linear at h
    cases hf : format_of_code fmt with
    | none => simp [hf] at h
    | some f =>
      cases f <;> simp [hf] at h <;> subst h <;> simp at hc <;>
        (try rcases hc with rfl | rfl | rfl) <;>
        simp [vs_image_scale_linear_RGBA, vs_image_scale_linear_RGB,
          vs_image_scale_linear_YUYV, vs_image_scale_linear_UYVY, vs_image_scale_linear_Y,
          vs_image_scale_linear_Y16, vs_image_scale_linear_RGB565,
          vs_image_scale_linear_RGB555]
  · unfold scale_4tap at h
    cases hf : format_of_code fmt with
    | none => simp [hf] at h
    | some f =>
      cases f <;> simp [hf] at h <;> subst h <;> simp at hc <;>
        (try rcases hc with rfl | rfl | rfl) <;>
        simp [h3]

theorem transform_loop_mem (vs : GstVideoScale) (inb outb m : Int) (il : Bool)
    (n : Nat) (hn : n ≤ 2) (l : TransformLocals) (c : KernelCall)
    (hc : c ∈ (transform_loop vs inb outb m il n 0 l []).2) :
    (∃ cs, scale_switch m vs.format (transform_fields vs inb outb il 0 l) = some cs ∧ c ∈ cs)
    ∨ (n = 2 ∧ ∃ cs, scale_switch m vs.format
        (transform_fields vs inb outb il 1 (transform_fields vs inb outb il 0 l)) = some cs
        ∧ c ∈ cs) := by
  match n, hn with
  | 0, _ => simp [transform_loop] at hc
  | 1, _ =>
    simp only [transform_loop] at hc
    cases h1 : scale_switch m vs.format (transform_fields vs inb outb il 0 l) with
    | none => simp [h1] at hc
    | some cs =>
      simp only [h1, List.nil_append] at hc
      exact Or.inl ⟨cs, rfl, hc⟩
  | 2, _ =>
    simp only [transform_loop] at hc
    cases h1 : scale_switch m vs.format (transform_fields vs inb outb il 0 l) with
    | none => simp [h1] at hc
    | some cs =>
      simp only [h1, zero_add, List.nil_append] at hc
      cases h2 : scale_switch m vs.format
          (transform_fields vs inb outb il 1 (transform_fields vs inb outb il 0 l)) with
      | none => simp only [h2] at hc; exact Or.inl ⟨cs, rfl, hc⟩
      | some cs2 =>
        simp only [h2, List.mem_append] at hc
        rcases hc with hc | hc
        · exact Or.inl ⟨cs, rfl, hc⟩
        · exact Or.inr ⟨rfl, cs2, rfl, hc⟩

theorem chroma_height_unsubsampled (fmt buf : Int) (img img_u img_v : VSImage) (step : Int)
    (il : Bool)
    (hf : format_of_code fmt = some GST_VIDEO_SCALE_Y444
      ∨ format_of_code fmt = some GST_VIDEO_SCALE_Y42B
      ∨ format_of_code fmt = some GST_VIDEO_SCALE_Y41B) :
    (gst_video_scale_prepare_image fmt buf img img_u img_v step il).1.height
      = (if il then Int.tdiv img.height 2
          + (if step = 0 ∧ Int.tmod img.height 2 = 1 then 1 else 0) else img.height)
    ∧ (gst_video_scale_prepare_image fmt buf img img_u img_v step il).2.height
      = (if il then Int.tdiv img.height 2
          + (if step = 0 ∧ Int.tmod img.height 2 = 1 then 1 else 0) else img.height) := by
  rcases hf with hf | hf | hf <;> cases il <;> by_cases hs : step = 1 <;>
    simp [gst_video_scale_prepare_image, prepare_field, hf, hs]

theorem transform_progressive (vs : GstVideoScale) (inb outb : Int)
    (hi : vs.interlaced = false) :
    gst_video_scale_transform vs inb outb
      = transform_loop vs inb outb
          (if vs.src.height < 4 ∧ vs.method = GST_VIDEO_SCALE_4TAP
            then GST_VIDEO_SCALE_BILINEAR else vs.method) false 1 0
          ⟨⟨outb, vs.dest.width, vs.dest.height, vs.dest.stride⟩,
           ⟨inb, vs.src.width, vs.src.height, vs.src.stride⟩,
           ⟨0, 0, 0, 0⟩, ⟨0, 0, 0, 0⟩, ⟨0, 0, 0, 0⟩, ⟨0, 0, 0, 0⟩⟩ [] := by
  unfold gst_video_scale_transform
  simp [hi]

theorem transform_interlaced (vs : GstVideoScale) (inb outb : Int)
    (hi : vs.interlaced = true) :
    gst_video_scale_transform vs inb outb
      = transform_loop vs inb outb
          (if Int.tdiv vs.src.height 2 < 4 ∧ vs.method = GST_VIDEO_SCALE_4TAP
            then GST_VIDEO_SCALE_BILINEAR else vs.method) true 2 0
          ⟨⟨outb, vs.dest.width, Int.tdiv vs.dest.height 2, vs.dest.stride * 2⟩,
           ⟨inb, vs.src.width, Int.tdiv vs.src.height 2, vs.src.stride * 2⟩,
           ⟨0, 0, 0, 0⟩, ⟨0, 0, 0, 0⟩, ⟨0, 0, 0, 0⟩, ⟨0, 0, 0, 0⟩⟩ [] := by
  unfold gst_video_scale_transform
  simp [hi]

theorem downgraded_4tap (c : Prop) [Decidable c] (m : Int)
    (h : (if c ∧ m = GST_VIDEO_SCALE_4TAP then GST_VIDEO_SCALE_BILINEAR else m)
      = GST_VIDEO_SCALE_4TAP) : ¬ c := by
  intro hc
  split at h
  · exact absurd h (by decide)
  · rename_i hn
    exact hn ⟨hc, h⟩

theorem field0_height (x : Int) (hx : 0 ≤ x) :
    Int.tdiv x 2 + (if Int.tmod x 2 = 1 then 1 else 0) = (x + 1) / 2 := by
  rw [Int.tdiv_eq_ediv hx (by decide), Int.tmod_eq_emod hx (by decide)]
  split <;> omega

theorem tdiv_two_lt_four (h : Int) (hh : h < 4) : Int.tdiv h 2 < 4 := by
  by_cases h0 : 0 ≤ h
  · rw [Int.tdiv_eq_ediv h0 (by decide)]; omega
  · have := Int.tdiv_nonneg (a := -h) (b := 2) (by omega) (by decide)
    rw [Int.neg_tdiv] at this
    omega

theorem transform_loop_method_field (vs : GstVideoScale) (a inb outb m : Int) (il : Bool)
    (n : Nat) (step : Int) (l : TransformLocals) (calls : List KernelCall) :
    transform_loop { vs with method := a } inb outb m il n step l calls
      = transform_loop vs inb outb m il n step l calls := by
  induction n generalizing step l calls with
  | zero => rfl
  | succ k ih =>
    simp only [transform_loop]
    have e : transform_fields { vs with method := a } inb outb il step l
        = transform_fields vs inb outb il step l := rfl
    rw [e]
    cases scale_switch m vs.format (transform_fields vs inb outb il step l) with
    | none => rfl
    | some cs => exact ih _ _ _

/-! ## Plane geometry: `gst_video_scale_prepare_size` and
`gst_video_scale_prepare_image` -/

/-- C1: for `w`, `h` in 1..32767 and the format I420 or YV12,
`gst_video_scale_prepare_size` succeeds, sets the luma stride to round4(w) and
reports size round4(w)*round2(h) + 2*round4(round4(w)/2)*(round2(h)/2), and
`gst_video_scale_prepare_image` (progressive) gives both chroma planes width
round2(w)/2 and height round2(h)/2.  For 64x64: luma stride 64, chroma planes
32x32 of stride 32 at offsets 4096 and 4096+1024, total size 6144. -/
theorem C1_i420_yv12_layout (f : VideoScaleFormat)
    (hf : f = GST_VIDEO_SCALE_I420 ∨ f = GST_VIDEO_SCALE_YV12)
    (w h : Int) (hw1 : 1 ≤ w) (hw2 : w ≤ 32767) (hh1 : 1 ≤ h) (hh2 : h ≤ 32767)
    (img img_u img_v : VSImage) (buf step : Int) :
    (gst_video_scale_prepare_size (code_of_format f) img w h
        = some (⟨img.pixels, w, h, GST_ROUND_UP_4 w⟩,
            GST_ROUND_UP_4 w * GST_ROUND_UP_2 h
              + 2 * GST_ROUND_UP_4 (GST_ROUND_UP_4 w / 2) * (GST_ROUND_UP_2 h / 2))
      ∧ (gst_video_scale_prepare_image (code_of_format f) buf
            ⟨img.pixels, w, h, GST_ROUND_UP_4 w⟩ img_u img_v step false).1.width
          = GST_ROUND_UP_2 w / 2
      ∧ (gst_video_scale_prepare_image (code_of_format f) buf
            ⟨img.pixels, w, h, GST_ROUND_UP_4 w⟩ img_u img_v step false).1.height
          = GST_ROUND_UP_2 h / 2
      ∧ (gst_video_scale_prepare_image (code_of_format f) buf
            ⟨img.pixels, w, h, GST_ROUND_UP_4 w⟩ img_u img_v step false).2.width
          = GST_ROUND_UP_2 w / 2
      ∧ (gst_video_scale_prepare_image (code_of_format f) buf
            ⟨img.pixels, w, h, GST_ROUND_UP_4 w⟩ img_u img_v step false).2.height
          = GST_ROUND_UP_2 h / 2)
    ∧ (gst_video_scale_prepare_size (code_of_format f) img 64 64
        = some (⟨img.pixels, 64, 64, 64⟩, 6144)
      ∧ gst_video_scale_prepare_image (code_of_format f) buf ⟨img.pixels, 64, 64, 64⟩
          img_u img_v step false
        = (⟨buf + 4096, 32, 32, 32⟩, ⟨buf + 4096 + 1024, 32, 32, 32⟩)
      ∧ (4096 : Int) + 1024 + 1024 = 6144) := by
  have h2 : (0:Int) ≤ 2 := by decide
  have e1 : Int.tdiv (GST_ROUND_UP_2 h) 2 = GST_ROUND_UP_2 h / 2 :=
    Int.tdiv_eq_ediv (by unfold GST_ROUND_UP_2; omega) h2
  have e2 : Int.tdiv (GST_ROUND_UP_2 w) 2 = GST_ROUND_UP_2 w / 2 :=
    Int.tdiv_eq_ediv (by unfold GST_ROUND_UP_2; omega) h2
  have e3 : Int.tdiv (GST_ROUND_UP_4 w) 2 = GST_ROUND_UP_4 w / 2 :=
    Int.tdiv_eq_ediv (by unfold GST_ROUND_UP_4; omega) h2
  have c2 : GST_ROUND_UP_2 64 = 64 := by decide
  have c4 : GST_ROUND_UP_4 64 = 64 := by decide
  have c32 : GST_ROUND_UP_4 32 = 32 := by decide
  have d1 : Int.tdiv 64 2 = 32 := by decide
  rcases hf with rfl | rfl <;>
    simp [gst_video_scale_prepare_size, gst_video_scale_prepare_image, prepare_field,
      format_of_code_code_of_format, e1, e2, e3, c2, c4, c32, d1]

/-- Witness of C1 at a 5x3 I420 frame. -/
theorem C1_i420_yv12_layout_witness :
    (GST_VIDEO_SCALE_I420 = GST_VIDEO_SCALE_I420 ∨ GST_VIDEO_SCALE_I420 = GST_VIDEO_SCALE_YV12)
    ∧ (1 : Int) ≤ 5 ∧ (5 : Int) ≤ 32767 ∧ (1 : Int) ≤ 3 ∧ (3 : Int) ≤ 32767
    ∧ gst_video_scale_prepare_size 17 ⟨0, 0, 0, 0⟩ 5 3 = some (⟨0, 5, 3, 8⟩, 8 * 4 + 2 * 4 * 2)
    ∧ (gst_video_scale_prepare_image 17 0 ⟨0, 5, 3, 8⟩ ⟨0, 0, 0, 0⟩ ⟨0, 0, 0, 0⟩ 0 false).1.width = 3
    ∧ (gst_video_scale_prepare_image 17 0 ⟨0, 5, 3, 8⟩ ⟨0, 0, 0, 0⟩ ⟨0, 0, 0, 0⟩ 0 false).1.height = 2 :=
  have t := C1_i420_yv12_layout GST_VIDEO_SCALE_I420 (Or.inl rfl) 5 3 (by decide) (by decide)
    (by decide) (by decide) ⟨0, 0, 0, 0⟩ ⟨0, 0, 0, 0⟩ ⟨0, 0, 0, 0⟩ 0 0
  ⟨Or.inl rfl, by decide, by decide, by decide, by decide, t.1.1, t.1.2.1, t.1.2.2.1⟩

/-- C2: for a planar format and `w`, `h >= 1`, progressive,
`gst_video_scale_prepare_size` succeeds and the three plane regions are
consecutive, non-empty and fill the buffer: the luma rows lie in
[buf, U offset) (exactly filling it, except for the padding row that I420 and
YV12 add below an odd number of rows), U offset + U stride * U height =
V offset, and V offset + V stride * V height = buf + the reported size. -/
theorem C2_planes_tile_buffer (f : VideoScaleFormat) (hf : is_planar f)
    (w h : Int) (hw : 1 ≤ w) (hh : 1 ≤ h)
    (img img_u img_v : VSImage) (buf step : Int) :
    (gst_video_scale_prepare_size (code_of_format f) img w h).isSome
    ∧ ∀ img1 size u v,
      gst_video_scale_prepare_size (code_of_format f) img w h = some (img1, size) →
      gst_video_scale_prepare_image (code_of_format f) buf img1 img_u img_v step false = (u, v) →
      buf < buf + img1.stride * img1.height
      ∧ buf + img1.stride * img1.height ≤ u.pixels
      ∧ ((f ≠ GST_VIDEO_SCALE_I420 ∧ f ≠ GST_VIDEO_SCALE_YV12 ∨ h % 2 = 0) →
          buf + img1.stride * img1.height = u.pixels)
      ∧ u.pixels < v.pixels
      ∧ u.pixels + u.stride * u.height = v.pixels
      ∧ v.pixels < buf + size
      ∧ v.pixels + v.stride * v.height = buf + size := by
  have z2 : (0:Int) ≤ 2 := by decide
  have z4 : (0:Int) ≤ 4 := by decide
  have e1 : Int.tdiv (GST_ROUND_UP_2 h) 2 = GST_ROUND_UP_2 h / 2 :=
    Int.tdiv_eq_ediv (by unfold GST_ROUND_UP_2; omega) z2
  have e2 : Int.tdiv (GST_ROUND_UP_2 w) 2 = GST_ROUND_UP_2 w / 2 :=
    Int.tdiv_eq_ediv (by unfold GST_ROUND_UP_2; omega) z2
  have e3 : Int.tdiv (GST_ROUND_UP_4 w) 2 = GST_ROUND_UP_4 w / 2 :=
    Int.tdiv_eq_ediv (by unfold GST_ROUND_UP_4; omega) z2
  have e4 : Int.tdiv (GST_ROUND_UP_8 w) 2 = GST_ROUND_UP_8 w / 2 :=
    Int.tdiv_eq_ediv (by unfold GST_ROUND_UP_8; omega) z2
  have e5 : Int.tdiv (GST_ROUND_UP_16 w) 2 = GST_ROUND_UP_16 w / 2 :=
    Int.tdiv_eq_ediv (by unfold GST_ROUND_UP_16; omega) z2
  have e6 : Int.tdiv (GST_ROUND_UP_16 w) 4 = GST_ROUND_UP_16 w / 4 :=
    Int.tdiv_eq_ediv (by unfold GST_ROUND_UP_16; omega) z4
  have hS : 1 ≤ GST_ROUND_UP_4 w := by unfold GST_ROUND_UP_4; omega
  have hH2 : h ≤ GST_ROUND_UP_2 h := by unfold GST_ROUND_UP_2; omega
  have hHc : 1 ≤ GST_ROUND_UP_2 h / 2 := by unfold GST_ROUND_UP_2; omega
  have hSc : 1 ≤ GST_ROUND_UP_4 (GST_ROUND_UP_2 w / 2) := by
    unfold GST_ROUND_UP_4 GST_ROUND_UP_2; omega
  have hev : h % 2 = 0 → GST_ROUND_UP_2 h = h := by unfold GST_ROUND_UP_2; omega
  have k8 : ∃ a, 1 ≤ a ∧ GST_ROUND_UP_8 w / 2 = a ∧ GST_ROUND_UP_8 w = 2 * a :=
    ⟨GST_ROUND_UP_8 w / 2, by unfold GST_ROUND_UP_8; omega, rfl,
      by unfold GST_ROUND_UP_8; omega⟩
  have k16 : ∃ c, 1 ≤ c ∧ GST_ROUND_UP_16 w / 4 = c ∧ GST_ROUND_UP_16 w / 2 = 2 * c :=
    ⟨GST_ROUND_UP_16 w / 4, by unfold GST_ROUND_UP_16; omega, rfl,
      by unfold GST_ROUND_UP_16; omega⟩
  have p1 : 0 < GST_ROUND_UP_4 w * h := mul_pos (by omega) (by omega)
  rcases hf with rfl | rfl | rfl | rfl | rfl
  · refine ⟨by simp [gst_video_scale_prepare_size, format_of_code_code_of_format], ?_⟩
    intro img1 size u v h1 h2
    simp [gst_video_scale_prepare_size, format_of_code_code_of_format] at h1
    obtain ⟨rfl, rfl⟩ := h1
    simp [gst_video_scale_prepare_image, prepare_field,
        format_of_code_code_of_format] at h2
    obtain ⟨rfl, rfl⟩ := h2
    have p2 : 0 < GST_ROUND_UP_4 (GST_ROUND_UP_2 w / 2) * (GST_ROUND_UP_2 h / 2) :=
      mul_pos (by omega) (by omega)
    refine ⟨?_, ?_, ?_, ?_, ?_, ?_, ?_⟩ <;> dsimp only <;>
      (try simp only [e1, e2, e3, ← chroma_stride_agree])
    · omega
    · linarith [p1, p2, mul_le_mul_of_nonneg_left hH2 (show (0:Int) ≤ GST_ROUND_UP_4 w by omega)]
    · intro hd
      rcases hd with ⟨hne, _⟩ | hd
      · exact absurd rfl hne
      · rw [hev hd]; ring
    · linarith [p1, p2, mul_le_mul_of_nonneg_left hH2 (show (0:Int) ≤ GST_ROUND_UP_4 w by omega)]
    · ring
    · linarith [p1, p2, mul_le_mul_of_nonneg_left hH2 (show (0:Int) ≤ GST_ROUND_UP_4 w by omega)]
    · ring
  · refine ⟨by simp [gst_video_scale_prepare_size, format_of_code_code_of_format], ?_⟩
    intro img1 size u v h1 h2
    simp [gst_video_scale_prepare_size, format_of_code_code_of_format] at h1
    obtain ⟨rfl, rfl⟩ := h1
    simp [gst_video_scale_prepare_image, prepare_field,
        format_of_code_code_of_format] at h2
    obtain ⟨rfl, rfl⟩ := h2
    have p2 : 0 < GST_ROUND_UP_4 (GST_ROUND_UP_2 w / 2) * (GST_ROUND_UP_2 h / 2) :=
      mul_pos (by omega) (by omega)
    refine ⟨?_, ?_, ?_, ?_, ?_, ?_, ?_⟩ <;> dsimp only <;>
      (try simp only [e1, e2, e3, ← chroma_stride_agree])
    · omega
    · linarith [p1, p2, mul_le_mul_of_nonneg_left hH2 (show (0:Int) ≤ GST_ROUND_UP_4 w by omega)]
    · intro hd
      rcases hd with ⟨_, hne⟩ | hd
      · exact absurd rfl hne
      · rw [hev hd]; ring
    · linarith [p1, p2, mul_le_mul_of_nonneg_left hH2 (show (0:Int) ≤ GST_ROUND_UP_4 w by omega)]
    · ring
    · linarith [p1, p2, mul_le_mul_of_nonneg_left hH2 (show (0:Int) ≤ GST_ROUND_UP_4 w by omega)]
    · ring
  · refine ⟨by simp [gst_video_scale_prepare_size, format_of_code_code_of_format], ?_⟩
    intro img1 size u v h1 h2
    simp [gst_video_scale_prepare_size, format_of_code_code_of_format] at h1
    obtain ⟨rfl, rfl⟩ := h1
    simp [gst_video_scale_prepare_image, prepare_field,
        format_of_code_code_of_format] at h2
    obtain ⟨rfl, rfl⟩ := h2
    refine ⟨?_, ?_, ?_, ?_, ?_, ?_, ?_⟩ <;> dsimp only <;> (try intro _) <;>
      first | ring1 | linarith [p1]
  · refine ⟨by simp [gst_video_scale_prepare_size, format_of_code_code_of_format], ?_⟩
    intro img1 size u v h1 h2
    simp [gst_video_scale_prepare_size, format_of_code_code_of_format] at h1
    obtain ⟨rfl, rfl⟩ := h1
    simp [gst_video_scale_prepare_image, prepare_field,
        format_of_code_code_of_format] at h2
    obtain ⟨rfl, rfl⟩ := h2
    obtain ⟨a, ha1, ha2, ha3⟩ := k8
    have p2 : 0 < a * h := mul_pos (by omega) (by omega)
    refine ⟨?_, ?_, ?_, ?_, ?_, ?_, ?_⟩ <;> dsimp only <;> (try intro _) <;>
      (try simp only [e4]) <;> (try simp only [ha2]) <;> (try simp only [ha3]) <;>
      first | ring1 | linarith [p1, p2]
  · refine ⟨by simp [gst_video_scale_prepare_size, format_of_code_code_of_format], ?_⟩
    intro img1 size u v h1 h2
    simp [gst_video_scale_prepare_size, format_of_code_code_of_format] at h1
    obtain ⟨rfl, rfl⟩ := h1
    simp [gst_video_scale_prepare_image, prepare_field,
        format_of_code_code_of_format] at h2
    obtain ⟨rfl, rfl⟩ := h2
    obtain ⟨c, hc1, hc2, hc3⟩ := k16
    have p2 : 0 < c * h := mul_pos (by omega) (by omega)
    refine ⟨?_, ?_, ?_, ?_, ?_, ?_, ?_⟩ <;> dsimp only <;> (try intro _) <;>
      (try simp only [e5, e6]) <;> (try simp only [hc2, hc3]) <;>
      first | ring1 | linarith [p1, p2]

/-- Witness of C2 at a 5x3 I420 frame: luma rows in [0, 24), the U plane is
[32, 40), the V plane [40, 48), and the size is 48. -/
theorem C2_planes_tile_buffer_witness :
    is_planar GST_VIDEO_SCALE_I420 ∧ (1 : Int) ≤ 5 ∧ (1 : Int) ≤ 3
    ∧ gst_video_scale_prepare_size 17 ⟨0, 0, 0, 0⟩ 5 3 = some (⟨0, 5, 3, 8⟩, 48)
    ∧ gst_video_scale_prepare_image 17 0 ⟨0, 5, 3, 8⟩ ⟨0, 0, 0, 0⟩ ⟨0, 0, 0, 0⟩ 0 false
        = (⟨32, 3, 2, 4⟩, ⟨40, 3, 2, 4⟩)
    ∧ ((0 : Int) < 0 + 8 * 3 ∧ (0 : Int) + 8 * 3 ≤ 32
        ∧ ((GST_VIDEO_SCALE_I420 ≠ GST_VIDEO_SCALE_I420
              ∧ GST_VIDEO_SCALE_I420 ≠ GST_VIDEO_SCALE_YV12 ∨ (3 : Int) % 2 = 0) →
            (0 : Int) + 8 * 3 = 32)
        ∧ (32 : Int) < 40 ∧ (32 : Int) + 4 * 2 = 40 ∧ (40 : Int) < 0 + 48
        ∧ (40 : Int) + 4 * 2 = 0 + 48) :=
  ⟨Or.inl rfl, by decide, by decide, by decide, by decide,
    (C2_planes_tile_buffer GST_VIDEO_SCALE_I420 (Or.inl rfl) 5 3 (by decide) (by decide)
      ⟨0, 0, 0, 0⟩ ⟨0, 0, 0, 0⟩ ⟨0, 0, 0, 0⟩ 0 0).2 ⟨0, 5, 3, 8⟩ 48 ⟨32, 3, 2, 4⟩ ⟨40, 3, 2, 4⟩
      (by decide) (by decide)⟩

/-- C3: for `w`, `h >= 1`, `gst_video_scale_prepare_size` succeeds for every
single-plane format, with stride 4*w for the nine 4-channel formats,
round4(3*w) for RGB/BGR/v308, round4(2*w) for YUY2/YVYU/UYVY/GRAY16/RGB565/
RGB555 and round4(w) for GRAY8/Y800, and size = stride * h in each case. -/
theorem C3_single_plane_strides (w h : Int) (_hw : 1 ≤ w) (_hh : 1 ≤ h) (img : VSImage) :
    (∀ f ∈ [GST_VIDEO_SCALE_RGBA, GST_VIDEO_SCALE_ARGB, GST_VIDEO_SCALE_BGRA,
        GST_VIDEO_SCALE_ABGR, GST_VIDEO_SCALE_RGBx, GST_VIDEO_SCALE_xRGB,
        GST_VIDEO_SCALE_BGRx, GST_VIDEO_SCALE_xBGR, GST_VIDEO_SCALE_AYUV],
      gst_video_scale_prepare_size (code_of_format f) img w h
        = some (⟨img.pixels, w, h, 4 * w⟩, 4 * w * h))
    ∧ (∀ f ∈ [GST_VIDEO_SCALE_RGB, GST_VIDEO_SCALE_BGR, GST_VIDEO_SCALE_v308],
      gst_video_scale_prepare_size (code_of_format f) img w h
        = some (⟨img.pixels, w, h, GST_ROUND_UP_4 (3 * w)⟩, GST_ROUND_UP_4 (3 * w) * h))
    ∧ (∀ f ∈ [GST_VIDEO_SCALE_YUY2, GST_VIDEO_SCALE_YVYU, GST_VIDEO_SCALE_UYVY,
        GST_VIDEO_SCALE_GRAY16, GST_VIDEO_SCALE_RGB565, GST_VIDEO_SCALE_RGB555],
      gst_video_scale_prepare_size (code_of_format f) img w h
        = some (⟨img.pixels, w, h, GST_ROUND_UP_4 (2 * w)⟩, GST_ROUND_UP_4 (2 * w) * h))
    ∧ (∀ f ∈ [GST_VIDEO_SCALE_GRAY8, GST_VIDEO_SCALE_Y],
      gst_video_scale_prepare_size (code_of_format f) img w h
        = some (⟨img.pixels, w, h, GST_ROUND_UP_4 w⟩, GST_ROUND_UP_4 w * h)) := by
  refine ⟨?_, ?_, ?_, ?_⟩ <;> intro f hf <;> simp only [List.mem_cons, List.mem_singleton,
    List.not_mem_nil, or_false] at hf <;>
    rcases hf with rfl | rfl | rfl | rfl | rfl | rfl | rfl | rfl | rfl <;>
    simp [gst_video_scale_prepare_size, format_of_code_code_of_format, mul_comm]

/-- Witness of C3 at width 5, height 3: strides 20, 16, 12 and 8. -/
theorem C3_single_plane_strides_witness :
    (1 : Int) ≤ 5 ∧ (1 : Int) ≤ 3
    ∧ gst_video_scale_prepare_size (code_of_format GST_VIDEO_SCALE_RGBA) ⟨0, 0, 0, 0⟩ 5 3
        = some (⟨0, 5, 3, 4 * 5⟩, 4 * 5 * 3)
    ∧ gst_video_scale_prepare_size (code_of_format GST_VIDEO_SCALE_RGB) ⟨0, 0, 0, 0⟩ 5 3
        = some (⟨0, 5, 3, GST_ROUND_UP_4 (3 * 5)⟩, GST_ROUND_UP_4 (3 * 5) * 3)
    ∧ gst_video_scale_prepare_size (code_of_format GST_VIDEO_SCALE_YUY2) ⟨0, 0, 0, 0⟩ 5 3
        = some (⟨0, 5, 3, GST_ROUND_UP_4 (2 * 5)⟩, GST_ROUND_UP_4 (2 * 5) * 3)
    ∧ gst_video_scale_prepare_size (code_of_format GST_VIDEO_SCALE_GRAY8) ⟨0, 0, 0, 0⟩ 5 3
        = some (⟨0, 5, 3, GST_ROUND_UP_4 5⟩, GST_ROUND_UP_4 5 * 3) :=
  have t := C3_single_plane_strides 5 3 (by decide) (by decide) ⟨0, 0, 0, 0⟩
  ⟨by decide, by decide, t.1 _ (by decide), t.2.1 _ (by decide), t.2.2.1 _ (by decide),
    t.2.2.2 _ (by decide)⟩

/-- C4: for `w`, `h >= 1` the formats Y444, Y42B and Y41B have luma stride
round4(w), chroma height equal to the luma height `h`, chroma stride
round4(w), round8(w)/2 and round16(w)/4, chroma width w, round2(w)/2 and
round4(w)/4, and reported sizes 3*round4(w)*h, (round4(w)+round8(w))*h and
(round4(w)+round16(w)/2)*h (progressive frame). -/
theorem C4_unsubsampled_vertical (w h : Int) (hw : 1 ≤ w) (_hh : 1 ≤ h)
    (img img_u img_v : VSImage) (buf step : Int) :
    (gst_video_scale_prepare_size (code_of_format GST_VIDEO_SCALE_Y444) img w h
        = some (⟨img.pixels, w, h, GST_ROUND_UP_4 w⟩, 3 * GST_ROUND_UP_4 w * h)
      ∧ gst_video_scale_prepare_image (code_of_format GST_VIDEO_SCALE_Y444) buf
          ⟨img.pixels, w, h, GST_ROUND_UP_4 w⟩ img_u img_v step false
        = (⟨buf + GST_ROUND_UP_4 w * h, w, h, GST_ROUND_UP_4 w⟩,
           ⟨buf + GST_ROUND_UP_4 w * h * 2, w, h, GST_ROUND_UP_4 w⟩))
    ∧ (gst_video_scale_prepare_size (code_of_format GST_VIDEO_SCALE_Y42B) img w h
        = some (⟨img.pixels, w, h, GST_ROUND_UP_4 w⟩,
            (GST_ROUND_UP_4 w + GST_ROUND_UP_8 w) * h)
      ∧ gst_video_scale_prepare_image (code_of_format GST_VIDEO_SCALE_Y42B) buf
          ⟨img.pixels, w, h, GST_ROUND_UP_4 w⟩ img_u img_v step false
        = (⟨buf + GST_ROUND_UP_4 w * h, GST_ROUND_UP_2 w / 2, h, GST_ROUND_UP_8 w / 2⟩,
           ⟨buf + (GST_ROUND_UP_4 w + GST_ROUND_UP_8 w / 2) * h,
            GST_ROUND_UP_2 w / 2, h, GST_ROUND_UP_8 w / 2⟩))
    ∧ (gst_video_scale_prepare_size (code_of_format GST_VIDEO_SCALE_Y41B) img w h
        = some (⟨img.pixels, w, h, GST_ROUND_UP_4 w⟩,
            (GST_ROUND_UP_4 w + GST_ROUND_UP_16 w / 2) * h)
      ∧ gst_video_scale_prepare_image (code_of_format GST_VIDEO_SCALE_Y41B) buf
          ⟨img.pixels, w, h, GST_ROUND_UP_4 w⟩ img_u img_v step false
        = (⟨buf + GST_ROUND_UP_4 w * h, GST_ROUND_UP_4 w / 4, h, GST_ROUND_UP_16 w / 4⟩,
           ⟨buf + (GST_ROUND_UP_4 w + GST_ROUND_UP_16 w / 4) * h,
            GST_ROUND_UP_4 w / 4, h, GST_ROUND_UP_16 w / 4⟩)) := by
  have z2 : (0:Int) ≤ 2 := by decide
  have z4 : (0:Int) ≤ 4 := by decide
  have e2 : Int.tdiv (GST_ROUND_UP_2 w) 2 = GST_ROUND_UP_2 w / 2 :=
    Int.tdiv_eq_ediv (by unfold GST_ROUND_UP_2; omega) z2
  have e4 : Int.tdiv (GST_ROUND_UP_8 w) 2 = GST_ROUND_UP_8 w / 2 :=
    Int.tdiv_eq_ediv (by unfold GST_ROUND_UP_8; omega) z2
  have e5 : Int.tdiv (GST_ROUND_UP_16 w) 2 = GST_ROUND_UP_16 w / 2 :=
    Int.tdiv_eq_ediv (by unfold GST_ROUND_UP_16; omega) z2
  have e6 : Int.tdiv (GST_ROUND_UP_16 w) 4 = GST_ROUND_UP_16 w / 4 :=
    Int.tdiv_eq_ediv (by unfold GST_ROUND_UP_16; omega) z4
  have e7 : Int.tdiv (GST_ROUND_UP_4 w) 4 = GST_ROUND_UP_4 w / 4 :=
    Int.tdiv_eq_ediv (by unfold GST_ROUND_UP_4; omega) z4
  refine ⟨⟨?_, ?_⟩, ⟨?_, ?_⟩, ⟨?_, ?_⟩⟩ <;>
    simp [gst_video_scale_prepare_size, gst_video_scale_prepare_image, prepare_field,
      format_of_code_code_of_format, e2, e4, e5, e6, e7]
  ring

/-- Witness of C4 at a 5x3 Y42B frame: chroma planes 3 wide, 3 high, stride 4. -/
theorem C4_unsubsampled_vertical_witness :
    (1 : Int) ≤ 5 ∧ (1 : Int) ≤ 3
    ∧ gst_video_scale_prepare_size (code_of_format GST_VIDEO_SCALE_Y42B) ⟨0, 0, 0, 0⟩ 5 3
        = some (⟨0, 5, 3, GST_ROUND_UP_4 5⟩, (GST_ROUND_UP_4 5 + GST_ROUND_UP_8 5) * 3)
    ∧ gst_video_scale_prepare_image (code_of_format GST_VIDEO_SCALE_Y42B) 0
          ⟨0, 5, 3, GST_ROUND_UP_4 5⟩ ⟨0, 0, 0, 0⟩ ⟨0, 0, 0, 0⟩ 0 false
        = (⟨0 + GST_ROUND_UP_4 5 * 3, GST_ROUND_UP_2 5 / 2, 3, GST_ROUND_UP_8 5 / 2⟩,
           ⟨0 + (GST_ROUND_UP_4 5 + GST_ROUND_UP_8 5 / 2) * 3,
            GST_ROUND_UP_2 5 / 2, 3, GST_ROUND_UP_8 5 / 2⟩) :=
  have t := C4_unsubsampled_vertical 5 3 (by decide) (by decide)
    ⟨0, 0, 0, 0⟩ ⟨0, 0, 0, 0⟩ ⟨0, 0, 0, 0⟩ 0 0
  ⟨by decide, by decide, t.2.1.1, t.2.1.2⟩

/-- C5: for every format of the catalog and `w >= 1`,
`gst_video_scale_prepare_size` succeeds and the stride it sets is a positive
multiple of 4, at least the width times the bytes per pixel; for a planar
format the stride `gst_video_scale_prepare_image` (progressive) gives each
chroma plane is a positive multiple of 4, at least the chroma width (one byte
per sample). -/
theorem C5_strides_aligned (f : VideoScaleFormat) (w h : Int) (hw : 1 ≤ w)
    (img img_u img_v : VSImage) (buf step : Int) :
    (gst_video_scale_prepare_size (code_of_format f) img w h).isSome
    ∧ ∀ img1 size, gst_video_scale_prepare_size (code_of_format f) img w h = some (img1, size) →
      (0 < img1.stride ∧ img1.stride % 4 = 0 ∧ img1.width * bytes_per_pixel f ≤ img1.stride)
      ∧ (is_planar f → ∀ u v,
          gst_video_scale_prepare_image (code_of_format f) buf img1 img_u img_v step false = (u, v) →
          (0 < u.stride ∧ u.stride % 4 = 0 ∧ u.width * 1 ≤ u.stride)
          ∧ (0 < v.stride ∧ v.stride % 4 = 0 ∧ v.width * 1 ≤ v.stride)) := by
  have z2 : (0:Int) ≤ 2 := by decide
  have z4 : (0:Int) ≤ 4 := by decide
  have e2 : Int.tdiv (GST_ROUND_UP_2 w) 2 = GST_ROUND_UP_2 w / 2 :=
    Int.tdiv_eq_ediv (by unfold GST_ROUND_UP_2; omega) z2
  have e4 : Int.tdiv (GST_ROUND_UP_8 w) 2 = GST_ROUND_UP_8 w / 2 :=
    Int.tdiv_eq_ediv (by unfold GST_ROUND_UP_8; omega) z2
  have e6 : Int.tdiv (GST_ROUND_UP_16 w) 4 = GST_ROUND_UP_16 w / 4 :=
    Int.tdiv_eq_ediv (by unfold GST_ROUND_UP_16; omega) z4
  have e7 : Int.tdiv (GST_ROUND_UP_4 w) 4 = GST_ROUND_UP_4 w / 4 :=
    Int.tdiv_eq_ediv (by unfold GST_ROUND_UP_4; omega) z4
  refine ⟨by cases f <;> simp [gst_video_scale_prepare_size, format_of_code_code_of_format], ?_⟩
  intro img1 size h1
  constructor
  · cases f <;>
      simp [gst_video_scale_prepare_size, format_of_code_code_of_format] at h1 <;>
      obtain ⟨rfl, rfl⟩ := h1 <;>
      simp only [bytes_per_pixel, GST_ROUND_UP_4] <;> omega
  · intro hp u v h2
    rcases hp with rfl | rfl | rfl | rfl | rfl <;>
      simp [gst_video_scale_prepare_size, format_of_code_code_of_format] at h1 <;>
      obtain ⟨rfl, rfl⟩ := h1 <;>
      simp [gst_video_scale_prepare_image, prepare_field, format_of_code_code_of_format,
        e2, e4, e6, e7] at h2 <;>
      obtain ⟨rfl, rfl⟩ := h2 <;>
      simp only [GST_ROUND_UP_4, GST_ROUND_UP_2, GST_ROUND_UP_8, GST_ROUND_UP_16] <;> omega

/-- Witness of C5 at a 5x3 Y41B frame: luma stride 8 for 5 bytes, chroma
stride 4 for 2 bytes. -/
theorem C5_strides_aligned_witness :
    (1 : Int) ≤ 5
    ∧ gst_video_scale_prepare_size 19 ⟨0, 0, 0, 0⟩ 5 3 = some (⟨0, 5, 3, 8⟩, 48)
    ∧ gst_video_scale_prepare_image 19 0 ⟨0, 5, 3, 8⟩ ⟨0, 0, 0, 0⟩ ⟨0, 0, 0, 0⟩ 0 false
        = (⟨24, 2, 3, 4⟩, ⟨36, 2, 3, 4⟩)
    ∧ ((0 : Int) < 8 ∧ (8 : Int) % 4 = 0 ∧ (5 : Int) * bytes_per_pixel GST_VIDEO_SCALE_Y41B ≤ 8)
    ∧ ((0 : Int) < 4 ∧ (4 : Int) % 4 = 0 ∧ (2 : Int) * 1 ≤ 4)
    ∧ ((0 : Int) < 4 ∧ (4 : Int) % 4 = 0 ∧ (2 : Int) * 1 ≤ 4) :=
  have t := (C5_strides_aligned GST_VIDEO_SCALE_Y41B 5 3 (by decide)
    ⟨0, 0, 0, 0⟩ ⟨0, 0, 0, 0⟩ ⟨0, 0, 0, 0⟩ 0 0).2 ⟨0, 5, 3, 8⟩ 48 (by decide)
  have c := t.2 (Or.inr (Or.inr (Or.inr (Or.inr rfl)))) ⟨24, 2, 3, 4⟩ ⟨36, 2, 3, 4⟩ (by decide)
  ⟨by decide, by decide, by decide, t.1, c.1, c.2⟩


/-! ## Negotiation and orchestration -/

/-- C6: `gst_video_scale_prepare_size` returns `FALSE` exactly when the format
code is none of the 25 enumerators, whose values are 0..24 (for instance the
`-1` of `gst_video_scale_get_format`); whenever it returns `FALSE` for the format of
the caps, `gst_video_scale_set_caps` returns `FALSE` and
`gst_video_scale_get_unit_size` returns `FALSE`. -/
theorem C6_unknown_format_rejected :
    (format_enum.length = 25
      ∧ ∀ (format : Int) (img : VSImage) (w h : Int),
        (gst_video_scale_prepare_size format img w h = none ↔ (format < 0 ∨ 24 < format))
        ∧ (gst_video_scale_prepare_size format img w h = none
            ↔ ∀ f ∈ format_enum, format ≠ code_of_format f))
    ∧ (∀ (img : VSImage) (w h : Int), gst_video_scale_prepare_size (-1) img w h = none)
    ∧ (∀ (videoscale : GstVideoScale) (inc out : Caps) (img : VSImage) (w h : Int),
        gst_video_scale_prepare_size inc.get_format img w h = none →
        (gst_video_scale_set_caps videoscale inc out).1 = false)
    ∧ (∀ (caps : Caps) (img : VSImage) (w h : Int),
        gst_video_scale_prepare_size caps.get_format img w h = none →
        gst_video_scale_get_unit_size caps = none) := by
  refine ⟨⟨rfl, ?_⟩, ?_, ?_, ?_⟩
  · intro format img w h
    rw [prepare_size_eq_none, format_of_code_eq_none]
    refine ⟨Iff.rfl, ?_⟩
    constructor
    · intro hout f _ heq
      have hc : 0 ≤ code_of_format f ∧ code_of_format f ≤ 24 := by cases f <;> decide
      omega
    · intro hall
      by_contra hin
      have hr : 0 ≤ format ∧ format ≤ 24 := by omega
      have hex : ∃ f ∈ format_enum, format = code_of_format f := by
        obtain ⟨h0, h24⟩ := hr
        interval_cases format <;> decide
      obtain ⟨f, hf, heq⟩ := hex
      exact hall f hf heq
  · intro img w h
    rw [prepare_size_eq_none, format_of_code_eq_none]; decide
  · intro vs inc out img w h hn
    rw [prepare_size_eq_none] at hn
    have hs : ∀ i a b, gst_video_scale_prepare_size inc.get_format i a b = none :=
      fun i a b => (prepare_size_eq_none _ _ _ _).2 hn
    unfold gst_video_scale_set_caps
    simp only [parse_caps]
    split
    · rfl
    · simp [hs]
  · intro caps img w h hn
    rw [prepare_size_eq_none] at hn
    have hs : ∀ i a b, gst_video_scale_prepare_size caps.get_format i a b = none :=
      fun i a b => (prepare_size_eq_none _ _ _ _).2 hn
    unfold gst_video_scale_get_unit_size
    simp only [parse_caps]
    split
    · rfl
    · simp [hs]

/-- Witness of C6 at caps that match no catalog entry (format `-1`). -/
theorem C6_unknown_format_rejected_witness :
    gst_video_scale_prepare_size (-1) ⟨0, 0, 0, 0⟩ 64 64 = none
    ∧ (gst_video_scale_set_caps gst_video_scale_init ⟨some 64, some 64, none, -1⟩
        ⟨some 32, some 32, none, -1⟩).1 = false
    ∧ gst_video_scale_get_unit_size ⟨some 64, some 64, none, -1⟩ = none :=
  ⟨by decide,
    C6_unknown_format_rejected.2.2.1 gst_video_scale_init ⟨some 64, some 64, none, -1⟩
      ⟨some 32, some 32, none, -1⟩ ⟨0, 0, 0, 0⟩ 64 64 (by decide),
    C6_unknown_format_rejected.2.2.2 ⟨some 64, some 64, none, -1⟩ ⟨0, 0, 0, 0⟩ 64 64
      (by decide)⟩

/-- C7: after a successful `gst_video_scale_set_caps` with interlaced content,
full-frame heights `>= 1` and one of the three methods,
`gst_video_scale_transform` calls the kernel on the luma or packed plane
twice: in field 0 with height ceil(H/2), stride 2*S and the buffer base, in
field 1 with height floor(H/2), stride 2*S and base + S, where H and S are the
prepared height and stride, for the source and for the destination alike. -/
theorem C7_interlaced_main_fields (vs0 vs : GstVideoScale) (inc out : Caps) (inb outb : Int)
    (hcaps : gst_video_scale_set_caps vs0 inc out = (true, vs))
    (hi : vs.interlaced = true)
    (hH : 1 ≤ vs.src.height) (hH' : 1 ≤ vs.dest.height)
    (hm : vs.method = GST_VIDEO_SCALE_NEAREST ∨ vs.method = GST_VIDEO_SCALE_BILINEAR
      ∨ vs.method = GST_VIDEO_SCALE_4TAP) :
    main_planes (gst_video_scale_transform vs inb outb).2
      = [(⟨inb, vs.src.width, (vs.src.height + 1) / 2, 2 * vs.src.stride⟩,
          ⟨outb, vs.dest.width, (vs.dest.height + 1) / 2, 2 * vs.dest.stride⟩),
         (⟨inb + vs.src.stride, vs.src.width, vs.src.height / 2, 2 * vs.src.stride⟩,
          ⟨outb + vs.dest.stride, vs.dest.width, vs.dest.height / 2, 2 * vs.dest.stride⟩)] := by
  obtain ⟨_, _, _, _, _, _, _, hsrc, hdest, _⟩ := set_caps_true vs0 vs inc out hcaps
  have hfmt : format_of_code vs.format ≠ none := by
    intro hn
    rw [(prepare_size_eq_none _ _ _ _).2 hn] at hsrc
    exact Option.noConfusion hsrc
  obtain ⟨_, hsh, _⟩ := prepare_size_dims _ _ _ _ _ _ hsrc
  obtain ⟨_, hdh, _⟩ := prepare_size_dims _ _ _ _ _ _ hdest
  have z2 : (0:Int) ≤ 2 := by decide
  have t1 : Int.tdiv vs.src.height 2 = vs.src.height / 2 := Int.tdiv_eq_ediv (by omega) z2
  have t2 : Int.tdiv vs.dest.height 2 = vs.dest.height / 2 := Int.tdiv_eq_ediv (by omega) z2
  have t3 : Int.tmod vs.src.height 2 = vs.src.height % 2 := Int.tmod_eq_emod (by omega) z2
  have t4 : Int.tmod vs.dest.height 2 = vs.dest.height % 2 := Int.tmod_eq_emod (by omega) z2
  have t5 : ∀ s : Int, Int.tdiv (s * 2) 2 = s := fun s => Int.mul_tdiv_cancel s (by decide)
  unfold gst_video_scale_transform
  simp only [hi, if_true]
  obtain ⟨cs1, cs2, h1, h2, h3⟩ := transform_loop_two vs inb outb _ true
    ⟨{ pixels := outb, width := vs.dest.width, height := vs.dest.height.tdiv 2, stride := vs.dest.stride * 2 },
      { pixels := inb, width := vs.src.width, height := vs.src.height.tdiv 2, stride := vs.src.stride * 2 },
      ⟨0, 0, 0, 0⟩, ⟨0, 0, 0, 0⟩, ⟨0, 0, 0, 0⟩, ⟨0, 0, 0, 0⟩⟩
    (downgrade_valid (vs.src.height.tdiv 2 < 4 ∧ vs.method = GST_VIDEO_SCALE_4TAP) _ hm) hfmt
  rw [h3]
  simp only [main_planes_append, scale_switch_main _ _ _ _ h1, scale_switch_main _ _ _ _ h2]
  simp only [transform_fields_src, transform_fields_dest]
  rw [← hsh, ← hdh, t3, t4]
  simp only [t1, t2, t5]
  have a1 : ∀ x : Int, 1 ≤ x → x % 2 = 1 → x / 2 + 1 = (x + 1) / 2 := by intros; omega
  have a2 : ∀ x : Int, 1 ≤ x → ¬ x % 2 = 1 → x / 2 = (x + 1) / 2 := by intros; omega
  by_cases p : vs.src.height % 2 = 1 <;> by_cases q : vs.dest.height % 2 = 1 <;>
    simp [p, q, a1 _ hH, a2 _ hH, a1 _ hH', a2 _ hH', mul_comm] <;> omega

/-- Witness of C7 at an interlaced 64x64 I420 source scaled to 32x31: the
source fields have height 32 and stride 128, field 1 starts 64 bytes in; the
destination fields have heights 16 and 15. -/
theorem C7_interlaced_main_fields_witness :
    gst_video_scale_set_caps gst_video_scale_init ⟨some 64, some 64, some true, 17⟩
        ⟨some 32, some 31, none, 17⟩
      = (true, ⟨1, 17, 64, 64, 32, 31, ⟨0, 64, 64, 64⟩, ⟨0, 32, 31, 32⟩, 6144, 1536, true,
          some 256⟩)
    ∧ (1 : Int) ≤ 64 ∧ (1 : Int) ≤ 31
    ∧ main_planes (gst_video_scale_transform
        ⟨1, 17, 64, 64, 32, 31, ⟨0, 64, 64, 64⟩, ⟨0, 32, 31, 32⟩, 6144, 1536, true,
          some 256⟩ 0 0).2
      = [(⟨0, 64, 32, 128⟩, ⟨0, 32, 16, 64⟩), (⟨64, 64, 32, 128⟩, ⟨32, 32, 15, 64⟩)] :=
  ⟨by decide, by decide, by decide,
    C7_interlaced_main_fields gst_video_scale_init
      ⟨1, 17, 64, 64, 32, 31, ⟨0, 64, 64, 64⟩, ⟨0, 32, 31, 32⟩, 6144, 1536, true, some 256⟩
      ⟨some 64, some 64, some true, 17⟩ ⟨some 32, some 31, none, 17⟩ 0 0
      (by decide) rfl (by decide) (by decide) (Or.inr (Or.inl rfl))⟩

/-- C8: for a planar format and a frame of height `>= 1`,
`gst_video_scale_prepare_image` with `interlaced` set gives each chroma plane,
in terms of that plane's own progressive descriptor (base, width, height Hc,
stride Sc): in field 0 the same base, height ceil(Hc/2) and stride 2*Sc; in
field 1 base + Sc, height floor(Hc/2) and stride 2*Sc.  For every step and
flag the U and V descriptors have the same width, height and stride. -/
theorem C8_chroma_fields (f : VideoScaleFormat) (hf : is_planar f)
    (img img_u img_v : VSImage) (buf : Int) (hh : 1 ≤ img.height) :
    gst_video_scale_prepare_image (code_of_format f) buf img img_u img_v 0 true
      = (⟨(gst_video_scale_prepare_image (code_of_format f) buf img img_u img_v 0 false).1.pixels,
          (gst_video_scale_prepare_image (code_of_format f) buf img img_u img_v 0 false).1.width,
          ((gst_video_scale_prepare_image (code_of_format f) buf img img_u img_v 0 false).1.height + 1) / 2,
          2 * (gst_video_scale_prepare_image (code_of_format f) buf img img_u img_v 0 false).1.stride⟩,
         ⟨(gst_video_scale_prepare_image (code_of_format f) buf img img_u img_v 0 false).2.pixels,
          (gst_video_scale_prepare_image (code_of_format f) buf img img_u img_v 0 false).2.width,
          ((gst_video_scale_prepare_image (code_of_format f) buf img img_u img_v 0 false).2.height + 1) / 2,
          2 * (gst_video_scale_prepare_image (code_of_format f) buf img img_u img_v 0 false).2.stride⟩)
    ∧ gst_video_scale_prepare_image (code_of_format f) buf img img_u img_v 1 true
      = (⟨(gst_video_scale_prepare_image (code_of_format f) buf img img_u img_v 0 false).1.pixels
            + (gst_video_scale_prepare_image (code_of_format f) buf img img_u img_v 0 false).1.stride,
          (gst_video_scale_prepare_image (code_of_format f) buf img img_u img_v 0 false).1.width,
          (gst_video_scale_prepare_image (code_of_format f) buf img img_u img_v 0 false).1.height / 2,
          2 * (gst_video_scale_prepare_image (code_of_format f) buf img img_u img_v 0 false).1.stride⟩,
         ⟨(gst_video_scale_prepare_image (code_of_format f) buf img img_u img_v 0 false).2.pixels
            + (gst_video_scale_prepare_image (code_of_format f) buf img img_u img_v 0 false).2.stride,
          (gst_video_scale_prepare_image (code_of_format f) buf img img_u img_v 0 false).2.width,
          (gst_video_scale_prepare_image (code_of_format f) buf img img_u img_v 0 false).2.height / 2,
          2 * (gst_video_scale_prepare_image (code_of_format f) buf img img_u img_v 0 false).2.stride⟩)
    ∧ ∀ (step : Int) (interlaced : Bool),
        (gst_video_scale_prepare_image (code_of_format f) buf img img_u img_v step interlaced).1.width
          = (gst_video_scale_prepare_image (code_of_format f) buf img img_u img_v step interlaced).2.width
        ∧ (gst_video_scale_prepare_image (code_of_format f) buf img img_u img_v step interlaced).1.height
          = (gst_video_scale_prepare_image (code_of_format f) buf img img_u img_v step interlaced).2.height
        ∧ (gst_video_scale_prepare_image (code_of_format f) buf img img_u img_v step interlaced).1.stride
          = (gst_video_scale_prepare_image (code_of_format f) buf img img_u img_v step interlaced).2.stride := by
  have hc : 0 ≤ Int.tdiv (GST_ROUND_UP_2 img.height) 2 := by
    rw [Int.tdiv_eq_ediv (by unfold GST_ROUND_UP_2; omega) (by decide)]
    unfold GST_ROUND_UP_2; omega
  have hh0 : 0 ≤ img.height := by omega
  have f0 := field0_height _ hc
  have f0' := field0_height _ hh0
  have f1 := Int.tdiv_eq_ediv hc (show (0:Int) ≤ 2 by decide)
  have f1' := Int.tdiv_eq_ediv hh0 (show (0:Int) ≤ 2 by decide)
  refine ⟨?_, ?_, ?_⟩
  · rcases hf with rfl | rfl | rfl | rfl | rfl <;>
      simp [gst_video_scale_prepare_image, prepare_field, format_of_code_code_of_format,
        f0, f0', mul_comm]
  · rcases hf with rfl | rfl | rfl | rfl | rfl <;>
      simp [gst_video_scale_prepare_image, prepare_field, format_of_code_code_of_format,
        f1, f1', mul_comm]
  · intro step il
    cases il <;> by_cases hs : step = 1 <;>
      rcases hf with rfl | rfl | rfl | rfl | rfl <;>
      simp [gst_video_scale_prepare_image, prepare_field, format_of_code_code_of_format, hs]

/-- Witness of C8 at a 64x64 I420 frame: chroma planes of height 32 and
stride 32 at 4096 and 5120 become fields of height 16 and stride 64, field 1
starting 32 bytes (not 64) further. -/
theorem C8_chroma_fields_witness :
    is_planar GST_VIDEO_SCALE_I420 ∧ (1 : Int) ≤ 64
    ∧ gst_video_scale_prepare_image 17 0 ⟨0, 64, 64, 64⟩ ⟨0, 0, 0, 0⟩ ⟨0, 0, 0, 0⟩ 0 false
        = (⟨4096, 32, 32, 32⟩, ⟨5120, 32, 32, 32⟩)
    ∧ gst_video_scale_prepare_image 17 0 ⟨0, 64, 64, 64⟩ ⟨0, 0, 0, 0⟩ ⟨0, 0, 0, 0⟩ 0 true
        = (⟨4096, 32, 16, 64⟩, ⟨5120, 32, 16, 64⟩)
    ∧ gst_video_scale_prepare_image 17 0 ⟨0, 64, 64, 64⟩ ⟨0, 0, 0, 0⟩ ⟨0, 0, 0, 0⟩ 1 true
        = (⟨4096 + 32, 32, 16, 64⟩, ⟨5120 + 32, 32, 16, 64⟩) :=
  have t := C8_chroma_fields GST_VIDEO_SCALE_I420 (Or.inl rfl) ⟨0, 64, 64, 64⟩
    ⟨0, 0, 0, 0⟩ ⟨0, 0, 0, 0⟩ 0 (by decide)
  ⟨Or.inl rfl, by decide, by decide, t.1, t.2.1⟩

/-- C9: if the prepared source height is less than 4,
`gst_video_scale_transform` with method 4TAP returns the same value and makes
the same kernel calls, with the same plane descriptors, as with method
BILINEAR, whatever the format, geometry and interlaced flag. -/
theorem C9_small_source_downgrade (vs : GstVideoScale) (inb outb : Int)
    (h : vs.src.height < 4) :
    gst_video_scale_transform { vs with method := GST_VIDEO_SCALE_4TAP } inb outb
      = gst_video_scale_transform { vs with method := GST_VIDEO_SCALE_BILINEAR } inb outb := by
  have h2 := tdiv_two_lt_four _ h
  unfold gst_video_scale_transform
  simp only [transform_loop_method_field]
  cases hi : vs.interlaced <;>
    simp [h, h2, GST_VIDEO_SCALE_4TAP, GST_VIDEO_SCALE_BILINEAR]

/-- Witness of C9 at an 8x3 RGBA source scaled to 16x6: both requests make
the one call of `vs_image_scale_linear_RGBA`. -/
theorem C9_small_source_downgrade_witness :
    (3 : Int) < 4
    ∧ gst_video_scale_transform
        { ({ method := 0, format := 0, from_width := 8, from_height := 3, to_width := 16,
             to_height := 6, src := ⟨0, 8, 3, 32⟩, dest := ⟨0, 16, 6, 64⟩, src_size := 96,
             dest_size := 384, interlaced := false, tmp_buf := some 256 } : GstVideoScale)
          with method := GST_VIDEO_SCALE_4TAP } 0 0
      = gst_video_scale_transform
        { ({ method := 0, format := 0, from_width := 8, from_height := 3, to_width := 16,
             to_height := 6, src := ⟨0, 8, 3, 32⟩, dest := ⟨0, 16, 6, 64⟩, src_size := 96,
             dest_size := 384, interlaced := false, tmp_buf := some 256 } : GstVideoScale)
          with method := GST_VIDEO_SCALE_BILINEAR } 0 0
    ∧ gst_video_scale_transform
        { ({ method := 0, format := 0, from_width := 8, from_height := 3, to_width := 16,
             to_height := 6, src := ⟨0, 8, 3, 32⟩, dest := ⟨0, 16, 6, 64⟩, src_size := 96,
             dest_size := 384, interlaced := false, tmp_buf := some 256 } : GstVideoScale)
          with method := GST_VIDEO_SCALE_BILINEAR } 0 0
      = (GstFlowReturn.GST_FLOW_OK,
          [⟨vs_image_scale_linear_RGBA, Plane.main, ⟨0, 16, 6, 64⟩, ⟨0, 8, 3, 32⟩⟩]) :=
  ⟨by decide,
    C9_small_source_downgrade
      { method := 0, format := 0, from_width := 8, from_height := 3, to_width := 16,
        to_height := 6, src := ⟨0, 8, 3, 32⟩, dest := ⟨0, 16, 6, 64⟩, src_size := 96,
        dest_size := 384, interlaced := false, tmp_buf := some 256 } 0 0 (by decide),
    by decide⟩

/-- C10, as stated, fails: after a successful `gst_video_scale_set_caps` with
method 4TAP, a 1x4 RGBA source is handed to `vs_image_scale_4tap_RGBA` with
width 1, and the U plane of an 8x4 I420 source is handed to
`vs_image_scale_4tap_Y` with height 2. -/
theorem C10_counterexample :
    ((gst_video_scale_set_caps { gst_video_scale_init with method := GST_VIDEO_SCALE_4TAP }
        ⟨some 1, some 4, none, code_of_format GST_VIDEO_SCALE_RGBA⟩
        ⟨some 2, some 8, none, code_of_format GST_VIDEO_SCALE_RGBA⟩).1 = true
      ∧ ∃ c ∈ (gst_video_scale_transform
          (gst_video_scale_set_caps { gst_video_scale_init with method := GST_VIDEO_SCALE_4TAP }
            ⟨some 1, some 4, none, code_of_format GST_VIDEO_SCALE_RGBA⟩
            ⟨some 2, some 8, none, code_of_format GST_VIDEO_SCALE_RGBA⟩).2 0 0).2,
          c.kernel = vs_image_scale_4tap_RGBA ∧ c.plane = Plane.main ∧ c.src.width = 1
          ∧ ¬ (4 ≤ c.src.width ∧ 4 ≤ c.src.height))
    ∧ ((gst_video_scale_set_caps { gst_video_scale_init with method := GST_VIDEO_SCALE_4TAP }
        ⟨some 8, some 4, none, code_of_format GST_VIDEO_SCALE_I420⟩
        ⟨some 8, some 8, none, code_of_format GST_VIDEO_SCALE_I420⟩).1 = true
      ∧ ∃ c ∈ (gst_video_scale_transform
          (gst_video_scale_set_caps { gst_video_scale_init with method := GST_VIDEO_SCALE_4TAP }
            ⟨some 8, some 4, none, code_of_format GST_VIDEO_SCALE_I420⟩
            ⟨some 8, some 8, none, code_of_format GST_VIDEO_SCALE_I420⟩).2 0 0).2,
          c.kernel = vs_image_scale_4tap_Y ∧ c.plane = Plane.u ∧ c.src.height = 2
          ∧ ¬ (4 ≤ c.src.width ∧ 4 ≤ c.src.height)) := by
  decide

/-- C10, amended: whenever `gst_video_scale_transform` calls a 4-tap kernel,
the source plane handed to it has height `>= 4` if it is the luma or packed
plane, or a chroma plane of Y444, Y42B or Y41B, in either field. -/
theorem C10_4tap_source_height (vs : GstVideoScale) (inb outb : Int) (c : KernelCall)
    (hc : c ∈ (gst_video_scale_transform vs inb outb).2)
    (hk : c.kernel.method = KernelMethod.fourtap)
    (hp : c.plane = Plane.main
      ∨ format_of_code vs.format = some GST_VIDEO_SCALE_Y444
      ∨ format_of_code vs.format = some GST_VIDEO_SCALE_Y42B
      ∨ format_of_code vs.format = some GST_VIDEO_SCALE_Y41B) :
    4 ≤ c.src.height := by
  cases hi : vs.interlaced
  · rw [transform_progressive vs inb outb hi] at hc
    rcases transform_loop_mem vs inb outb _ false 1 (by decide) _ c hc with
      ⟨cs, hs, hcs⟩ | ⟨h2, _⟩
    · obtain ⟨h4, hm, hu, hv⟩ := scale_switch_call _ _ _ _ _ hs hcs
      have hge := downgraded_4tap _ _ (h4 hk)
      rcases hp with hp | hp
      · rw [(hm hp).1, transform_fields_src]; simp; omega
      · cases hpl : c.plane
        · rw [(hm hpl).1, transform_fields_src]; simp; omega
        · rw [(hu hpl).1, transform_fields_src_u,
            (chroma_height_unsubsampled _ _ _ _ _ _ _ hp).1]; simp; omega
        · rw [(hv hpl).1, transform_fields_src_v,
            (chroma_height_unsubsampled _ _ _ _ _ _ _ hp).2]; simp; omega
    · exact absurd h2 (by decide)
  · rw [transform_interlaced vs inb outb hi] at hc
    rcases transform_loop_mem vs inb outb _ true 2 (by decide) _ c hc with
      ⟨cs, hs, hcs⟩ | ⟨_, cs, hs, hcs⟩
    · obtain ⟨h4, hm, hu, hv⟩ := scale_switch_call _ _ _ _ _ hs hcs
      have hge := downgraded_4tap _ _ (h4 hk)
      rcases hp with hp | hp
      · rw [(hm hp).1, transform_fields_src]; simp; split <;> simp <;> omega
      · cases hpl : c.plane
        · rw [(hm hpl).1, transform_fields_src]; simp; split <;> simp <;> omega
        · rw [(hu hpl).1, transform_fields_src_u,
            (chroma_height_unsubsampled _ _ _ _ _ _ _ hp).1]; simp; split <;> omega
        · rw [(hv hpl).1, transform_fields_src_v,
            (chroma_height_unsubsampled _ _ _ _ _ _ _ hp).2]; simp; split <;> omega
    · obtain ⟨h4, hm, hu, hv⟩ := scale_switch_call _ _ _ _ _ hs hcs
      have hge := downgraded_4tap _ _ (h4 hk)
      rcases hp with hp | hp
      · rw [(hm hp).1, transform_fields_src, transform_fields_src]; simp
        split <;> simp <;> omega
      · cases hpl : c.plane
        · rw [(hm hpl).1, transform_fields_src, transform_fields_src]; simp
          split <;> simp <;> omega
        · rw [(hu hpl).1, transform_fields_src_u,
            (chroma_height_unsubsampled _ _ _ _ _ _ _ hp).1]; simp; omega
        · rw [(hv hpl).1, transform_fields_src_v,
            (chroma_height_unsubsampled _ _ _ _ _ _ _ hp).2]; simp; omega

/-- Witness of the amended C10 at an 8x8 RGBA source scaled to 16x16 with
method 4TAP. -/
theorem C10_4tap_source_height_witness :
    (⟨vs_image_scale_4tap_RGBA, Plane.main, ⟨0, 16, 16, 64⟩, ⟨0, 8, 8, 32⟩⟩ : KernelCall)
      ∈ (gst_video_scale_transform
          ⟨2, 0, 8, 8, 16, 16, ⟨0, 8, 8, 32⟩, ⟨0, 16, 16, 64⟩, 256, 1024, false, some 256⟩
          0 0).2
    ∧ vs_image_scale_4tap_RGBA.method = KernelMethod.fourtap
    ∧ (4 : Int) ≤ 8 :=
  ⟨by decide, rfl,
    C10_4tap_source_height
      ⟨2, 0, 8, 8, 16, 16, ⟨0, 8, 8, 32⟩, ⟨0, 16, 16, 64⟩, 256, 1024, false, some 256⟩ 0 0
      ⟨vs_image_scale_4tap_RGBA, Plane.main, ⟨0, 16, 16, 64⟩, ⟨0, 8, 8, 32⟩⟩
      (by decide) rfl (Or.inl rfl)⟩

/-! ## Auxiliary facts on the orchestration -/

theorem transform_ok (vs : GstVideoScale) (inb outb : Int)
    (hf : format_of_code vs.format ≠ none)
    (hm : vs.method = GST_VIDEO_SCALE_NEAREST ∨ vs.method = GST_VIDEO_SCALE_BILINEAR
      ∨ vs.method = GST_VIDEO_SCALE_4TAP) :
    (gst_video_scale_transform vs inb outb).1 = GST_FLOW_OK := by
  cases hi : vs.interlaced
  · rw [transform_progressive vs inb outb hi]
    obtain ⟨cs, _, h⟩ := transform_loop_one vs inb outb _ false
      ⟨⟨outb, vs.dest.width, vs.dest.height, vs.dest.stride⟩,
       ⟨inb, vs.src.width, vs.src.height, vs.src.stride⟩,
       ⟨0, 0, 0, 0⟩, ⟨0, 0, 0, 0⟩, ⟨0, 0, 0, 0⟩, ⟨0, 0, 0, 0⟩⟩
      (downgrade_valid (vs.src.height < 4 ∧ vs.method = GST_VIDEO_SCALE_4TAP) _ hm) hf
    rw [h]
  · rw [transform_interlaced vs inb outb hi]
    obtain ⟨cs1, cs2, _, _, h⟩ := transform_loop_two vs inb outb _ true
      ⟨⟨outb, vs.dest.width, Int.tdiv vs.dest.height 2, vs.dest.stride * 2⟩,
       ⟨inb, vs.src.width, Int.tdiv vs.src.height 2, vs.src.stride * 2⟩,
       ⟨0, 0, 0, 0⟩, ⟨0, 0, 0, 0⟩, ⟨0, 0, 0, 0⟩, ⟨0, 0, 0, 0⟩⟩
      (downgrade_valid (Int.tdiv vs.src.height 2 < 4 ∧ vs.method = GST_VIDEO_SCALE_4TAP) _ hm) hf
    rw [h]

theorem kernel_method_of_valid (m : Int) (km : KernelMethod)
    (h : kernel_method_of m = some km) :
    m = GST_VIDEO_SCALE_NEAREST ∨ m = GST_VIDEO_SCALE_BILINEAR ∨ m = GST_VIDEO_SCALE_4TAP := by
  unfold kernel_method_of at h
  split_ifs at h with h1 h2 h3
  · exact Or.inl h1
  · exact Or.inr (Or.inl h2)
  · exact Or.inr (Or.inr h3)

theorem scale_switch_shape (m fmt : Int) (l : TransformLocals) (cs : List KernelCall)
    (f : VideoScaleFormat) (km : KernelMethod)
    (h : scale_switch m fmt l = some cs) (hf : format_of_code fmt = some f)
    (hk : kernel_method_of m = some km) :
    cs.map (fun c => (c.kernel.method, c.plane)) = pass_shape km (decide (is_planar f)) := by
  unfold scale_switch at h
  unfold kernel_method_of at hk
  split_ifs at h hk with h1 h2 h3
  · cases hk
    unfold scale_nearest at h
    cases f <;> simp [hf] at h <;> subst h <;> rfl
  · cases hk
    unfold scale_linear at h
    cases f <;> simp [hf] at h <;> subst h <;> rfl
  · cases hk
    unfold scale_4tap at h
    cases f <;> simp [hf] at h <;> subst h <;> rfl

theorem transform_fields_dest_u (vs : GstVideoScale) (inb outb : Int) (il : Bool) (step : Int)
    (l : TransformLocals) :
    (transform_fields vs inb outb il step l).dest_u
      = (gst_video_scale_prepare_image vs.format outb vs.dest l.dest_u l.dest_v step il).1 := by
  unfold transform_fields
  split_ifs <;> rfl

theorem transform_fields_dest_v (vs : GstVideoScale) (inb outb : Int) (il : Bool) (step : Int)
    (l : TransformLocals) :
    (transform_fields vs inb outb il step l).dest_v
      = (gst_video_scale_prepare_image vs.format outb vs.dest l.dest_u l.dest_v step il).2 := by
  unfold transform_fields
  split_ifs <;> rfl

/-- The chroma strides `gst_video_scale_prepare_image` writes never exceed the
prepared luma stride, doubled for interlaced content; descriptors it leaves
untouched keep their bound. -/
theorem prepare_image_stride_le (fmt buf : Int) (img0 img u0 v0 : VSImage) (w h size step : Int)
    (il : Bool) (hp : gst_video_scale_prepare_size fmt img0 w h = some (img, size))
    (hw : 1 ≤ w)
    (hu : u0.stride ≤ img.stride * (if il then 2 else 1))
    (hv : v0.stride ≤ img.stride * (if il then 2 else 1)) :
    (gst_video_scale_prepare_image fmt buf img u0 v0 step il).1.stride
        ≤ img.stride * (if il then 2 else 1)
    ∧ (gst_video_scale_prepare_image fmt buf img u0 v0 step il).2.stride
        ≤ img.stride * (if il then 2 else 1) := by
  have e2 : Int.tdiv (GST_ROUND_UP_2 w) 2 = GST_ROUND_UP_2 w / 2 :=
    Int.tdiv_eq_ediv (by unfold GST_ROUND_UP_2; omega) (by decide)
  have e4 : Int.tdiv (GST_ROUND_UP_8 w) 2 = GST_ROUND_UP_8 w / 2 :=
    Int.tdiv_eq_ediv (by unfold GST_ROUND_UP_8; omega) (by decide)
  have e6 : Int.tdiv (GST_ROUND_UP_16 w) 4 = GST_ROUND_UP_16 w / 4 :=
    Int.tdiv_eq_ediv (by unfold GST_ROUND_UP_16; omega) (by decide)
  unfold gst_video_scale_prepare_size at hp
  cases hf : format_of_code fmt with
  | none => simp [hf] at hp
  | some f =>
    cases f <;> simp [hf] at hp <;> obtain ⟨rfl, _⟩ := hp <;> cases il <;>
      simp [gst_video_scale_prepare_image, prepare_field, hf, e2, e4, e6] at hu hv ⊢ <;>
      (try exact ⟨hu, hv⟩) <;>
      (try split) <;>
      simp only [GST_ROUND_UP_2, GST_ROUND_UP_4, GST_ROUND_UP_8, GST_ROUND_UP_16] <;> omega

theorem prepare_size_stride_pos (fmt : Int) (img0 img : VSImage) (w h size : Int)
    (hp : gst_video_scale_prepare_size fmt img0 w h = some (img, size)) (hw : 1 ≤ w) :
    0 < img.stride := by
  unfold gst_video_scale_prepare_size at hp
  cases hf : format_of_code fmt with
  | none => simp [hf] at hp
  | some f =>
    cases f <;> simp [hf] at hp <;> obtain ⟨rfl, _⟩ := hp <;>
      simp only [GST_ROUND_UP_4] <;> omega

/-- C11: for each of the 25 enumerators none of the three inner
`switch (videoscale->format)` jumps to `unsupported`; with a catalog format
and one of the three methods `gst_video_scale_transform` returns
`GST_FLOW_OK`; it returns `GST_FLOW_ERROR` only if the method is none of the
three or the format is no enumerator. -/
theorem C11_full_method_format_coverage (vs : GstVideoScale) (inb outb : Int) :
    (∀ (f : VideoScaleFormat) (l : TransformLocals),
      scale_nearest (code_of_format f) l ≠ none
      ∧ scale_linear (code_of_format f) l ≠ none
      ∧ scale_4tap (code_of_format f) l ≠ none)
    ∧ ((∃ f, vs.format = code_of_format f) →
        (vs.method = GST_VIDEO_SCALE_NEAREST ∨ vs.method = GST_VIDEO_SCALE_BILINEAR
          ∨ vs.method = GST_VIDEO_SCALE_4TAP) →
        (gst_video_scale_transform vs inb outb).1 = GST_FLOW_OK)
    ∧ ((gst_video_scale_transform vs inb outb).1 = GST_FLOW_ERROR →
        ¬ (vs.method = GST_VIDEO_SCALE_NEAREST ∨ vs.method = GST_VIDEO_SCALE_BILINEAR
          ∨ vs.method = GST_VIDEO_SCALE_4TAP)
        ∨ ¬ ∃ f, vs.format = code_of_format f) := by
  have ok : (∃ f, vs.format = code_of_format f) →
      (vs.method = GST_VIDEO_SCALE_NEAREST ∨ vs.method = GST_VIDEO_SCALE_BILINEAR
        ∨ vs.method = GST_VIDEO_SCALE_4TAP) →
      (gst_video_scale_transform vs inb outb).1 = GST_FLOW_OK := by
    rintro ⟨f, hf⟩ hm
    refine transform_ok vs inb outb ?_ hm
    rw [hf, format_of_code_code_of_format]
    exact Option.some_ne_none f
  refine ⟨?_, ok, ?_⟩
  · intro f l
    cases f <;> simp [scale_nearest, scale_linear, scale_4tap, format_of_code_code_of_format]
  · intro herr
    by_contra hcon
    rw [not_or, not_not, not_not] at hcon
    rw [ok hcon.2 hcon.1] at herr
    exact GstFlowReturn.noConfusion herr

/-- Witness of C11 at an 8x8 RGBA frame scaled to 16x16 with method NEAREST. -/
theorem C11_full_method_format_coverage_witness :
    (∃ f, (0 : Int) = code_of_format f)
    ∧ ((0 : Int) = GST_VIDEO_SCALE_NEAREST ∨ (0 : Int) = GST_VIDEO_SCALE_BILINEAR
        ∨ (0 : Int) = GST_VIDEO_SCALE_4TAP)
    ∧ (gst_video_scale_transform
        ⟨0, 0, 8, 8, 16, 16, ⟨0, 8, 8, 32⟩, ⟨0, 16, 16, 64⟩, 256, 1024, false, some 256⟩ 0 0).1
      = GST_FLOW_OK :=
  ⟨⟨GST_VIDEO_SCALE_RGBA, rfl⟩, Or.inl rfl,
    (C11_full_method_format_coverage
      ⟨0, 0, 8, 8, 16, 16, ⟨0, 8, 8, 32⟩, ⟨0, 16, 16, 64⟩, 256, 1024, false, some 256⟩ 0 0).2.1
      ⟨GST_VIDEO_SCALE_RGBA, rfl⟩ (Or.inl rfl)⟩

/-- C12: with a catalog format and a method that the `switch (method)` knows
after the downgrade, `gst_video_scale_transform` makes one pass for
progressive and two passes for interlaced content (the luma or packed plane
first at the buffer base, then one prepared stride further); each pass calls
one kernel for a single-plane format and three, on the luma, U and V locals
in this order, for a planar format; all calls use kernels of one algorithm,
that of the downgraded method. -/
theorem C12_passes_and_methods (vs : GstVideoScale) (inb outb : Int)
    (f : VideoScaleFormat) (km : KernelMethod)
    (hf : format_of_code vs.format = some f)
    (hk : kernel_method_of (effective_method vs) = some km) :
    ((gst_video_scale_transform vs inb outb).2.map (fun c => (c.kernel.method, c.plane))
      = if vs.interlaced
          then pass_shape km (decide (is_planar f)) ++ pass_shape km (decide (is_planar f))
          else pass_shape km (decide (is_planar f)))
    ∧ ((main_planes (gst_video_scale_transform vs inb outb).2).map (fun p => p.1.pixels)
      = if vs.interlaced then [inb, inb + vs.src.stride] else [inb])
    ∧ ((main_planes (gst_video_scale_transform vs inb outb).2).map (fun p => p.2.pixels)
      = if vs.interlaced then [outb, outb + vs.dest.stride] else [outb]) := by
  have hfn : format_of_code vs.format ≠ none := by rw [hf]; exact Option.some_ne_none f
  have t5 : ∀ s : Int, Int.tdiv (s * 2) 2 = s := fun s => Int.mul_tdiv_cancel s (by decide)
  cases hi : vs.interlaced
  · have hk' : kernel_method_of (if vs.src.height < 4 ∧ vs.method = GST_VIDEO_SCALE_4TAP
        then GST_VIDEO_SCALE_BILINEAR else vs.method) = some km := by
      simpa [effective_method, hi] using hk
    rw [transform_progressive vs inb outb hi]
    obtain ⟨cs, h1, h⟩ := transform_loop_one vs inb outb _ false
      ⟨⟨outb, vs.dest.width, vs.dest.height, vs.dest.stride⟩,
       ⟨inb, vs.src.width, vs.src.height, vs.src.stride⟩,
       ⟨0, 0, 0, 0⟩, ⟨0, 0, 0, 0⟩, ⟨0, 0, 0, 0⟩, ⟨0, 0, 0, 0⟩⟩
      (kernel_method_of_valid _ _ hk') hfn
    rw [h]
    refine ⟨?_, ?_, ?_⟩
    · simpa using scale_switch_shape _ _ _ _ f km h1 hf hk'
    · simp [scale_switch_main _ _ _ _ h1, transform_fields_src]
    · simp [scale_switch_main _ _ _ _ h1, transform_fields_dest]
  · have hk' : kernel_method_of (if Int.tdiv vs.src.height 2 < 4
        ∧ vs.method = GST_VIDEO_SCALE_4TAP
        then GST_VIDEO_SCALE_BILINEAR else vs.method) = some km := by
      simpa [effective_method, hi] using hk
    rw [transform_interlaced vs inb outb hi]
    obtain ⟨cs1, cs2, h1, h2, h⟩ := transform_loop_two vs inb outb _ true
      ⟨⟨outb, vs.dest.width, Int.tdiv vs.dest.height 2, vs.dest.stride * 2⟩,
       ⟨inb, vs.src.width, Int.tdiv vs.src.height 2, vs.src.stride * 2⟩,
       ⟨0, 0, 0, 0⟩, ⟨0, 0, 0, 0⟩, ⟨0, 0, 0, 0⟩, ⟨0, 0, 0, 0⟩⟩
      (kernel_method_of_valid _ _ hk') hfn
    rw [h]
    refine ⟨?_, ?_, ?_⟩
    · simp only [List.map_append, scale_switch_shape _ _ _ _ f km h1 hf hk',
        scale_switch_shape _ _ _ _ f km h2 hf hk']
      simp
    · simp only [main_planes_append, scale_switch_main _ _ _ _ h1,
        scale_switch_main _ _ _ _ h2, transform_fields_src]
      by_cases p : Int.tmod vs.from_height 2 = 1 <;> simp [p, t5]
    · simp only [main_planes_append, scale_switch_main _ _ _ _ h1,
        scale_switch_main _ _ _ _ h2, transform_fields_dest]
      by_cases p : Int.tmod vs.to_height 2 = 1 <;> simp [p, t5]

/-- Witness of C12 at an interlaced 64x64 I420 source scaled to 32x31 with
method 4TAP: six 4-tap calls, luma, U, V for field 0 and again for field 1. -/
theorem C12_passes_and_methods_witness :
    format_of_code 17 = some GST_VIDEO_SCALE_I420
    ∧ kernel_method_of (effective_method
        ⟨2, 17, 64, 64, 32, 31, ⟨0, 64, 64, 64⟩, ⟨0, 32, 31, 32⟩, 6144, 1536, true, some 256⟩)
      = some KernelMethod.fourtap
    ∧ (gst_video_scale_transform
        ⟨2, 17, 64, 64, 32, 31, ⟨0, 64, 64, 64⟩, ⟨0, 32, 31, 32⟩, 6144, 1536, true, some 256⟩ 0 0).2.map
          (fun c => (c.kernel.method, c.plane))
      = [(KernelMethod.fourtap, Plane.main), (KernelMethod.fourtap, Plane.u),
         (KernelMethod.fourtap, Plane.v), (KernelMethod.fourtap, Plane.main),
         (KernelMethod.fourtap, Plane.u), (KernelMethod.fourtap, Plane.v)]
    ∧ (main_planes (gst_video_scale_transform
        ⟨2, 17, 64, 64, 32, 31, ⟨0, 64, 64, 64⟩, ⟨0, 32, 31, 32⟩, 6144, 1536, true, some 256⟩ 0 0).2).map
          (fun p => p.1.pixels)
      = [0, 64] :=
  have t := C12_passes_and_methods
    ⟨2, 17, 64, 64, 32, 31, ⟨0, 64, 64, 64⟩, ⟨0, 32, 31, 32⟩, 6144, 1536, true, some 256⟩ 0 0
    GST_VIDEO_SCALE_I420 KernelMethod.fourtap (by decide) (by decide)
  ⟨by decide, by decide, t.1, t.2.1⟩

/-- C13: after a successful `gst_video_scale_set_caps` with a destination
width `>= 1`, the scratch buffer has `dest.stride * 4` bytes, twice that for
interlaced content, and this is at least 4 times the stride of the
destination descriptor of every kernel call of `gst_video_scale_transform`,
chroma planes and interlaced fields included. -/
theorem C13_scratch_covers_strides (vs0 vs : GstVideoScale) (inc out : Caps) (inb outb : Int)
    (hcaps : gst_video_scale_set_caps vs0 inc out = (true, vs))
    (hw : 1 ≤ vs.to_width) :
    vs.tmp_buf = some (vs.dest.stride * 4 * (if vs.interlaced then 2 else 1))
    ∧ ∀ c ∈ (gst_video_scale_transform vs inb outb).2,
        4 * c.dest.stride ≤ vs.dest.stride * 4 * (if vs.interlaced then 2 else 1) := by
  obtain ⟨_, _, _, _, _, _, _, _, hdest, htmp⟩ := set_caps_true vs0 vs inc out hcaps
  refine ⟨htmp, ?_⟩
  have hpos := prepare_size_stride_pos _ _ _ _ _ _ hdest hw
  have z : ∀ il : Bool, (⟨0, 0, 0, 0⟩ : VSImage).stride ≤ vs.dest.stride * (if il then 2 else 1) := by
    intro il; cases il <;> simp <;> omega
  have step : ∀ (il : Bool) (k : Int) (l : TransformLocals),
      l.dest_u.stride ≤ vs.dest.stride * (if il then 2 else 1) →
      l.dest_v.stride ≤ vs.dest.stride * (if il then 2 else 1) →
      (transform_fields vs inb outb il k l).dest_u.stride
          ≤ vs.dest.stride * (if il then 2 else 1)
      ∧ (transform_fields vs inb outb il k l).dest_v.stride
          ≤ vs.dest.stride * (if il then 2 else 1) := by
    intro il k l hu hv
    rw [transform_fields_dest_u, transform_fields_dest_v]
    exact prepare_image_stride_le vs.format outb _ _ _ _ _ _ _ k il hdest hw hu hv
  intro c hc
  cases hi : vs.interlaced
  · rw [transform_progressive vs inb outb hi] at hc
    rcases transform_loop_mem vs inb outb _ false 1 (by decide) _ c hc with
      ⟨cs, hs, hcs⟩ | ⟨h2, _⟩
    · obtain ⟨_, hm, hu, hv⟩ := scale_switch_call _ _ _ _ _ hs hcs
      have b0 := step false 0
        (⟨⟨outb, vs.dest.width, vs.dest.height, vs.dest.stride⟩,
        ⟨inb, vs.src.width, vs.src.height, vs.src.stride⟩,
        ⟨0, 0, 0, 0⟩, ⟨0, 0, 0, 0⟩, ⟨0, 0, 0, 0⟩, ⟨0, 0, 0, 0⟩⟩ : TransformLocals)
        (z false) (z false)
      cases hpl : c.plane
      · rw [(hm hpl).2, transform_fields_dest]; simp; omega
      · rw [(hu hpl).2]; simp at b0 ⊢; omega
      · rw [(hv hpl).2]; simp at b0 ⊢; omega
    · exact absurd h2 (by decide)
  · rw [transform_interlaced vs inb outb hi] at hc
    rcases transform_loop_mem vs inb outb _ true 2 (by decide) _ c hc with
      ⟨cs, hs, hcs⟩ | ⟨_, cs, hs, hcs⟩
    · obtain ⟨_, hm, hu, hv⟩ := scale_switch_call _ _ _ _ _ hs hcs
      have b0 := step true 0
        (⟨⟨outb, vs.dest.width, Int.tdiv vs.dest.height 2, vs.dest.stride * 2⟩,
        ⟨inb, vs.src.width, Int.tdiv vs.src.height 2, vs.src.stride * 2⟩,
        ⟨0, 0, 0, 0⟩, ⟨0, 0, 0, 0⟩, ⟨0, 0, 0, 0⟩, ⟨0, 0, 0, 0⟩⟩ : TransformLocals)
        (z true) (z true)
      cases hpl : c.plane
      · rw [(hm hpl).2, transform_fields_dest]; simp; split <;> simp <;> omega
      · rw [(hu hpl).2]; simp at b0 ⊢; omega
      · rw [(hv hpl).2]; simp at b0 ⊢; omega
    · obtain ⟨_, hm, hu, hv⟩ := scale_switch_call _ _ _ _ _ hs hcs
      have b0 := step true 0
        (⟨⟨outb, vs.dest.width, Int.tdiv vs.dest.height 2, vs.dest.stride * 2⟩,
        ⟨inb, vs.src.width, Int.tdiv vs.src.height 2, vs.src.stride * 2⟩,
        ⟨0, 0, 0, 0⟩, ⟨0, 0, 0, 0⟩, ⟨0, 0, 0, 0⟩, ⟨0, 0, 0, 0⟩⟩ : TransformLocals)
        (z true) (z true)
      have b1 := step true 1 _ b0.1 b0.2
      cases hpl : c.plane
      · rw [(hm hpl).2, transform_fields_dest, transform_fields_dest]; simp
        split <;> simp <;> omega
      · rw [(hu hpl).2]; simp at b1 ⊢; omega
      · rw [(hv hpl).2]; simp at b1 ⊢; omega

/-- Witness of C13 at an interlaced 64x64 I420 source scaled to 32x31: a
scratch buffer of 256 bytes for destination strides of at most 64. -/
theorem C13_scratch_covers_strides_witness :
    gst_video_scale_set_caps gst_video_scale_init ⟨some 64, some 64, some true, 17⟩
        ⟨some 32, some 31, none, 17⟩
      = (true, ⟨1, 17, 64, 64, 32, 31, ⟨0, 64, 64, 64⟩, ⟨0, 32, 31, 32⟩, 6144, 1536, true,
          some 256⟩)
    ∧ (1 : Int) ≤ 32
    ∧ ∀ c ∈ (gst_video_scale_transform
        ⟨1, 17, 64, 64, 32, 31, ⟨0, 64, 64, 64⟩, ⟨0, 32, 31, 32⟩, 6144, 1536, true,
          some 256⟩ 0 0).2, 4 * c.dest.stride ≤ 256 :=
  ⟨by decide, by decide,
    (C13_scratch_covers_strides gst_video_scale_init
      ⟨1, 17, 64, 64, 32, 31, ⟨0, 64, 64, 64⟩, ⟨0, 32, 31, 32⟩, 6144, 1536, true, some 256⟩
      ⟨some 64, some 64, some true, 17⟩ ⟨some 32, some 31, none, 17⟩ 0 0
      (by decide) (by decide)).2⟩

/-! ## Auxiliary facts on `gst_video_scale_fixate_caps` -/

/-- The cast to `guint` and the store into a `gint` leave a scaled value
alone when it fits a `gint`. -/
theorem scale_to_gint_eq (val num denom : Int) (hv : 0 ≤ val) (hv2 : val ≤ G_MAXINT)
    (hn : 0 ≤ num) (hd : 0 < denom) (hr : val * num / denom ≤ G_MAXINT) :
    scale_to_gint val num denom = val * num / denom := by
  have h0 : 0 ≤ val * num / denom := Int.ediv_nonneg (mul_nonneg hv hn) (le_of_lt hd)
  unfold G_MAXINT at hv2 hr
  have e1 : val % 2 ^ 64 = val := Int.emod_eq_of_lt hv (by omega)
  unfold scale_to_gint gst_util_uint64_scale_int
  simp only [e1, G_MAXUINT64]
  generalize val * num / denom = q at *
  have c1 : ¬ (denom ≤ 0 ∨ num < 0) := by omega
  have c2 : ¬ ((18446744073709551615 : Int) < q) := by omega
  have e2 : q % 2 ^ 32 = q := Int.emod_eq_of_lt h0 (by omega)
  have c3 : q < 2 ^ 31 := by omega
  simp only [if_neg c1, if_neg c2, e2, if_pos c3]

/-- A display ratio that was computed: both cross products are positive and
fit a `gint`, and `num / den` is their quotient with positive terms no larger
than the products. -/
theorem calculate_display_ratio_some (a b c d e f num den : Int)
    (h : gst_video_calculate_display_ratio a b c d e f = some (num, den)) :
    0 < a * c * f ∧ a * c * f ≤ G_MAXINT ∧ 0 < b * d * e ∧ b * d * e ≤ G_MAXINT
    ∧ 0 < num ∧ 0 < den ∧ num * (b * d * e) = den * (a * c * f)
    ∧ num ≤ a * c * f ∧ den ≤ b * d * e := by
  unfold gst_video_calculate_display_ratio at h
  simp only at h
  split at h
  · exact Option.noConfusion h
  · rename_i hc
    simp only [not_or, not_le, not_lt] at hc
    obtain ⟨hN, hD, hN2, hD2⟩ := hc
    simp only [Option.some.injEq, Prod.mk.injEq] at h
    obtain ⟨rfl, rfl⟩ := h
    generalize a * c * f = N at *
    generalize b * d * e = D at *
    have hg : (0 : Int) < (Int.gcd N D : Int) := by
      have : 0 < Int.gcd N D := Int.gcd_pos_of_ne_zero_left D (by omega)
      exact_mod_cast this
    obtain ⟨x, hx⟩ : (Int.gcd N D : Int) ∣ N := Int.gcd_dvd_left
    obtain ⟨y, hy⟩ : (Int.gcd N D : Int) ∣ D := Int.gcd_dvd_right
    have ex : N / (Int.gcd N D : Int) = x := Int.ediv_eq_of_eq_mul_right (by omega) hx
    have ey : D / (Int.gcd N D : Int) = y := Int.ediv_eq_of_eq_mul_right (by omega) hy
    rw [ex, ey]
    generalize (Int.gcd N D : Int) = g at *
    have hxp : 0 < x := by
      by_contra hneg
      have : g * x ≤ 0 := Int.mul_nonpos_of_nonneg_of_nonpos (by omega) (by omega)
      omega
    have hyp : 0 < y := by
      by_contra hneg
      have : g * y ≤ 0 := Int.mul_nonpos_of_nonneg_of_nonpos (by omega) (by omega)
      omega
    refine ⟨hN, hN2, hD, hD2, hxp, hyp, ?_, ?_, ?_⟩
    · rw [hx, hy]; ring
    · rw [hx]; nlinarith
    · rw [hy]; nlinarith

theorem le_cross_product (x k : Int) (hx : 1 ≤ x) (hp : 0 < x * k) : x ≤ x * k := by
  have hk : 0 < k := by
    by_contra hneg
    have : x * k ≤ 0 := Int.mul_nonpos_of_nonneg_of_nonpos (by omega) (by omega)
    omega
  nlinarith

/-- With a fixed source pixel-aspect-ratio and a destination one that is
fixed, or unconstrained and so defaulted to the source's, the function is its
`if (from_par && to_par)` branch. -/
theorem fixate_caps_with_par (fw fh fpn fpd tpn tpd : Int) (oc : CapsStructure)
    (hp : oc.par = FractionField.fixed tpn tpd
      ∨ (oc.par = FractionField.unconstrained ∧ tpn = fpn ∧ tpd = fpd)) :
    gst_video_scale_fixate_caps
        ⟨IntField.fixed fw, IntField.fixed fh, FractionField.fixed fpn fpd⟩ oc
      = fixate_with_par ⟨IntField.fixed fw, IntField.fixed fh, FractionField.fixed fpn fpd⟩
          ⟨oc.width, oc.height, FractionField.fixed tpn tpd⟩ fpn fpd tpn tpd := by
  obtain ⟨ow, oh, op⟩ := oc
  simp only at hp
  rcases hp with rfl | ⟨rfl, rfl, rfl⟩ <;>
    simp [gst_video_scale_fixate_caps, gst_caps_is_fixed,
      gst_structure_fixate_field_nearest_fraction]

/-- The branch with both pixel-aspect-ratios when a destination dimension is
open and the display ratio was computed: both fields are fixated to the
scaled size. -/
theorem fixate_with_par_computed (fw fh fpn fpd tpn tpd num den : Int) (ow oh : IntField)
    (p q : FractionField)
    (hn : ¬ ((∃ w, ow = IntField.fixed w) ∧ (∃ h, oh = IntField.fixed h)))
    (hcalc : gst_video_calculate_display_ratio fw fh fpn fpd tpn tpd = some (num, den)) :
    fixate_with_par ⟨IntField.fixed fw, IntField.fixed fh, p⟩ ⟨ow, oh, q⟩ fpn fpd tpn tpd
      = ⟨⟨gst_structure_fixate_field_nearest_int ow
            (fixate_scaled_size fw fh (gst_structure_get_int ow 0).2
              (gst_structure_get_int oh 0).2 num den).1,
          gst_structure_fixate_field_nearest_int oh
            (fixate_scaled_size fw fh (gst_structure_get_int ow 0).2
              (gst_structure_get_int oh 0).2 num den).2, q⟩, false⟩ := by
  cases ow <;> cases oh <;> simp at hn <;>
    simp [fixate_with_par, gst_structure_get_int, hcalc]

theorem fixate_nearest_int_range (lo hi v : Int) (h1 : lo ≤ v) (h2 : v ≤ hi) :
    gst_structure_fixate_field_nearest_int (IntField.range lo hi) v = IntField.fixed v := by
  simp only [gst_structure_fixate_field_nearest_int]
  rw [if_neg (not_lt.mpr h1), if_neg (not_lt.mpr h2)]

theorem fixate_nearest_int_fixed (v target : Int) :
    gst_structure_fixate_field_nearest_int (IntField.fixed v) target = IntField.fixed v := rfl

/-- Fitting to a non-empty range gives a member of the range at the least
distance from the target. -/
theorem fixate_nearest_int_clamp (lo hi target : Int) (h : lo ≤ hi) :
    ∃ v, gst_structure_fixate_field_nearest_int (IntField.range lo hi) target
        = IntField.fixed v
      ∧ lo ≤ v ∧ v ≤ hi ∧ ∀ x, lo ≤ x → x ≤ hi → |v - target| ≤ |x - target| := by
  simp only [gst_structure_fixate_field_nearest_int]
  by_cases c1 : target < lo
  · have c2 : ¬ lo > hi := by omega
    rw [if_pos c1, if_neg c2]
    refine ⟨lo, rfl, le_refl _, h, fun x hx1 _ => ?_⟩
    rw [abs_of_nonneg (by omega), abs_of_nonneg (by omega)]; omega
  · rw [if_neg c1]
    by_cases c2 : target > hi
    · rw [if_pos c2]
      refine ⟨hi, rfl, h, le_refl _, fun x _ hx2 => ?_⟩
      rw [abs_of_nonpos (by omega), abs_of_nonpos (by omega)]; omega
    · rw [if_neg c2]
      refine ⟨target, rfl, by omega, by omega, fun x _ _ => ?_⟩
      simp

/-- A field inside the element's size range is fixed inside it after the
fitting, whatever the target. -/
theorem fixate_nearest_int_within (f : IntField) (target : Int) (hf : within_size_range f) :
    ∃ v, gst_structure_fixate_field_nearest_int f target = IntField.fixed v
      ∧ 1 ≤ v ∧ v ≤ 32767 := by
  cases f with
  | absent => exact absurd hf (by simp [within_size_range])
  | fixed v => exact ⟨v, rfl, hf.1, hf.2⟩
  | range lo hi =>
    obtain ⟨h1, h2, h3⟩ := hf
    obtain ⟨v, hv, hv1, hv2, _⟩ := fixate_nearest_int_clamp lo hi target h2
    exact ⟨v, hv, by omega, by omega⟩

/-- The scaled size when no destination dimension is fixed and the display
ratio was computed for a source of positive size: no value is cut by the
cast. -/
theorem scaled_size_unfixed (fw fh fpn fpd tpn tpd num den : Int)
    (hfw : 1 ≤ fw) (hfh : 1 ≤ fh)
    (hcalc : gst_video_calculate_display_ratio fw fh fpn fpd tpn tpd = some (num, den)) :
    fixate_scaled_size fw fh 0 0 num den
      = if fh % den = 0 then (fh * num / den, fh)
        else if fw % num = 0 then (fw, fw * den / num)
        else (fh * num / den, fh) := by
  obtain ⟨hN, hN2, hD, hD2, hnum, hden, hcross, hnN, hdD⟩ :=
    calculate_display_ratio_some _ _ _ _ _ _ _ _ hcalc
  have hfwN : fw ≤ fw * fpn * tpd := by
    rw [mul_assoc] at hN ⊢; exact le_cross_product fw _ hfw hN
  have hfhD : fh ≤ fh * fpd * tpn := by
    rw [mul_assoc] at hD ⊢; exact le_cross_product fh _ hfh hD
  generalize fw * fpn * tpd = N at *
  generalize fh * fpd * tpn = D at *
  have b1 : fh * num / den ≤ G_MAXINT := by
    have : fh * num / den ≤ N := Int.ediv_le_of_le_mul hden (by nlinarith)
    omega
  have b2 : fw * den / num ≤ G_MAXINT := by
    have : fw * den / num ≤ D := Int.ediv_le_of_le_mul hnum (by nlinarith)
    omega
  have s1 := scale_to_gint_eq fh num den (by omega) (by omega) (by omega) hden b1
  have s2 := scale_to_gint_eq fw den num (by omega) (by omega) (by omega) hnum b2
  have m1 : fh % 4294967296 = fh :=
    Int.emod_eq_of_lt (by omega) (by unfold G_MAXINT at hD2; omega)
  have m2 : fw % 4294967296 = fw :=
    Int.emod_eq_of_lt (by omega) (by unfold G_MAXINT at hN2; omega)
  simp [fixate_scaled_size, s1, s2, m1, m2]

/-- A ratio that stands for the source's own proportions reproduces the
source size, whether or not it is in lowest terms. -/
theorem scaled_size_same_ratio (fw fh num den : Int)
    (hfw : 1 ≤ fw) (hfw2 : fw ≤ G_MAXINT) (hfh : 1 ≤ fh) (hfh2 : fh ≤ G_MAXINT)
    (hnum : 0 < num) (hden : 0 < den) (hr : num * fh = den * fw) :
    fixate_scaled_size fw fh 0 0 num den = (fw, fh) := by
  have q1 : fh * num / den = fw := by
    rw [mul_comm, hr]; exact Int.mul_ediv_cancel_left fw (by omega)
  have q2 : fw * den / num = fh := by
    rw [mul_comm, ← hr]; exact Int.mul_ediv_cancel_left fh (by omega)
  have s1 := scale_to_gint_eq fh num den (by omega) hfh2 (by omega) hden (by omega)
  have s2 := scale_to_gint_eq fw den num (by omega) hfw2 (by omega) hnum (by omega)
  simp only [fixate_scaled_size, s1, s2, q1, q2]
  simp

/-- With the destination height fixed the scaled width is taken from that
height and the ratio alone; it is `h * num / den` rounded down as long as
that value fits a `gint`. -/
theorem scaled_size_fixed_height (from_w from_h w h num den : Int)
    (hh1 : 1 ≤ h) (hh2 : h ≤ G_MAXINT) (hnum : 0 ≤ num) (hden : 0 < den) :
    fixate_scaled_size from_w from_h w h num den = (scale_to_gint h num den, h)
    ∧ (h * num / den ≤ G_MAXINT →
        fixate_scaled_size from_w from_h w h num den = (h * num / den, h)) := by
  have h0 : h ≠ 0 := by omega
  refine ⟨by simp [fixate_scaled_size, h0], fun hr => ?_⟩
  simp [fixate_scaled_size, h0, scale_to_gint_eq h num den (by omega) hh2 hnum hden hr]

/-! ## Caps fixation: `gst_video_scale_fixate_caps` -/

/-- C14: when the destination width and height are both fixed,
`gst_video_scale_fixate_caps` leaves them as they are and posts no error, for
every source structure (any size, any pixel-aspect-ratio, present or not) and
every destination pixel-aspect-ratio. -/
theorem C14_fixed_size_wins (caps othercaps : CapsStructure) (w h : Int)
    (hw : othercaps.width = IntField.fixed w) (hh : othercaps.height = IntField.fixed h) :
    (gst_video_scale_fixate_caps caps othercaps).othercaps.width = IntField.fixed w
    ∧ (gst_video_scale_fixate_caps caps othercaps).othercaps.height = IntField.fixed h
    ∧ (gst_video_scale_fixate_caps caps othercaps).error = false := by
  obtain ⟨ow, oh, op⟩ := othercaps
  obtain ⟨cw, ch, cp⟩ := caps
  simp only at hw hh
  subst hw hh
  unfold gst_video_scale_fixate_caps
  split
  · exact ⟨rfl, rfl, rfl⟩
  · cases cp <;> cases op <;> cases cw <;> cases ch <;>
      simp [fixate_with_par, fixate_without_par, gst_structure_get_int,
        gst_structure_fixate_field_nearest_int,
        gst_structure_fixate_field_nearest_fraction]

/-- Witness of C14: a 720x576 source with pixel-aspect-ratio 16/15 and a
destination fixed to 320x200 with square pixels, which does not keep the
display aspect ratio 4/3. -/
theorem C14_fixed_size_wins_witness :
    (gst_video_scale_fixate_caps
        ⟨IntField.fixed 720, IntField.fixed 576, FractionField.fixed 16 15⟩
        ⟨IntField.fixed 320, IntField.fixed 200, FractionField.fixed 1 1⟩).othercaps.width
      = IntField.fixed 320
    ∧ (gst_video_scale_fixate_caps
        ⟨IntField.fixed 720, IntField.fixed 576, FractionField.fixed 16 15⟩
        ⟨IntField.fixed 320, IntField.fixed 200, FractionField.fixed 1 1⟩).othercaps.height
      = IntField.fixed 200
    ∧ (gst_video_scale_fixate_caps
        ⟨IntField.fixed 720, IntField.fixed 576, FractionField.fixed 16 15⟩
        ⟨IntField.fixed 320, IntField.fixed 200, FractionField.fixed 1 1⟩).error = false :=
  C14_fixed_size_wins ⟨IntField.fixed 720, IntField.fixed 576, FractionField.fixed 16 15⟩
    ⟨IntField.fixed 320, IntField.fixed 200, FractionField.fixed 1 1⟩ 320 200 rfl rfl

/-- C15, counterexample: for a 400x100 source with square pixels on both
sides the display ratio is 4/1; with the destination width fixed to 7 and the
height open in [1, 32767] the function fixates the height to 1, while
`round (7 * 1 / 4) = round 1.75 = 2`, which the height range permits. -/
theorem C15_counterexample :
    gst_video_scale_fixate_caps
        ⟨IntField.fixed 400, IntField.fixed 100, FractionField.fixed 1 1⟩
        ⟨IntField.fixed 7, IntField.range 1 32767, FractionField.fixed 1 1⟩
      = ⟨⟨IntField.fixed 7, IntField.fixed 1, FractionField.fixed 1 1⟩, false⟩
    ∧ gst_video_calculate_display_ratio 400 100 1 1 1 1 = some (4, 1)
    ∧ round ((7 : ℚ) * 1 / 4) = 2
    ∧ (1 : Int) ≤ 2 ∧ (2 : Int) ≤ 32767 := by
  refine ⟨by decide, by decide, by norm_num [round_eq], by decide, by decide⟩

/-- C15, amended: with both pixel-aspect-ratios present (the destination one
fixed, or unconstrained and defaulted to the source's), a destination width
`w >= 1` fixed by the caller, an open height range and a computed display
ratio `num / den`, `gst_video_scale_fixate_caps` keeps the width `w` and
fixates the height to `w * den / num` rounded down, provided that value lies in
the height range. -/
theorem C15_fixed_width_floor_height (from_w from_h from_par_n from_par_d to_par_n to_par_d
    w lo hi num den : Int) (othercaps : CapsStructure)
    (hw1 : 1 ≤ w) (hw2 : w ≤ G_MAXINT)
    (hwf : othercaps.width = IntField.fixed w)
    (hhf : othercaps.height = IntField.range lo hi)
    (hp : othercaps.par = FractionField.fixed to_par_n to_par_d
      ∨ (othercaps.par = FractionField.unconstrained
          ∧ to_par_n = from_par_n ∧ to_par_d = from_par_d))
    (hcalc : gst_video_calculate_display_ratio from_w from_h from_par_n from_par_d
      to_par_n to_par_d = some (num, den))
    (hlo : lo ≤ w * den / num) (hhi : w * den / num ≤ hi) (hhi2 : hi ≤ G_MAXINT) :
    gst_video_scale_fixate_caps
        ⟨IntField.fixed from_w, IntField.fixed from_h,
          FractionField.fixed from_par_n from_par_d⟩ othercaps
      = ⟨⟨IntField.fixed w, IntField.fixed (w * den / num),
          FractionField.fixed to_par_n to_par_d⟩, false⟩ := by
  obtain ⟨_, _, _, _, hnum, hden, _, _, _⟩ :=
    calculate_display_ratio_some _ _ _ _ _ _ _ _ hcalc
  rw [fixate_caps_with_par _ _ _ _ _ _ _ hp, hwf, hhf,
    fixate_with_par_computed _ _ _ _ _ _ num den _ _ _ _ (by simp) hcalc]
  have hs : scale_to_gint w den num = w * den / num :=
    scale_to_gint_eq w den num (by omega) hw2 (by omega) hnum (by omega)
  have hw0 : w ≠ 0 := by omega
  simp [gst_structure_get_int, fixate_scaled_size, hw0, hs,
    fixate_nearest_int_range _ _ _ hlo hhi, fixate_nearest_int_fixed]

/-- Witness of C15 (amended): a 720x576 source with pixel-aspect-ratio 16/15
shown with square pixels has display ratio 4/3; a destination width fixed to
770 gives the height `770 * 3 / 4` rounded down, 577. -/
theorem C15_fixed_width_floor_height_witness :
    gst_video_calculate_display_ratio 720 576 16 15 1 1 = some (4, 3)
    ∧ (1 : Int) ≤ 770 * 3 / 4 ∧ (770 : Int) * 3 / 4 ≤ 32767
    ∧ gst_video_scale_fixate_caps
        ⟨IntField.fixed 720, IntField.fixed 576, FractionField.fixed 16 15⟩
        ⟨IntField.fixed 770, IntField.range 1 32767, FractionField.fixed 1 1⟩
      = ⟨⟨IntField.fixed 770, IntField.fixed 577, FractionField.fixed 1 1⟩, false⟩ :=
  ⟨by decide, by decide, by decide,
    C15_fixed_width_floor_height 720 576 16 15 1 1 770 1 32767 4 3
      ⟨IntField.fixed 770, IntField.range 1 32767, FractionField.fixed 1 1⟩
      (by decide) (by decide) rfl rfl (Or.inl rfl) (by decide) (by decide) (by decide)
      (by decide)⟩

/-- C16, failing input: a 16384x1 source with pixel-aspect-ratio 65536/1
shown with square pixels has display ratio 1073741824/1.  With the
destination height fixed to 4 the scaled width `4 * 1073741824 / 1` is
4294967296, which the cast to `guint` cuts to 0, so the function fixates the
width to 1; the same value fitted to the width range [1, 32767] is 32767. -/
theorem C16_cast_cuts_scaled_width :
    gst_video_calculate_display_ratio 16384 1 65536 1 1 1 = some (1073741824, 1)
    ∧ gst_video_scale_fixate_caps
        ⟨IntField.fixed 16384, IntField.fixed 1, FractionField.fixed 65536 1⟩
        ⟨IntField.range 1 32767, IntField.fixed 4, FractionField.fixed 1 1⟩
      = ⟨⟨IntField.fixed 1, IntField.fixed 4, FractionField.fixed 1 1⟩, false⟩
    ∧ fixate_scaled_size 16384 1 0 4 1073741824 1 = (0, 4)
    ∧ (4 : Int) * 1073741824 / 1 = 4294967296
    ∧ gst_structure_fixate_field_nearest_int (IntField.range 1 32767) (4 * 1073741824 / 1)
      = IntField.fixed 32767 := by
  refine ⟨by decide, by decide, by decide, by decide, by decide⟩

/-- C17: with both pixel-aspect-ratios present (the destination one fixed, or
unconstrained and defaulted to the source's), a source of positive size, no
destination dimension fixed and a computed display ratio `num / den`,
`gst_video_scale_fixate_caps` fits the destination fields to the candidate
`fixate_scaled_size from_w from_h 0 0 num den`, which is
`(from_h * num / den, from_h)` if `from_h mod den = 0`, otherwise
`(from_w, from_w * den / num)` if `from_w mod num = 0`, otherwise
`(from_h * num / den, from_h)` with the division rounded down.  In the first
two branches `width * den = height * num`, and in every branch the candidate
keeps the source width or the source height. -/
theorem C17_unfixed_choice (from_w from_h from_par_n from_par_d to_par_n to_par_d
    num den : Int) (othercaps : CapsStructure)
    (hfw : 1 ≤ from_w) (hfh : 1 ≤ from_h)
    (how : ∀ w, othercaps.width ≠ IntField.fixed w)
    (hoh : ∀ h, othercaps.height ≠ IntField.fixed h)
    (hp : othercaps.par = FractionField.fixed to_par_n to_par_d
      ∨ (othercaps.par = FractionField.unconstrained
          ∧ to_par_n = from_par_n ∧ to_par_d = from_par_d))
    (hcalc : gst_video_calculate_display_ratio from_w from_h from_par_n from_par_d
      to_par_n to_par_d = some (num, den)) :
    gst_video_scale_fixate_caps
        ⟨IntField.fixed from_w, IntField.fixed from_h,
          FractionField.fixed from_par_n from_par_d⟩ othercaps
      = ⟨⟨gst_structure_fixate_field_nearest_int othercaps.width
            (fixate_scaled_size from_w from_h 0 0 num den).1,
          gst_structure_fixate_field_nearest_int othercaps.height
            (fixate_scaled_size from_w from_h 0 0 num den).2,
          FractionField.fixed to_par_n to_par_d⟩, false⟩
    ∧ (from_h % den = 0 →
        fixate_scaled_size from_w from_h 0 0 num den = (from_h * num / den, from_h)
        ∧ (fixate_scaled_size from_w from_h 0 0 num den).1 * den
            = (fixate_scaled_size from_w from_h 0 0 num den).2 * num)
    ∧ (from_h % den ≠ 0 → from_w % num = 0 →
        fixate_scaled_size from_w from_h 0 0 num den = (from_w, from_w * den / num)
        ∧ (fixate_scaled_size from_w from_h 0 0 num den).1 * den
            = (fixate_scaled_size from_w from_h 0 0 num den).2 * num)
    ∧ (from_h % den ≠ 0 → from_w % num ≠ 0 →
        fixate_scaled_size from_w from_h 0 0 num den = (from_h * num / den, from_h))
    ∧ ((fixate_scaled_size from_w from_h 0 0 num den).1 = from_w
        ∨ (fixate_scaled_size from_w from_h 0 0 num den).2 = from_h) := by
  have hs := scaled_size_unfixed _ _ _ _ _ _ _ _ hfw hfh hcalc
  have gw : (gst_structure_get_int othercaps.width 0).2 = 0 := by
    cases hw : othercaps.width <;> simp [gst_structure_get_int]
    exact absurd hw (how _)
  have gh : (gst_structure_get_int othercaps.height 0).2 = 0 := by
    cases hh : othercaps.height <;> simp [gst_structure_get_int]
    exact absurd hh (hoh _)
  refine ⟨?_, ?_, ?_, ?_, ?_⟩
  · rw [fixate_caps_with_par _ _ _ _ _ _ _ hp,
      fixate_with_par_computed _ _ _ _ _ _ num den _ _ _ _
        (fun h => h.1.elim (fun w hw => how w hw)) hcalc, gw, gh]
  · intro h1
    rw [hs, if_pos h1]
    exact ⟨rfl, by
      show from_h * num / den * den = from_h * num
      exact Int.ediv_mul_cancel (Dvd.dvd.mul_right (Int.dvd_of_emod_eq_zero h1) num)⟩
  · intro h1 h2
    rw [hs, if_neg h1, if_pos h2]
    exact ⟨rfl, by
      show from_w * den = from_w * den / num * num
      exact (Int.ediv_mul_cancel (Dvd.dvd.mul_right (Int.dvd_of_emod_eq_zero h2) den)).symm⟩
  · intro h1 h2
    rw [hs, if_neg h1, if_neg h2]
  · rw [hs]
    split
    · exact Or.inr rfl
    · split
      · exact Or.inl rfl
      · exact Or.inr rfl

/-- Witness of C17: a 720x577 source with pixel-aspect-ratio 16/15 shown with
square pixels has display ratio 768/577; 577 is a multiple of the
denominator, so the height 577 is kept and the width is 768. -/
theorem C17_unfixed_choice_witness :
    gst_video_calculate_display_ratio 720 577 16 15 1 1 = some (768, 577)
    ∧ gst_video_scale_fixate_caps
        ⟨IntField.fixed 720, IntField.fixed 577, FractionField.fixed 16 15⟩
        ⟨IntField.range 1 32767, IntField.range 1 32767, FractionField.fixed 1 1⟩
      = ⟨⟨gst_structure_fixate_field_nearest_int (IntField.range 1 32767)
            (fixate_scaled_size 720 577 0 0 768 577).1,
          gst_structure_fixate_field_nearest_int (IntField.range 1 32767)
            (fixate_scaled_size 720 577 0 0 768 577).2,
          FractionField.fixed 1 1⟩, false⟩
    ∧ fixate_scaled_size 720 577 0 0 768 577 = (577 * 768 / 577, 577) :=
  have t := C17_unfixed_choice 720 577 16 15 1 1 768 577
    ⟨IntField.range 1 32767, IntField.range 1 32767, FractionField.fixed 1 1⟩
    (by decide) (by decide) (by intro w; simp) (by intro h; simp) (Or.inl rfl) (by decide)
  ⟨by decide, t.1, (t.2.1 (by decide)).1⟩

/-- C18, counterexample: a 32767x1 source with pixel-aspect-ratio
2147483647/1 and a destination with the same pixel-aspect-ratio, no dimension
fixed and the source size inside both ranges [1, 32767]: the cross product
`32767 * 2147483647 * 1` exceeds `G_MAXINT`, no display ratio is computed, and
the function posts the negotiation error and fixates neither dimension. -/
theorem C18_counterexample :
    gst_video_scale_fixate_caps
        ⟨IntField.fixed 32767, IntField.fixed 1, FractionField.fixed 2147483647 1⟩
        ⟨IntField.range 1 32767, IntField.range 1 32767, FractionField.fixed 2147483647 1⟩
      = ⟨⟨IntField.range 1 32767, IntField.range 1 32767,
          FractionField.fixed 2147483647 1⟩, true⟩
    ∧ gst_video_calculate_display_ratio 32767 1 2147483647 1 2147483647 1 = none
    ∧ G_MAXINT < (32767 : Int) * 2147483647 * 1 := by
  refine ⟨by decide, by decide, by decide⟩

/-- C18, amended: for a source of positive size that lies in both open
destination ranges, `gst_video_scale_fixate_caps` fixates the destination to
exactly the source width and height (i) when a pixel-aspect-ratio is missing
on one side, and (ii) when both are present, the destination one equals the
source one as a fraction or is unconstrained, and the display ratio is
computed (no overflow).  (iii) The candidate size is the source size for
every positive `num`, `den` with `num * from_h = den * from_w`, in lowest
terms or not. -/
theorem C18_same_size_by_default (from_w from_h lo_w hi_w lo_h hi_h : Int)
    (hw1 : 1 ≤ from_w) (hw2 : lo_w ≤ from_w) (hw3 : from_w ≤ hi_w)
    (hh1 : 1 ≤ from_h) (hh2 : lo_h ≤ from_h) (hh3 : from_h ≤ hi_h) :
    (∀ (from_par to_par : FractionField),
      (from_par = FractionField.absent ∨ to_par = FractionField.absent) →
      from_par ≠ FractionField.unconstrained →
      gst_video_scale_fixate_caps ⟨IntField.fixed from_w, IntField.fixed from_h, from_par⟩
          ⟨IntField.range lo_w hi_w, IntField.range lo_h hi_h, to_par⟩
        = ⟨⟨IntField.fixed from_w, IntField.fixed from_h, to_par⟩, false⟩)
    ∧ (∀ (from_par_n from_par_d to_par_n to_par_d num den : Int) (to_par : FractionField),
      ((to_par = FractionField.fixed to_par_n to_par_d
          ∧ to_par_n * from_par_d = to_par_d * from_par_n)
        ∨ (to_par = FractionField.unconstrained
          ∧ to_par_n = from_par_n ∧ to_par_d = from_par_d)) →
      gst_video_calculate_display_ratio from_w from_h from_par_n from_par_d
        to_par_n to_par_d = some (num, den) →
      gst_video_scale_fixate_caps
          ⟨IntField.fixed from_w, IntField.fixed from_h,
            FractionField.fixed from_par_n from_par_d⟩
          ⟨IntField.range lo_w hi_w, IntField.range lo_h hi_h, to_par⟩
        = ⟨⟨IntField.fixed from_w, IntField.fixed from_h,
            FractionField.fixed to_par_n to_par_d⟩, false⟩)
    ∧ (∀ num den : Int, from_w ≤ G_MAXINT → from_h ≤ G_MAXINT → 0 < num → 0 < den →
      num * from_h = den * from_w →
      fixate_scaled_size from_w from_h 0 0 num den = (from_w, from_h)) := by
  refine ⟨?_, ?_, ?_⟩
  · intro fp tp hor hfix
    have f1 := fixate_nearest_int_range _ _ _ hw2 hw3
    have f2 := fixate_nearest_int_range _ _ _ hh2 hh3
    rcases hor with rfl | rfl
    · cases tp <;>
        simp [gst_video_scale_fixate_caps, gst_caps_is_fixed, fixate_without_par,
          gst_structure_get_int, f1, f2]
    · cases fp <;>
        simp [gst_video_scale_fixate_caps, gst_caps_is_fixed, fixate_without_par,
          gst_structure_get_int, f1, f2] at hfix ⊢
  · intro fpn fpd tpn tpd num den tp hp hcalc
    obtain ⟨hN, hN2, hD, hD2, hnum, hden, hcross, _, _⟩ :=
      calculate_display_ratio_some _ _ _ _ _ _ _ _ hcalc
    have hpar : tpn * fpd = tpd * fpn := by
      rcases hp with ⟨_, h⟩ | ⟨_, rfl, rfl⟩
      · exact h
      · ring
    have hfwN : from_w ≤ from_w * fpn * tpd := by
      rw [mul_assoc] at hN ⊢; exact le_cross_product from_w _ hw1 hN
    have hfhD : from_h ≤ from_h * fpd * tpn := by
      rw [mul_assoc] at hD ⊢; exact le_cross_product from_h _ hh1 hD
    have hK : 0 < fpn * tpd := by
      by_contra hneg
      have : from_w * (fpn * tpd) ≤ 0 :=
        Int.mul_nonpos_of_nonneg_of_nonpos (by omega) (by omega)
      rw [mul_assoc] at hN; omega
    have hr : num * from_h = den * from_w := by
      have e : (num * from_h) * (fpn * tpd) = (den * from_w) * (fpn * tpd) := by
        have e1 : from_h * fpd * tpn = from_h * (fpn * tpd) := by
          rw [mul_assoc, mul_comm fpd tpn, hpar, mul_comm tpd fpn]
        rw [e1] at hcross
        calc (num * from_h) * (fpn * tpd) = num * (from_h * (fpn * tpd)) := by ring
          _ = den * (from_w * fpn * tpd) := hcross
          _ = (den * from_w) * (fpn * tpd) := by ring
      exact mul_right_cancel₀ (ne_of_gt hK) e
    have hs := scaled_size_same_ratio from_w from_h num den hw1 (by omega) hh1 (by omega)
      hnum hden hr
    have hpp : (⟨IntField.range lo_w hi_w, IntField.range lo_h hi_h, tp⟩ : CapsStructure).par
          = FractionField.fixed tpn tpd
        ∨ ((⟨IntField.range lo_w hi_w, IntField.range lo_h hi_h, tp⟩ : CapsStructure).par
            = FractionField.unconstrained ∧ tpn = fpn ∧ tpd = fpd) := by
      rcases hp with ⟨h, _⟩ | ⟨h, h2, h3⟩
      · exact Or.inl h
      · exact Or.inr ⟨h, h2, h3⟩
    rw [fixate_caps_with_par _ _ _ _ _ _ _ hpp,
      fixate_with_par_computed _ _ _ _ _ _ num den _ _ _ _ (by simp) hcalc]
    simp [gst_structure_get_int, hs, fixate_nearest_int_range _ _ _ hw2 hw3,
      fixate_nearest_int_range _ _ _ hh2 hh3]
  · intro num den h1 h2 hnum hden hr
    exact scaled_size_same_ratio from_w from_h num den hw1 h1 hh1 h2 hnum hden hr

/-- Witness of C18 (amended): a 720x576 source with pixel-aspect-ratio 16/15
and a destination with the ranges [1, 32767] and an unconstrained
pixel-aspect-ratio: the display ratio is 5/4 and the destination is fixated to
720x576 with pixel-aspect-ratio 16/15. -/
theorem C18_same_size_by_default_witness :
    gst_video_calculate_display_ratio 720 576 16 15 16 15 = some (5, 4)
    ∧ gst_video_scale_fixate_caps
        ⟨IntField.fixed 720, IntField.fixed 576, FractionField.fixed 16 15⟩
        ⟨IntField.range 1 32767, IntField.range 1 32767, FractionField.unconstrained⟩
      = ⟨⟨IntField.fixed 720, IntField.fixed 576, FractionField.fixed 16 15⟩, false⟩ :=
  ⟨by decide,
    (C18_same_size_by_default 720 576 1 32767 1 32767 (by decide) (by decide) (by decide)
      (by decide) (by decide) (by decide)).2.1 16 15 16 15 5 4 FractionField.unconstrained
      (Or.inr ⟨rfl, rfl, rfl⟩) (by decide)⟩

/-- C19: with both pixel-aspect-ratios present, destination size fields
inside the element's size range [1, 32767] and a computed display ratio,
`gst_video_scale_fixate_caps` leaves both destination dimensions fixed to
values in 1..32767, for every source size and ratio; when a dimension is open
the two fields are the candidate size fitted to their ranges.  The fitting
returns a member of the range nearest to the candidate: 1 for the candidate
0, 32767 for a candidate above 32767. -/
theorem C19_fitted_to_range (from_w from_h from_par_n from_par_d to_par_n to_par_d
    num den : Int) (othercaps : CapsStructure)
    (hW : within_size_range othercaps.width) (hH : within_size_range othercaps.height)
    (hp : othercaps.par = FractionField.fixed to_par_n to_par_d
      ∨ (othercaps.par = FractionField.unconstrained
          ∧ to_par_n = from_par_n ∧ to_par_d = from_par_d))
    (hcalc : gst_video_calculate_display_ratio from_w from_h from_par_n from_par_d
      to_par_n to_par_d = some (num, den)) :
    (∃ w h,
      (gst_video_scale_fixate_caps
        ⟨IntField.fixed from_w, IntField.fixed from_h,
          FractionField.fixed from_par_n from_par_d⟩ othercaps).othercaps.width
        = IntField.fixed w
      ∧ (gst_video_scale_fixate_caps
        ⟨IntField.fixed from_w, IntField.fixed from_h,
          FractionField.fixed from_par_n from_par_d⟩ othercaps).othercaps.height
        = IntField.fixed h
      ∧ 1 ≤ w ∧ w ≤ 32767 ∧ 1 ≤ h ∧ h ≤ 32767)
    ∧ (¬ ((∃ w, othercaps.width = IntField.fixed w)
          ∧ (∃ h, othercaps.height = IntField.fixed h)) →
      gst_video_scale_fixate_caps
          ⟨IntField.fixed from_w, IntField.fixed from_h,
            FractionField.fixed from_par_n from_par_d⟩ othercaps
        = ⟨⟨gst_structure_fixate_field_nearest_int othercaps.width
              (fixate_scaled_size from_w from_h (gst_structure_get_int othercaps.width 0).2
                (gst_structure_get_int othercaps.height 0).2 num den).1,
            gst_structure_fixate_field_nearest_int othercaps.height
              (fixate_scaled_size from_w from_h (gst_structure_get_int othercaps.width 0).2
                (gst_structure_get_int othercaps.height 0).2 num den).2,
            FractionField.fixed to_par_n to_par_d⟩, false⟩)
    ∧ (∀ lo hi target : Int, lo ≤ hi →
        ∃ v, gst_structure_fixate_field_nearest_int (IntField.range lo hi) target
            = IntField.fixed v
          ∧ lo ≤ v ∧ v ≤ hi ∧ ∀ x, lo ≤ x → x ≤ hi → |v - target| ≤ |x - target|)
    ∧ gst_structure_fixate_field_nearest_int (IntField.range 1 32767) 0 = IntField.fixed 1
    ∧ gst_structure_fixate_field_nearest_int (IntField.range 1 32767) 32768
        = IntField.fixed 32767 := by
  have hcomp : ¬ ((∃ w, othercaps.width = IntField.fixed w)
        ∧ (∃ h, othercaps.height = IntField.fixed h)) →
      gst_video_scale_fixate_caps
          ⟨IntField.fixed from_w, IntField.fixed from_h,
            FractionField.fixed from_par_n from_par_d⟩ othercaps
        = ⟨⟨gst_structure_fixate_field_nearest_int othercaps.width
              (fixate_scaled_size from_w from_h (gst_structure_get_int othercaps.width 0).2
                (gst_structure_get_int othercaps.height 0).2 num den).1,
            gst_structure_fixate_field_nearest_int othercaps.height
              (fixate_scaled_size from_w from_h (gst_structure_get_int othercaps.width 0).2
                (gst_structure_get_int othercaps.height 0).2 num den).2,
            FractionField.fixed to_par_n to_par_d⟩, false⟩ := by
    intro hn
    rw [fixate_caps_with_par _ _ _ _ _ _ _ hp,
      fixate_with_par_computed _ _ _ _ _ _ num den _ _ _ _ hn hcalc]
  refine ⟨?_, hcomp, fixate_nearest_int_clamp, by decide, by decide⟩
  by_cases hn : (∃ w, othercaps.width = IntField.fixed w)
      ∧ (∃ h, othercaps.height = IntField.fixed h)
  · obtain ⟨⟨w, hw⟩, ⟨h, hh⟩⟩ := hn
    have hfix : gst_video_scale_fixate_caps
          ⟨IntField.fixed from_w, IntField.fixed from_h,
            FractionField.fixed from_par_n from_par_d⟩ othercaps
        = ⟨⟨IntField.fixed w, IntField.fixed h, FractionField.fixed to_par_n to_par_d⟩,
            false⟩ := by
      rw [fixate_caps_with_par _ _ _ _ _ _ _ hp, hw, hh]
      simp [fixate_with_par, gst_structure_get_int]
    rw [hw] at hW
    rw [hh] at hH
    rw [hfix]
    exact ⟨w, h, rfl, rfl, hW.1, hW.2, hH.1, hH.2⟩
  · rw [hcomp hn]
    obtain ⟨w, hw, hw1, hw2⟩ := fixate_nearest_int_within othercaps.width
      (fixate_scaled_size from_w from_h (gst_structure_get_int othercaps.width 0).2
        (gst_structure_get_int othercaps.height 0).2 num den).1 hW
    obtain ⟨h, hh, hh1, hh2⟩ := fixate_nearest_int_within othercaps.height
      (fixate_scaled_size from_w from_h (gst_structure_get_int othercaps.width 0).2
        (gst_structure_get_int othercaps.height 0).2 num den).2 hH
    exact ⟨w, h, hw, hh, hw1, hw2, hh1, hh2⟩

/-- Witness of C19: a 1x1000 source with square pixels on both sides has
display ratio 1/1000; with the destination height fixed to 500 the scaled
width is `500 * 1 / 1000 = 0`, and the width is fixated to 1. -/
theorem C19_fitted_to_range_witness :
    within_size_range (IntField.range 1 32767)
    ∧ within_size_range (IntField.fixed 500)
    ∧ gst_video_calculate_display_ratio 1 1000 1 1 1 1 = some (1, 1000)
    ∧ fixate_scaled_size 1 1000 0 500 1 1000 = (0, 500)
    ∧ gst_video_scale_fixate_caps
        ⟨IntField.fixed 1, IntField.fixed 1000, FractionField.fixed 1 1⟩
        ⟨IntField.range 1 32767, IntField.fixed 500, FractionField.fixed 1 1⟩
      = ⟨⟨gst_structure_fixate_field_nearest_int (IntField.range 1 32767)
            (fixate_scaled_size 1 1000 0 500 1 1000).1,
          gst_structure_fixate_field_nearest_int (IntField.fixed 500)
            (fixate_scaled_size 1 1000 0 500 1 1000).2,
          FractionField.fixed 1 1⟩, false⟩ :=
  ⟨by decide, by decide, by decide, by decide,
    (C19_fitted_to_range 1 1000 1 1 1 1 1 1000
      ⟨IntField.range 1 32767, IntField.fixed 500, FractionField.fixed 1 1⟩
      (by decide) (by decide) (Or.inl rfl) (by decide)).2.1 (by simp)⟩

/-- C20: with both pixel-aspect-ratios present (the destination one fixed, or
unconstrained and defaulted to the source's) and a destination dimension
open, when `gst_video_calculate_display_ratio` reports failure
`gst_video_scale_fixate_caps` posts the negotiation error and leaves the
destination width and height fields as they were, unfixated. -/
theorem C20_overflow_leaves_size (caps othercaps : CapsStructure)
    (from_w from_h from_par_n from_par_d to_par_n to_par_d : Int)
    (hc : caps = ⟨IntField.fixed from_w, IntField.fixed from_h,
      FractionField.fixed from_par_n from_par_d⟩)
    (hp : othercaps.par = FractionField.fixed to_par_n to_par_d
      ∨ (othercaps.par = FractionField.unconstrained
          ∧ to_par_n = from_par_n ∧ to_par_d = from_par_d))
    (hn : ¬ ((∃ w, othercaps.width = IntField.fixed w)
      ∧ (∃ h, othercaps.height = IntField.fixed h)))
    (hov : gst_video_calculate_display_ratio from_w from_h from_par_n from_par_d
      to_par_n to_par_d = none) :
    (gst_video_scale_fixate_caps caps othercaps).error = true
    ∧ (gst_video_scale_fixate_caps caps othercaps).othercaps.width = othercaps.width
    ∧ (gst_video_scale_fixate_caps caps othercaps).othercaps.height = othercaps.height := by
  subst hc
  obtain ⟨ow, oh, op⟩ := othercaps
  simp only at hp hn ⊢
  rcases hp with rfl | ⟨rfl, rfl, rfl⟩ <;> cases ow <;> cases oh <;>
    simp at hn <;>
    simp [gst_video_scale_fixate_caps, gst_caps_is_fixed, fixate_with_par,
      gst_structure_get_int, hov, gst_structure_fixate_field_nearest_fraction]

/-- Witness of C20: a 32767x1 source with pixel-aspect-ratio 2147483647/1 and
a destination with square pixels and both dimensions open: the cross product
exceeds `G_MAXINT`, the error is posted and both ranges stay. -/
theorem C20_overflow_leaves_size_witness :
    gst_video_calculate_display_ratio 32767 1 2147483647 1 1 1 = none
    ∧ (gst_video_scale_fixate_caps
        ⟨IntField.fixed 32767, IntField.fixed 1, FractionField.fixed 2147483647 1⟩
        ⟨IntField.range 1 32767, IntField.range 1 32767, FractionField.fixed 1 1⟩).error = true
    ∧ (gst_video_scale_fixate_caps
        ⟨IntField.fixed 32767, IntField.fixed 1, FractionField.fixed 2147483647 1⟩
        ⟨IntField.range 1 32767, IntField.range 1 32767,
          FractionField.fixed 1 1⟩).othercaps.width = IntField.range 1 32767
    ∧ (gst_video_scale_fixate_caps
        ⟨IntField.fixed 32767, IntField.fixed 1, FractionField.fixed 2147483647 1⟩
        ⟨IntField.range 1 32767, IntField.range 1 32767,
          FractionField.fixed 1 1⟩).othercaps.height = IntField.range 1 32767 :=
  ⟨by decide,
    C20_overflow_leaves_size
      ⟨IntField.fixed 32767, IntField.fixed 1, FractionField.fixed 2147483647 1⟩
      ⟨IntField.range 1 32767, IntField.range 1 32767, FractionField.fixed 1 1⟩
      32767 1 2147483647 1 1 1 rfl (Or.inl rfl) (by simp) (by decide)⟩

/-! ## Auxiliary facts on the passes of `gst_video_scale_transform` -/

theorem transform_eq_loop (vs : GstVideoScale) (inb outb : Int) :
    gst_video_scale_transform vs inb outb
      = transform_loop vs inb outb (effective_method vs) vs.interlaced
          (if vs.interlaced then 2 else 1) 0 (initial_locals vs inb outb) [] := by
  unfold gst_video_scale_transform effective_method initial_locals
  cases vs.interlaced <;> rfl

/-- The calls of the `switch (method)` for a catalog format and a method the
switch knows. -/
theorem scale_switch_eq (m fmt : Int) (l : TransformLocals) (f : VideoScaleFormat)
    (km : KernelMethod) (hf : format_of_code fmt = some f)
    (hk : kernel_method_of m = some km) :
    scale_switch m fmt l = some (pass_calls km f l) := by
  unfold scale_switch
  unfold kernel_method_of at hk
  split_ifs at hk ⊢ with h1 h2 h3
  · cases hk
    unfold scale_nearest
    cases f <;> simp [hf] <;> rfl
  · cases hk
    unfold scale_linear
    cases f <;> simp [hf] <;> rfl
  · cases hk
    unfold scale_4tap
    cases f <;> simp [hf] <;> rfl

/-- The kernel calls of `gst_video_scale_transform` for a catalog format and a
method the switch knows after the downgrade: those of pass 0, and for
interlaced content those of pass 1 after them. -/
theorem transform_calls (vs : GstVideoScale) (inb outb : Int) (f : VideoScaleFormat)
    (km : KernelMethod) (hf : format_of_code vs.format = some f)
    (hk : kernel_method_of (effective_method vs) = some km) :
    gst_video_scale_transform vs inb outb
      = (GST_FLOW_OK,
          if vs.interlaced then
            pass_calls km f (pass_locals vs inb outb 0)
              ++ pass_calls km f (pass_locals vs inb outb 1)
          else pass_calls km f (pass_locals vs inb outb 0)) := by
  rw [transform_eq_loop]
  cases hi : vs.interlaced
  · simp [transform_loop, pass_locals, hi, scale_switch_eq _ _ _ f km hf hk]
  · simp [transform_loop, pass_locals, hi, scale_switch_eq _ _ _ f km hf hk]

theorem pass_locals_zero_src (vs : GstVideoScale) (inb outb : Int) :
    (pass_locals vs inb outb 0).src
      = if vs.interlaced then
          ⟨inb, vs.src.width,
            Int.tdiv vs.src.height 2 + (if Int.tmod vs.from_height 2 = 1 then 1 else 0),
            vs.src.stride * 2⟩
        else ⟨inb, vs.src.width, vs.src.height, vs.src.stride⟩ := by
  simp only [pass_locals, transform_fields_src, initial_locals]
  cases vs.interlaced <;> simp
  split <;> simp

theorem pass_locals_zero_dest (vs : GstVideoScale) (inb outb : Int) :
    (pass_locals vs inb outb 0).dest
      = if vs.interlaced then
          ⟨outb, vs.dest.width,
            Int.tdiv vs.dest.height 2 + (if Int.tmod vs.to_height 2 = 1 then 1 else 0),
            vs.dest.stride * 2⟩
        else ⟨outb, vs.dest.width, vs.dest.height, vs.dest.stride⟩ := by
  simp only [pass_locals, transform_fields_dest, initial_locals]
  cases vs.interlaced <;> simp
  split <;> simp

theorem pass_locals_one_src (vs : GstVideoScale) (inb outb : Int) (hi : vs.interlaced = true) :
    (pass_locals vs inb outb 1).src
      = ⟨inb + vs.src.stride, vs.src.width, Int.tdiv vs.src.height 2, vs.src.stride * 2⟩ := by
  have t5 : ∀ s : Int, Int.tdiv (s * 2) 2 = s := fun s => Int.mul_tdiv_cancel s (by decide)
  simp only [pass_locals, transform_fields_src, initial_locals, hi]
  by_cases p : Int.tmod vs.from_height 2 = 1 <;> simp [p, t5]

theorem pass_locals_one_dest (vs : GstVideoScale) (inb outb : Int) (hi : vs.interlaced = true) :
    (pass_locals vs inb outb 1).dest
      = ⟨outb + vs.dest.stride, vs.dest.width, Int.tdiv vs.dest.height 2,
          vs.dest.stride * 2⟩ := by
  have t5 : ∀ s : Int, Int.tdiv (s * 2) 2 = s := fun s => Int.mul_tdiv_cancel s (by decide)
  simp only [pass_locals, transform_fields_dest, initial_locals, hi]
  by_cases p : Int.tmod vs.to_height 2 = 1 <;> simp [p, t5]

/-- For a planar format `gst_video_scale_prepare_image` overwrites every field
of both chroma descriptors. -/
theorem prepare_image_planar (fmt buf : Int) (img u v u0 v0 : VSImage) (step : Int) (il : Bool)
    (f : VideoScaleFormat) (hf : format_of_code fmt = some f) (hp : is_planar f) :
    gst_video_scale_prepare_image fmt buf img u v step il
      = gst_video_scale_prepare_image fmt buf img u0 v0 step il := by
  rcases hp with rfl | rfl | rfl | rfl | rfl <;>
    simp [gst_video_scale_prepare_image, hf]

theorem pass_locals_chroma (vs : GstVideoScale) (inb outb : Int) (k : Nat)
    (f : VideoScaleFormat) (hf : format_of_code vs.format = some f) (hp : is_planar f) :
    (pass_locals vs inb outb k).src_u
        = (gst_video_scale_prepare_image vs.format inb vs.src ⟨0, 0, 0, 0⟩ ⟨0, 0, 0, 0⟩
            (k : Int) vs.interlaced).1
    ∧ (pass_locals vs inb outb k).src_v
        = (gst_video_scale_prepare_image vs.format inb vs.src ⟨0, 0, 0, 0⟩ ⟨0, 0, 0, 0⟩
            (k : Int) vs.interlaced).2
    ∧ (pass_locals vs inb outb k).dest_u
        = (gst_video_scale_prepare_image vs.format outb vs.dest ⟨0, 0, 0, 0⟩ ⟨0, 0, 0, 0⟩
            (k : Int) vs.interlaced).1
    ∧ (pass_locals vs inb outb k).dest_v
        = (gst_video_scale_prepare_image vs.format outb vs.dest ⟨0, 0, 0, 0⟩ ⟨0, 0, 0, 0⟩
            (k : Int) vs.interlaced).2 := by
  cases k with
  | zero =>
    simp only [pass_locals, transform_fields_src_u, transform_fields_src_v,
      transform_fields_dest_u, transform_fields_dest_v, initial_locals]
    exact ⟨rfl, rfl, rfl, rfl⟩
  | succ n =>
    simp only [pass_locals, transform_fields_src_u, transform_fields_src_v,
      transform_fields_dest_u, transform_fields_dest_v]
    refine ⟨?_, ?_, ?_, ?_⟩ <;>
      rw [prepare_image_planar _ _ _ _ _ ⟨0, 0, 0, 0⟩ ⟨0, 0, 0, 0⟩ _ _ f hf hp]

/-! ## Agreement of the geometry calculations -/

/-- C24: for I420 and YV12 and every width `w >= 1`, the size reported by
`gst_video_scale_prepare_size` is the luma part plus twice a chroma plane of
stride round4(luma stride / 2) = round4(round4(w) / 2), the chroma stride that
`gst_video_scale_prepare_image` assigns is round4(round2(w) / 2), and the two
are equal; so the reported size is the luma part plus twice the stride times
the height of the chroma descriptor that `gst_video_scale_prepare_image`
fills in. -/
theorem C24_chroma_stride_agrees (f : VideoScaleFormat)
    (hf : f = GST_VIDEO_SCALE_I420 ∨ f = GST_VIDEO_SCALE_YV12)
    (w h : Int) (hw : 1 ≤ w) (img img_u img_v : VSImage) (buf step : Int) :
    gst_video_scale_prepare_size (code_of_format f) img w h
        = some (⟨img.pixels, w, h, GST_ROUND_UP_4 w⟩,
            GST_ROUND_UP_4 w * GST_ROUND_UP_2 h
              + 2 * GST_ROUND_UP_4 (Int.tdiv (GST_ROUND_UP_4 w) 2)
                * Int.tdiv (GST_ROUND_UP_2 h) 2)
    ∧ (gst_video_scale_prepare_image (code_of_format f) buf
          ⟨img.pixels, w, h, GST_ROUND_UP_4 w⟩ img_u img_v step false).1.stride
        = GST_ROUND_UP_4 (Int.tdiv (GST_ROUND_UP_2 w) 2)
    ∧ (gst_video_scale_prepare_image (code_of_format f) buf
          ⟨img.pixels, w, h, GST_ROUND_UP_4 w⟩ img_u img_v step false).2.stride
        = GST_ROUND_UP_4 (Int.tdiv (GST_ROUND_UP_2 w) 2)
    ∧ GST_ROUND_UP_4 (Int.tdiv (GST_ROUND_UP_2 w) 2)
        = GST_ROUND_UP_4 (Int.tdiv (GST_ROUND_UP_4 w) 2)
    ∧ GST_ROUND_UP_4 w * GST_ROUND_UP_2 h
          + 2 * GST_ROUND_UP_4 (Int.tdiv (GST_ROUND_UP_4 w) 2)
            * Int.tdiv (GST_ROUND_UP_2 h) 2
        = GST_ROUND_UP_4 w * GST_ROUND_UP_2 h
          + 2 * ((gst_video_scale_prepare_image (code_of_format f) buf
                ⟨img.pixels, w, h, GST_ROUND_UP_4 w⟩ img_u img_v step false).1.stride
              * (gst_video_scale_prepare_image (code_of_format f) buf
                ⟨img.pixels, w, h, GST_ROUND_UP_4 w⟩ img_u img_v step false).1.height) := by
  have e2 : Int.tdiv (GST_ROUND_UP_2 w) 2 = GST_ROUND_UP_2 w / 2 :=
    Int.tdiv_eq_ediv (by unfold GST_ROUND_UP_2; omega) (by decide)
  have e4 : Int.tdiv (GST_ROUND_UP_4 w) 2 = GST_ROUND_UP_4 w / 2 :=
    Int.tdiv_eq_ediv (by unfold GST_ROUND_UP_4; omega) (by decide)
  have ha : GST_ROUND_UP_4 (Int.tdiv (GST_ROUND_UP_2 w) 2)
      = GST_ROUND_UP_4 (Int.tdiv (GST_ROUND_UP_4 w) 2) := by
    rw [e2, e4]; exact chroma_stride_agree w
  have hs : ∀ p : VSImage × VSImage,
      p = gst_video_scale_prepare_image (code_of_format f) buf
        ⟨img.pixels, w, h, GST_ROUND_UP_4 w⟩ img_u img_v step false →
      p.1.stride = GST_ROUND_UP_4 (Int.tdiv (GST_ROUND_UP_2 w) 2)
      ∧ p.2.stride = GST_ROUND_UP_4 (Int.tdiv (GST_ROUND_UP_2 w) 2)
      ∧ p.1.height = Int.tdiv (GST_ROUND_UP_2 h) 2 := by
    intro p hp
    subst hp
    rcases hf with rfl | rfl <;>
      simp [gst_video_scale_prepare_image, prepare_field, format_of_code_code_of_format]
  obtain ⟨s1, s2, s3⟩ := hs _ rfl
  refine ⟨?_, s1, s2, ha, ?_⟩
  · rcases hf with rfl | rfl <;>
      simp [gst_video_scale_prepare_size, format_of_code_code_of_format]
  · rw [s1, s3, ha]; ring

/-- Witness of C24 at a 5x3 I420 frame: luma stride 8, chroma stride
round4(6 / 2) = round4(8 / 2) = 4, size 8 * 4 + 2 * 4 * 2 = 48. -/
theorem C24_chroma_stride_agrees_witness :
    (1 : Int) ≤ 5
    ∧ gst_video_scale_prepare_size 17 ⟨0, 0, 0, 0⟩ 5 3 = some (⟨0, 5, 3, 8⟩, 48)
    ∧ (gst_video_scale_prepare_image 17 0 ⟨0, 5, 3, 8⟩ ⟨0, 0, 0, 0⟩ ⟨0, 0, 0, 0⟩ 0
        false).1.stride = 4
    ∧ GST_ROUND_UP_4 (Int.tdiv (GST_ROUND_UP_2 5) 2)
        = GST_ROUND_UP_4 (Int.tdiv (GST_ROUND_UP_4 5) 2) :=
  have t := C24_chroma_stride_agrees GST_VIDEO_SCALE_I420 (Or.inl rfl) 5 3 (by decide)
    ⟨0, 0, 0, 0⟩ ⟨0, 0, 0, 0⟩ ⟨0, 0, 0, 0⟩ 0 0
  ⟨by decide, t.1, t.2.1, t.2.2.2.1⟩

/-- C25: for Y444, Y42B and Y41B, after a successful
`gst_video_scale_set_caps` with frame heights `>= 1`, in every pass of
`gst_video_scale_transform` the U and V calls get the same source height and
the same destination height as the luma call of that pass: the frame height
for progressive content, its half rounded up in field 0 and rounded down in
field 1 for interlaced content. -/
theorem C25_chroma_height_follows_luma (vs0 vs : GstVideoScale) (inc out : Caps)
    (inb outb : Int) (f : VideoScaleFormat) (km : KernelMethod)
    (hcaps : gst_video_scale_set_caps vs0 inc out = (true, vs))
    (hf3 : f = GST_VIDEO_SCALE_Y444 ∨ f = GST_VIDEO_SCALE_Y42B ∨ f = GST_VIDEO_SCALE_Y41B)
    (hfmt : format_of_code vs.format = some f)
    (hk : kernel_method_of (effective_method vs) = some km)
    (hH : 1 ≤ vs.from_height) (hH' : 1 ≤ vs.to_height) :
    (gst_video_scale_transform vs inb outb).2.map
        (fun c => (c.plane, c.src.height, c.dest.height))
      = if vs.interlaced then
          [(Plane.main, (vs.from_height + 1) / 2, (vs.to_height + 1) / 2),
           (Plane.u, (vs.from_height + 1) / 2, (vs.to_height + 1) / 2),
           (Plane.v, (vs.from_height + 1) / 2, (vs.to_height + 1) / 2),
           (Plane.main, vs.from_height / 2, vs.to_height / 2),
           (Plane.u, vs.from_height / 2, vs.to_height / 2),
           (Plane.v, vs.from_height / 2, vs.to_height / 2)]
        else
          [(Plane.main, vs.from_height, vs.to_height),
           (Plane.u, vs.from_height, vs.to_height),
           (Plane.v, vs.from_height, vs.to_height)] := by
  obtain ⟨_, _, _, _, _, _, _, hsrc, hdest, _⟩ := set_caps_true vs0 vs inc out hcaps
  obtain ⟨_, hsh, _⟩ := prepare_size_dims _ _ _ _ _ _ hsrc
  obtain ⟨_, hdh, _⟩ := prepare_size_dims _ _ _ _ _ _ hdest
  have hp : is_planar f := by
    rcases hf3 with rfl | rfl | rfl <;> simp [is_planar]
  have hf3' : format_of_code vs.format = some GST_VIDEO_SCALE_Y444
      ∨ format_of_code vs.format = some GST_VIDEO_SCALE_Y42B
      ∨ format_of_code vs.format = some GST_VIDEO_SCALE_Y41B := by
    rcases hf3 with rfl | rfl | rfl
    · exact Or.inl hfmt
    · exact Or.inr (Or.inl hfmt)
    · exact Or.inr (Or.inr hfmt)
  have z2 : (0 : Int) ≤ 2 := by decide
  have t1 : Int.tdiv vs.from_height 2 = vs.from_height / 2 := Int.tdiv_eq_ediv (by omega) z2
  have t2 : Int.tdiv vs.to_height 2 = vs.to_height / 2 := Int.tdiv_eq_ediv (by omega) z2
  have t3 : Int.tmod vs.from_height 2 = vs.from_height % 2 := Int.tmod_eq_emod (by omega) z2
  have t4 : Int.tmod vs.to_height 2 = vs.to_height % 2 := Int.tmod_eq_emod (by omega) z2
  have a1 : ∀ x : Int, x / 2 + (if x % 2 = 1 then 1 else 0) = (x + 1) / 2 := by
    intro x; split <;> omega
  obtain ⟨c1, c2, c3, c4⟩ := pass_locals_chroma vs inb outb 0 f hfmt hp
  obtain ⟨d1, d2, d3, d4⟩ := pass_locals_chroma vs inb outb 1 f hfmt hp
  have hs := fun step il =>
    chroma_height_unsubsampled vs.format inb vs.src ⟨0, 0, 0, 0⟩ ⟨0, 0, 0, 0⟩ step il hf3'
  have hd := fun step il =>
    chroma_height_unsubsampled vs.format outb vs.dest ⟨0, 0, 0, 0⟩ ⟨0, 0, 0, 0⟩ step il hf3'
  rw [transform_calls vs inb outb f km hfmt hk]
  cases hi : vs.interlaced
  · simp only [pass_calls, if_pos hp, List.map, c1, c2, c3, c4, pass_locals_zero_src,
      pass_locals_zero_dest, hi, (hs _ _).1, (hs _ _).2, (hd _ _).1, (hd _ _).2, hsh, hdh]
    simp
  · simp only [pass_calls, if_pos hp, List.map, List.cons_append, List.nil_append,
      c1, c2, c3, c4, d1, d2, d3, d4, pass_locals_zero_src,
      pass_locals_zero_dest, pass_locals_one_src _ _ _ hi, pass_locals_one_dest _ _ _ hi,
      hi, (hs _ _).1, (hs _ _).2, (hd _ _).1, (hd _ _).2, hsh, hdh, t1, t2, t3, t4]
    simp [a1]

/-- Witness of C25 at an interlaced 8x7 Y42B source scaled to 8x5: heights 4
and 3 in field 0, 3 and 2 in field 1, for all three planes. -/
theorem C25_chroma_height_follows_luma_witness :
    gst_video_scale_set_caps gst_video_scale_init ⟨some 8, some 7, some true, 13⟩
        ⟨some 8, some 5, none, 13⟩
      = (true, ⟨1, 13, 8, 7, 8, 5, ⟨0, 8, 7, 8⟩, ⟨0, 8, 5, 8⟩, 112, 80, true, some 64⟩)
    ∧ format_of_code 13 = some GST_VIDEO_SCALE_Y42B
    ∧ (gst_video_scale_transform
        ⟨1, 13, 8, 7, 8, 5, ⟨0, 8, 7, 8⟩, ⟨0, 8, 5, 8⟩, 112, 80, true, some 64⟩ 0 0).2.map
          (fun c => (c.plane, c.src.height, c.dest.height))
      = [(Plane.main, 4, 3), (Plane.u, 4, 3), (Plane.v, 4, 3),
         (Plane.main, 3, 2), (Plane.u, 3, 2), (Plane.v, 3, 2)] :=
  ⟨by decide, by decide,
    C25_chroma_height_follows_luma gst_video_scale_init
      ⟨1, 13, 8, 7, 8, 5, ⟨0, 8, 7, 8⟩, ⟨0, 8, 5, 8⟩, 112, 80, true, some 64⟩
      ⟨some 8, some 7, some true, 13⟩ ⟨some 8, some 5, none, 13⟩ 0 0
      GST_VIDEO_SCALE_Y42B KernelMethod.linear (by decide) (Or.inr (Or.inl rfl)) (by decide)
      (by decide) (by decide) (by decide)⟩

/-! ## Dispatch of `gst_video_scale_transform` -/

/-- C26: for every catalog format the three inner switches call kernels of
the same pixel layout, the family `layout_family` of the format, on every
plane (the chroma planes of a planar format get the layout Y, which is the
family of the format); hence every kernel call of
`gst_video_scale_transform` has the layout of the family of the format,
whatever the method. -/
theorem C26_layout_by_format (f : VideoScaleFormat) :
    (∀ l : TransformLocals,
      (scale_nearest (code_of_format f) l).map (fun cs => cs.map (fun c => c.kernel.layout))
        = some (List.replicate (if is_planar f then 3 else 1) (layout_family f))
      ∧ (scale_linear (code_of_format f) l).map (fun cs => cs.map (fun c => c.kernel.layout))
        = some (List.replicate (if is_planar f then 3 else 1) (layout_family f))
      ∧ (scale_4tap (code_of_format f) l).map (fun cs => cs.map (fun c => c.kernel.layout))
        = some (List.replicate (if is_planar f then 3 else 1) (layout_family f)))
    ∧ (is_planar f → layout_family f = PixelLayout.Y)
    ∧ (∀ (vs : GstVideoScale) (inb outb : Int), format_of_code vs.format = some f →
        ∀ c ∈ (gst_video_scale_transform vs inb outb).2, c.kernel.layout = layout_family f) := by
  refine ⟨?_, ?_, ?_⟩
  · intro l
    cases f <;>
      simp [scale_nearest, scale_linear, scale_4tap, format_of_code_code_of_format,
        is_planar, layout_family, List.replicate, vs_image_scale_nearest_RGBA,
        vs_image_scale_nearest_RGB, vs_image_scale_nearest_YUYV, vs_image_scale_nearest_UYVY,
        vs_image_scale_nearest_Y, vs_image_scale_nearest_Y16, vs_image_scale_nearest_RGB565,
        vs_image_scale_nearest_RGB555, vs_image_scale_linear_RGBA, vs_image_scale_linear_RGB,
        vs_image_scale_linear_YUYV, vs_image_scale_linear_UYVY, vs_image_scale_linear_Y,
        vs_image_scale_linear_Y16, vs_image_scale_linear_RGB565, vs_image_scale_linear_RGB555,
        vs_image_scale_4tap_RGBA, vs_image_scale_4tap_RGB, vs_image_scale_4tap_YUYV,
        vs_image_scale_4tap_UYVY, vs_image_scale_4tap_Y, vs_image_scale_4tap_Y16,
        vs_image_scale_4tap_RGB565, vs_image_scale_4tap_RGB555]
  · intro hp
    rcases hp with rfl | rfl | rfl | rfl | rfl <;> rfl
  · intro vs inb outb hf c hc
    have hpl : is_planar f → layout_family f = PixelLayout.Y := by
      intro hp
      rcases hp with rfl | rfl | rfl | rfl | rfl <;> rfl
    have key : ∀ (m : Int) (l : TransformLocals) (cs : List KernelCall),
        scale_switch m vs.format l = some cs → c ∈ cs → c.kernel.layout = layout_family f := by
      intro m l cs hs hcs
      cases hk : kernel_method_of m with
      | none =>
        unfold scale_switch at hs
        unfold kernel_method_of at hk
        split_ifs at hs hk
      | some km =>
        rw [scale_switch_eq m vs.format l f km hf hk] at hs
        cases hs
        unfold pass_calls at hcs
        by_cases hp : is_planar f
        · simp only [if_pos hp, List.mem_cons, List.mem_singleton] at hcs
          rcases hcs with rfl | rfl | rfl | h
          · rfl
          · exact (hpl hp).symm
          · exact (hpl hp).symm
          · exact absurd h (List.not_mem_nil _)
        · simp only [if_neg hp, List.mem_singleton] at hcs
          subst hcs
          rfl
    rw [transform_eq_loop] at hc
    have hn : (if vs.interlaced then 2 else 1) ≤ 2 := by split <;> decide
    rcases transform_loop_mem vs inb outb _ vs.interlaced _ hn _ c hc with
      ⟨cs, hs, hcs⟩ | ⟨_, cs, hs, hcs⟩
    · exact key _ _ cs hs hcs
    · exact key _ _ cs hs hcs

/-- Witness of C26 at YUY2 (code 14): a 4-tap scaling of an 8x8 frame calls a
YUYV kernel. -/
theorem C26_layout_by_format_witness :
    format_of_code 14 = some GST_VIDEO_SCALE_YUY2
    ∧ layout_family GST_VIDEO_SCALE_YUY2 = PixelLayout.YUYV
    ∧ ∀ c ∈ (gst_video_scale_transform
        ⟨2, 14, 8, 8, 16, 16, ⟨0, 8, 8, 16⟩, ⟨0, 16, 16, 32⟩, 128, 512, false, some 128⟩
        0 0).2, c.kernel.layout = layout_family GST_VIDEO_SCALE_YUY2 :=
  ⟨by decide, rfl,
    (C26_layout_by_format GST_VIDEO_SCALE_YUY2).2.2
      ⟨2, 14, 8, 8, 16, 16, ⟨0, 8, 8, 16⟩, ⟨0, 16, 16, 32⟩, 128, 512, false, some 128⟩ 0 0
      (by decide)⟩

/-- C27: for a catalog format, `gst_video_scale_transform` calls a 4-tap
kernel if and only if the method is 4TAP and the local source height at the
test, the prepared height `H` for progressive and `H / 2` (rounded down) for
interlaced content, is at least 4; then every call is a 4-tap call, and every
4-tap call on the luma or packed plane has a source of height `>= 4`.  An
interlaced source with `H` in 4..7 and method 4TAP gets bilinear kernels
only. -/
theorem C27_4tap_iff (vs : GstVideoScale) (inb outb : Int) (f : VideoScaleFormat)
    (hf : format_of_code vs.format = some f) :
    ((∃ c ∈ (gst_video_scale_transform vs inb outb).2,
        c.kernel.method = KernelMethod.fourtap)
      ↔ (vs.method = GST_VIDEO_SCALE_4TAP
          ∧ 4 ≤ (if vs.interlaced then Int.tdiv vs.src.height 2 else vs.src.height)))
    ∧ ((vs.method = GST_VIDEO_SCALE_4TAP
          ∧ 4 ≤ (if vs.interlaced then Int.tdiv vs.src.height 2 else vs.src.height)) →
        ∀ c ∈ (gst_video_scale_transform vs inb outb).2,
          c.kernel.method = KernelMethod.fourtap)
    ∧ (∀ c ∈ (gst_video_scale_transform vs inb outb).2,
        c.kernel.method = KernelMethod.fourtap → c.plane = Plane.main → 4 ≤ c.src.height)
    ∧ (vs.interlaced = true → vs.method = GST_VIDEO_SCALE_4TAP →
        4 ≤ vs.src.height → vs.src.height ≤ 7 →
        ∀ c ∈ (gst_video_scale_transform vs inb outb).2,
          c.kernel.method = KernelMethod.linear) := by
  have hem : effective_method vs
      = if (if vs.interlaced then Int.tdiv vs.src.height 2 else vs.src.height) < 4
            ∧ vs.method = GST_VIDEO_SCALE_4TAP
        then GST_VIDEO_SCALE_BILINEAR else vs.method := rfl
  -- the calls of a pass all carry the algorithm of the pass
  have hpc : ∀ (km : KernelMethod) (l : TransformLocals) (c : KernelCall),
      c ∈ pass_calls km f l → c.kernel.method = km := by
    intro km l c hc
    unfold pass_calls at hc
    by_cases hp : is_planar f
    · simp only [if_pos hp, List.mem_cons, List.mem_singleton] at hc
      rcases hc with rfl | rfl | rfl | h
      · rfl
      · rfl
      · rfl
      · exact absurd h (List.not_mem_nil _)
    · simp only [if_neg hp, List.mem_singleton] at hc
      subst hc; rfl
  have hall : ∀ km, kernel_method_of (effective_method vs) = some km →
      (∀ c ∈ (gst_video_scale_transform vs inb outb).2, c.kernel.method = km)
      ∧ (∃ c ∈ (gst_video_scale_transform vs inb outb).2, c.kernel.method = km) := by
    intro km hk
    rw [transform_calls vs inb outb f km hf hk]
    refine ⟨?_, ?_⟩
    · intro c hc
      simp only at hc
      split at hc
      · rcases List.mem_append.1 hc with h | h
        · exact hpc km _ c h
        · exact hpc km _ c h
      · exact hpc km _ c hc
    · refine ⟨⟨⟨km, layout_family f⟩, Plane.main, (pass_locals vs inb outb 0).dest,
        (pass_locals vs inb outb 0).src⟩, ?_, rfl⟩
      simp only
      split <;> simp [pass_calls]
  have hnone : kernel_method_of (effective_method vs) = none →
      (gst_video_scale_transform vs inb outb).2 = [] := by
    intro hk
    rw [transform_eq_loop]
    have hs : ∀ l, scale_switch (effective_method vs) vs.format l = none := by
      intro l
      unfold scale_switch
      unfold kernel_method_of at hk
      split_ifs at hk ⊢
      rfl
    cases vs.interlaced <;> simp [transform_loop, hs]
  have h4 : kernel_method_of (effective_method vs) = some KernelMethod.fourtap
      ↔ (vs.method = GST_VIDEO_SCALE_4TAP
          ∧ 4 ≤ (if vs.interlaced then Int.tdiv vs.src.height 2 else vs.src.height)) := by
    rw [hem]
    generalize (if vs.interlaced then Int.tdiv vs.src.height 2 else vs.src.height) = b
    constructor
    · intro h
      by_cases c1 : b < 4 ∧ vs.method = GST_VIDEO_SCALE_4TAP
      · rw [if_pos c1] at h
        exact absurd h (by decide)
      · rw [if_neg c1] at h
        unfold kernel_method_of at h
        split_ifs at h with a1 a2 a3
        · exact absurd h (by decide)
        · exact absurd h (by decide)
        · exact ⟨a3, by
            by_contra hb
            exact c1 ⟨by omega, a3⟩⟩
    · rintro ⟨hm, hb⟩
      have c1 : ¬ (b < 4 ∧ vs.method = GST_VIDEO_SCALE_4TAP) := fun h => by omega
      rw [if_neg c1, hm]
      decide
  refine ⟨?_, ?_, ?_, ?_⟩
  · constructor
    · rintro ⟨c, hc, hcm⟩
      cases hk : kernel_method_of (effective_method vs) with
      | none => rw [hnone hk] at hc; exact absurd hc (List.not_mem_nil _)
      | some km =>
        have := (hall km hk).1 c hc
        rw [hcm] at this
        rw [← this] at hk
        exact h4.1 hk
    · intro h
      exact (hall _ (h4.2 h)).2
  · intro h
    exact (hall _ (h4.2 h)).1
  · intro c hc hcm hpl
    cases hk : kernel_method_of (effective_method vs) with
    | none => rw [hnone hk] at hc; exact absurd hc (List.not_mem_nil _)
    | some km =>
      have hkm := (hall km hk).1 c hc
      rw [hcm] at hkm
      rw [← hkm] at hk
      obtain ⟨_, hb⟩ := h4.1 hk
      rw [transform_calls vs inb outb f _ hf hk] at hc
      have hmain : ∀ l : TransformLocals, c ∈ pass_calls KernelMethod.fourtap f l →
          c.src = l.src := by
        intro l hcl
        unfold pass_calls at hcl
        by_cases hp : is_planar f
        · simp only [if_pos hp, List.mem_cons, List.mem_singleton] at hcl
          rcases hcl with rfl | rfl | rfl | h
          · rfl
          · simp at hpl
          · simp at hpl
          · exact absurd h (List.not_mem_nil _)
        · simp only [if_neg hp, List.mem_singleton] at hcl
          subst hcl; rfl
      cases hi : vs.interlaced
      · simp only [hi] at hc hb
        rw [hmain _ hc, pass_locals_zero_src, hi]
        simpa using hb
      · simp only [hi, if_true] at hc hb
        rcases List.mem_append.1 hc with h | h
        · rw [hmain _ h, pass_locals_zero_src, hi]
          simp only [if_true]
          split <;> omega
        · rw [hmain _ h, pass_locals_one_src _ _ _ hi]
          exact hb
  · intro hi hm h1 h2
    have hb : Int.tdiv vs.src.height 2 < 4 := by
      rw [Int.tdiv_eq_ediv (by omega) (by decide)]; omega
    have hk : kernel_method_of (effective_method vs) = some KernelMethod.linear := by
      rw [hem, hi]
      simp only [if_true]
      rw [if_pos ⟨hb, hm⟩]
      decide
    exact (hall _ hk).1

/-- Witness of C27 at an interlaced 8x7 RGBA source (code 0) with method 4TAP:
the halved height 3 is below 4, and both fields are scaled with the bilinear
kernel, although field 0 has 4 rows. -/
theorem C27_4tap_iff_witness :
    format_of_code 0 = some GST_VIDEO_SCALE_RGBA
    ∧ (gst_video_scale_transform
        ⟨2, 0, 8, 7, 8, 14, ⟨0, 8, 7, 32⟩, ⟨0, 8, 14, 32⟩, 224, 448, true, some 256⟩ 0 0).2
      = [⟨vs_image_scale_linear_RGBA, Plane.main, ⟨0, 8, 7, 64⟩, ⟨0, 8, 4, 64⟩⟩,
         ⟨vs_image_scale_linear_RGBA, Plane.main, ⟨32, 8, 7, 64⟩, ⟨32, 8, 3, 64⟩⟩]
    ∧ ∀ c ∈ (gst_video_scale_transform
        ⟨2, 0, 8, 7, 8, 14, ⟨0, 8, 7, 32⟩, ⟨0, 8, 14, 32⟩, 224, 448, true, some 256⟩ 0 0).2,
        c.kernel.method = KernelMethod.linear :=
  ⟨by decide, by decide,
    (C27_4tap_iff
      ⟨2, 0, 8, 7, 8, 14, ⟨0, 8, 7, 32⟩, ⟨0, 8, 14, 32⟩, 224, 448, true, some 256⟩ 0 0
      GST_VIDEO_SCALE_RGBA (by decide)).2.2.2 rfl rfl (by decide) (by decide)⟩

/-! ## Auxiliary facts on the rows of interlaced fields -/

theorem mem_rows (img : VSImage) (a : Int) :
    a ∈ rows img ↔ ∃ y : Int, 0 ≤ y ∧ y < img.height ∧ a = img.pixels + img.stride * y := by
  unfold rows
  simp only [List.mem_map, List.mem_range]
  constructor
  · rintro ⟨n, hn, rfl⟩
    exact ⟨n, by omega, by omega, rfl⟩
  · rintro ⟨y, h0, h1, rfl⟩
    refine ⟨y.toNat, by omega, ?_⟩
    rw [Int.toNat_of_nonneg h0]

/-- The even rows of a plane are the rows of the field with the same base,
twice the stride and half the height rounded up; the odd rows are those of
the field that starts one stride further and has half the height rounded
down. -/
theorem fields_split_of (B S H w w0 w1 : Int) (hS : 0 < S) :
    fields_split ⟨B, w, H, S⟩ ⟨B, w0, (H + 1) / 2, 2 * S⟩ ⟨B + S, w1, H / 2, 2 * S⟩ := by
  refine ⟨by simp only; omega, ?_, ?_⟩
  · intro a
    simp only [mem_rows]
    constructor
    · rintro ⟨r, h0, h1, rfl⟩
      rcases Int.emod_two_eq_zero_or_one r with he | ho
      · left
        refine ⟨r / 2, by omega, by omega, ?_⟩
        have : r = 2 * (r / 2) := by omega
        calc B + S * r = B + S * (2 * (r / 2)) := by rw [← this]
          _ = B + 2 * S * (r / 2) := by ring
      · right
        refine ⟨r / 2, by omega, by omega, ?_⟩
        have : r = 2 * (r / 2) + 1 := by omega
        calc B + S * r = B + S * (2 * (r / 2) + 1) := by rw [← this]
          _ = B + S + 2 * S * (r / 2) := by ring
    · rintro (⟨y, h0, h1, rfl⟩ | ⟨y, h0, h1, rfl⟩)
      · exact ⟨2 * y, by omega, by omega, by ring⟩
      · exact ⟨2 * y + 1, by omega, by omega, by ring⟩
  · intro a
    simp only [mem_rows]
    rintro ⟨⟨y, _, _, rfl⟩, ⟨y', _, _, h⟩⟩
    have h2 : S * (2 * y - 2 * y' - 1) = 0 := by linear_combination h
    rcases mul_eq_zero.1 h2 with h3 | h3 <;> omega

/-- The chroma descriptors of an interlaced pass in terms of the descriptors
of the whole chroma plane (those of a progressive pass). -/
theorem prepare_image_fields (f : VideoScaleFormat) (hf : is_planar f)
    (img img_u img_v : VSImage) (buf : Int) (hh : 1 ≤ img.height) :
    gst_video_scale_prepare_image (code_of_format f) buf img img_u img_v 0 true
      = (⟨(gst_video_scale_prepare_image (code_of_format f) buf img img_u img_v 0 false).1.pixels,
          (gst_video_scale_prepare_image (code_of_format f) buf img img_u img_v 0 false).1.width,
          ((gst_video_scale_prepare_image (code_of_format f) buf img img_u img_v 0 false).1.height + 1) / 2,
          2 * (gst_video_scale_prepare_image (code_of_format f) buf img img_u img_v 0 false).1.stride⟩,
         ⟨(gst_video_scale_prepare_image (code_of_format f) buf img img_u img_v 0 false).2.pixels,
          (gst_video_scale_prepare_image (code_of_format f) buf img img_u img_v 0 false).2.width,
          ((gst_video_scale_prepare_image (code_of_format f) buf img img_u img_v 0 false).2.height + 1) / 2,
          2 * (gst_video_scale_prepare_image (code_of_format f) buf img img_u img_v 0 false).2.stride⟩)
    ∧ gst_video_scale_prepare_image (code_of_format f) buf img img_u img_v 1 true
      = (⟨(gst_video_scale_prepare_image (code_of_format f) buf img img_u img_v 0 false).1.pixels
            + (gst_video_scale_prepare_image (code_of_format f) buf img img_u img_v 0 false).1.stride,
          (gst_video_scale_prepare_image (code_of_format f) buf img img_u img_v 0 false).1.width,
          (gst_video_scale_prepare_image (code_of_format f) buf img img_u img_v 0 false).1.height / 2,
          2 * (gst_video_scale_prepare_image (code_of_format f) buf img img_u img_v 0 false).1.stride⟩,
         ⟨(gst_video_scale_prepare_image (code_of_format f) buf img img_u img_v 0 false).2.pixels
            + (gst_video_scale_prepare_image (code_of_format f) buf img img_u img_v 0 false).2.stride,
          (gst_video_scale_prepare_image (code_of_format f) buf img img_u img_v 0 false).2.width,
          (gst_video_scale_prepare_image (code_of_format f) buf img img_u img_v 0 false).2.height / 2,
          2 * (gst_video_scale_prepare_image (code_of_format f) buf img img_u img_v 0 false).2.stride⟩) := by
  have hc : 0 ≤ Int.tdiv (GST_ROUND_UP_2 img.height) 2 := by
    rw [Int.tdiv_eq_ediv (by unfold GST_ROUND_UP_2; omega) (by decide)]
    unfold GST_ROUND_UP_2; omega
  have hh0 : 0 ≤ img.height := by omega
  have f0 := field0_height _ hc
  have f0' := field0_height _ hh0
  have f1 := Int.tdiv_eq_ediv hc (show (0:Int) ≤ 2 by decide)
  have f1' := Int.tdiv_eq_ediv hh0 (show (0:Int) ≤ 2 by decide)
  refine ⟨?_, ?_⟩
  · rcases hf with rfl | rfl | rfl | rfl | rfl <;>
      simp [gst_video_scale_prepare_image, prepare_field, format_of_code_code_of_format,
        f0, f0', mul_comm]
  · rcases hf with rfl | rfl | rfl | rfl | rfl <;>
      simp [gst_video_scale_prepare_image, prepare_field, format_of_code_code_of_format,
        f1, f1', mul_comm]

/-- The chroma planes of a prepared descriptor of width `>= 1` have a
positive stride. -/
theorem chroma_stride_pos (fmt buf : Int) (img0 img u v : VSImage) (w h size : Int)
    (f : VideoScaleFormat) (hf : format_of_code fmt = some f) (hpl : is_planar f)
    (hp : gst_video_scale_prepare_size fmt img0 w h = some (img, size)) (hw : 1 ≤ w) :
    0 < (gst_video_scale_prepare_image fmt buf img u v 0 false).1.stride
    ∧ 0 < (gst_video_scale_prepare_image fmt buf img u v 0 false).2.stride := by
  have e2 : Int.tdiv (GST_ROUND_UP_2 w) 2 = GST_ROUND_UP_2 w / 2 :=
    Int.tdiv_eq_ediv (by unfold GST_ROUND_UP_2; omega) (by decide)
  have e4 : Int.tdiv (GST_ROUND_UP_8 w) 2 = GST_ROUND_UP_8 w / 2 :=
    Int.tdiv_eq_ediv (by unfold GST_ROUND_UP_8; omega) (by decide)
  have e6 : Int.tdiv (GST_ROUND_UP_16 w) 4 = GST_ROUND_UP_16 w / 4 :=
    Int.tdiv_eq_ediv (by unfold GST_ROUND_UP_16; omega) (by decide)
  unfold gst_video_scale_prepare_size at hp
  rcases hpl with rfl | rfl | rfl | rfl | rfl <;>
    simp [hf] at hp <;> obtain ⟨rfl, _⟩ := hp <;>
    simp [gst_video_scale_prepare_image, prepare_field, hf, e2, e4, e6] <;>
    simp only [GST_ROUND_UP_2, GST_ROUND_UP_4, GST_ROUND_UP_8, GST_ROUND_UP_16] <;> omega

/-- The result of `gst_video_scale_prepare_image` depends on the format code
only through the enumerator it names. -/
theorem prepare_image_of_code (fmt buf : Int) (img u v : VSImage) (step : Int) (il : Bool)
    (f : VideoScaleFormat) (hf : format_of_code fmt = some f) :
    gst_video_scale_prepare_image fmt buf img u v step il
      = gst_video_scale_prepare_image (code_of_format f) buf img u v step il := by
  unfold gst_video_scale_prepare_image
  rw [hf, format_of_code_code_of_format]

/-- C28: after a successful `gst_video_scale_set_caps` with interlaced
content and frame sizes `>= 1`, the kernel calls of
`gst_video_scale_transform` are those of pass 0 followed by those of pass 1,
and for every plane the two field descriptors split the plane: for the luma
or packed plane (base, height `H` and stride `S` as prepared) and, for a
planar format, for each chroma plane (base, height and stride as
`gst_video_scale_prepare_image` gives them for progressive content), the
field heights add up to the plane height, field 0 addresses the rows
`B + 2*S*y`, field 1 the rows `B + S + 2*S*y`, no row belongs to both, and
together they are the rows `B + S*r`, `r < H`, of the plane; source and
destination alike. -/
theorem C28_fields_split_planes (vs0 vs : GstVideoScale) (inc out : Caps) (inb outb : Int)
    (f : VideoScaleFormat) (km : KernelMethod)
    (hcaps : gst_video_scale_set_caps vs0 inc out = (true, vs))
    (hi : vs.interlaced = true)
    (hfmt : format_of_code vs.format = some f)
    (hk : kernel_method_of (effective_method vs) = some km)
    (hw : 1 ≤ vs.from_width) (hh : 1 ≤ vs.from_height)
    (hw' : 1 ≤ vs.to_width) (hh' : 1 ≤ vs.to_height) :
    (gst_video_scale_transform vs inb outb).2
        = pass_calls km f (pass_locals vs inb outb 0)
          ++ pass_calls km f (pass_locals vs inb outb 1)
    ∧ (pass_locals vs inb outb 0).src
        = ⟨inb, vs.src.width, (vs.src.height + 1) / 2, 2 * vs.src.stride⟩
    ∧ (pass_locals vs inb outb 1).src
        = ⟨inb + vs.src.stride, vs.src.width, vs.src.height / 2, 2 * vs.src.stride⟩
    ∧ fields_split ⟨inb, vs.src.width, vs.src.height, vs.src.stride⟩
        (pass_locals vs inb outb 0).src (pass_locals vs inb outb 1).src
    ∧ fields_split ⟨outb, vs.dest.width, vs.dest.height, vs.dest.stride⟩
        (pass_locals vs inb outb 0).dest (pass_locals vs inb outb 1).dest
    ∧ (is_planar f →
        fields_split
          (gst_video_scale_prepare_image vs.format inb vs.src ⟨0, 0, 0, 0⟩ ⟨0, 0, 0, 0⟩ 0 false).1
          (pass_locals vs inb outb 0).src_u (pass_locals vs inb outb 1).src_u
        ∧ fields_split
          (gst_video_scale_prepare_image vs.format inb vs.src ⟨0, 0, 0, 0⟩ ⟨0, 0, 0, 0⟩ 0 false).2
          (pass_locals vs inb outb 0).src_v (pass_locals vs inb outb 1).src_v
        ∧ fields_split
          (gst_video_scale_prepare_image vs.format outb vs.dest ⟨0, 0, 0, 0⟩ ⟨0, 0, 0, 0⟩ 0 false).1
          (pass_locals vs inb outb 0).dest_u (pass_locals vs inb outb 1).dest_u
        ∧ fields_split
          (gst_video_scale_prepare_image vs.format outb vs.dest ⟨0, 0, 0, 0⟩ ⟨0, 0, 0, 0⟩ 0 false).2
          (pass_locals vs inb outb 0).dest_v (pass_locals vs inb outb 1).dest_v) := by
  obtain ⟨_, _, _, _, _, _, _, hsrc, hdest, _⟩ := set_caps_true vs0 vs inc out hcaps
  obtain ⟨_, hsh, _⟩ := prepare_size_dims _ _ _ _ _ _ hsrc
  obtain ⟨_, hdh, _⟩ := prepare_size_dims _ _ _ _ _ _ hdest
  have hS := prepare_size_stride_pos _ _ _ _ _ _ hsrc hw
  have hS' := prepare_size_stride_pos _ _ _ _ _ _ hdest hw'
  have z2 : (0 : Int) ≤ 2 := by decide
  have a1 : ∀ x : Int, x / 2 + (if x % 2 = 1 then 1 else 0) = (x + 1) / 2 := by
    intro x; split <;> omega
  have e0 : (pass_locals vs inb outb 0).src
      = ⟨inb, vs.src.width, (vs.src.height + 1) / 2, 2 * vs.src.stride⟩ := by
    rw [pass_locals_zero_src, hi, if_pos rfl, hsh, Int.tdiv_eq_ediv (by omega) z2,
      Int.tmod_eq_emod (by omega) z2, a1, mul_comm]
  have e1 : (pass_locals vs inb outb 1).src
      = ⟨inb + vs.src.stride, vs.src.width, vs.src.height / 2, 2 * vs.src.stride⟩ := by
    rw [pass_locals_one_src _ _ _ hi, hsh, Int.tdiv_eq_ediv (by omega) z2, mul_comm]
  have d0 : (pass_locals vs inb outb 0).dest
      = ⟨outb, vs.dest.width, (vs.dest.height + 1) / 2, 2 * vs.dest.stride⟩ := by
    rw [pass_locals_zero_dest, hi, if_pos rfl, hdh, Int.tdiv_eq_ediv (by omega) z2,
      Int.tmod_eq_emod (by omega) z2, a1, mul_comm]
  have d1 : (pass_locals vs inb outb 1).dest
      = ⟨outb + vs.dest.stride, vs.dest.width, vs.dest.height / 2, 2 * vs.dest.stride⟩ := by
    rw [pass_locals_one_dest _ _ _ hi, hdh, Int.tdiv_eq_ediv (by omega) z2, mul_comm]
  refine ⟨?_, e0, e1, ?_, ?_, ?_⟩
  · rw [transform_calls vs inb outb f km hfmt hk, hi]
    rfl
  · rw [e0, e1]
    exact fields_split_of _ _ _ _ _ _ hS
  · rw [d0, d1]
    exact fields_split_of _ _ _ _ _ _ hS'
  · intro hp
    have hcode := fun buf img step il => prepare_image_of_code vs.format buf img
      ⟨0, 0, 0, 0⟩ ⟨0, 0, 0, 0⟩ step il f hfmt
    obtain ⟨c1, c2, c3, c4⟩ := pass_locals_chroma vs inb outb 0 f hfmt hp
    obtain ⟨c5, c6, c7, c8⟩ := pass_locals_chroma vs inb outb 1 f hfmt hp
    have hsh1 : 1 ≤ vs.src.height := by omega
    have hdh1 : 1 ≤ vs.dest.height := by omega
    obtain ⟨s0, s1⟩ := prepare_image_fields f hp vs.src ⟨0, 0, 0, 0⟩ ⟨0, 0, 0, 0⟩ inb hsh1
    obtain ⟨t0, t1⟩ := prepare_image_fields f hp vs.dest ⟨0, 0, 0, 0⟩ ⟨0, 0, 0, 0⟩ outb hdh1
    obtain ⟨p1, p2⟩ := chroma_stride_pos vs.format inb vs0.src vs.src ⟨0, 0, 0, 0⟩
      ⟨0, 0, 0, 0⟩ _ _ _ f hfmt hp hsrc hw
    obtain ⟨q1, q2⟩ := chroma_stride_pos vs.format outb vs0.dest vs.dest ⟨0, 0, 0, 0⟩
      ⟨0, 0, 0, 0⟩ _ _ _ f hfmt hp hdest hw'
    rw [c1, c2, c3, c4, c5, c6, c7, c8, hi]
    simp only [hcode] at p1 p2 q1 q2 ⊢
    simp only [Nat.cast_zero, Nat.cast_one, s0, s1, t0, t1]
    exact ⟨fields_split_of _ _ _ _ _ _ p1, fields_split_of _ _ _ _ _ _ p2,
      fields_split_of _ _ _ _ _ _ q1, fields_split_of _ _ _ _ _ _ q2⟩

/-- Witness of C28 at an interlaced 64x64 I420 source scaled to 32x31: the
luma fields of the source are 32 rows of stride 128 at 0 and at 64, and they
split the 64 luma rows of stride 64. -/
theorem C28_fields_split_planes_witness :
    gst_video_scale_set_caps gst_video_scale_init ⟨some 64, some 64, some true, 17⟩
        ⟨some 32, some 31, none, 17⟩
      = (true, ⟨1, 17, 64, 64, 32, 31, ⟨0, 64, 64, 64⟩, ⟨0, 32, 31, 32⟩, 6144, 1536, true,
          some 256⟩)
    ∧ format_of_code 17 = some GST_VIDEO_SCALE_I420
    ∧ (pass_locals
        ⟨1, 17, 64, 64, 32, 31, ⟨0, 64, 64, 64⟩, ⟨0, 32, 31, 32⟩, 6144, 1536, true, some 256⟩
        0 0 0).src = ⟨0, 64, 32, 128⟩
    ∧ (pass_locals
        ⟨1, 17, 64, 64, 32, 31, ⟨0, 64, 64, 64⟩, ⟨0, 32, 31, 32⟩, 6144, 1536, true, some 256⟩
        0 0 1).src = ⟨64, 64, 32, 128⟩
    ∧ fields_split ⟨0, 64, 64, 64⟩
        (pass_locals
          ⟨1, 17, 64, 64, 32, 31, ⟨0, 64, 64, 64⟩, ⟨0, 32, 31, 32⟩, 6144, 1536, true,
            some 256⟩ 0 0 0).src
        (pass_locals
          ⟨1, 17, 64, 64, 32, 31, ⟨0, 64, 64, 64⟩, ⟨0, 32, 31, 32⟩, 6144, 1536, true,
            some 256⟩ 0 0 1).src :=
  have t := C28_fields_split_planes gst_video_scale_init
    ⟨1, 17, 64, 64, 32, 31, ⟨0, 64, 64, 64⟩, ⟨0, 32, 31, 32⟩, 6144, 1536, true, some 256⟩
    ⟨some 64, some 64, some true, 17⟩ ⟨some 32, some 31, none, 17⟩ 0 0
    GST_VIDEO_SCALE_I420 KernelMethod.linear (by decide) rfl (by decide) (by decide)
    (by decide) (by decide) (by decide) (by decide)
  ⟨by decide, by decide, t.2.1, t.2.2.1, t.2.2.2.1⟩

/-! ## Size of the buffer -/

theorem mul_le_of_bounds (a b A B : Int) (ha0 : 0 ≤ a) (ha : a ≤ A) (hb0 : 0 ≤ b)
    (hb : b ≤ B) : a * b ≤ A * B :=
  mul_le_mul ha hb hb0 (le_trans ha0 ha)

/-- C29: for every catalog format and `w`, `h` in 1..32767,
`gst_video_scale_prepare_size` succeeds and the exact value of the size
expression is positive and below `2 ^ 32`; so the `guint` that holds it has
that value, also when the expression was evaluated in a 32-bit `gint` that
wrapped. -/
theorem C29_size_fits_guint (f : VideoScaleFormat) (w h : Int)
    (hw1 : 1 ≤ w) (hw2 : w ≤ 32767) (hh1 : 1 ≤ h) (hh2 : h ≤ 32767) (img : VSImage) :
    (gst_video_scale_prepare_size (code_of_format f) img w h).isSome
    ∧ ∀ img1 size, gst_video_scale_prepare_size (code_of_format f) img w h = some (img1, size) →
        0 < size ∧ size < 2 ^ 32 ∧ to_guint size = size ∧ to_guint (to_gint size) = size := by
  have fin : ∀ size : Int, 0 < size → size < 4294967296 →
      0 < size ∧ size < 2 ^ 32 ∧ to_guint size = size ∧ to_guint (to_gint size) = size := by
    intro size h0 h1
    refine ⟨h0, by omega, ?_, ?_⟩
    · unfold to_guint; omega
    · unfold to_guint to_gint; omega
  have one : ∀ s : Int, 0 < s → s ≤ 131068 → 0 < s * h ∧ s * h < 4294967296 := by
    intro s h0 h1
    have := mul_le_of_bounds s h 131068 32767 (by omega) h1 (by omega) hh2
    have := mul_pos h0 (show (0 : Int) < h by omega)
    omega
  have e16 : Int.tdiv (GST_ROUND_UP_16 w) 2 = GST_ROUND_UP_16 w / 2 :=
    Int.tdiv_eq_ediv (by unfold GST_ROUND_UP_16; omega) (by decide)
  have e4 : Int.tdiv (GST_ROUND_UP_4 w) 2 = GST_ROUND_UP_4 w / 2 :=
    Int.tdiv_eq_ediv (by unfold GST_ROUND_UP_4; omega) (by decide)
  have e2 : Int.tdiv (GST_ROUND_UP_2 h) 2 = GST_ROUND_UP_2 h / 2 :=
    Int.tdiv_eq_ediv (by unfold GST_ROUND_UP_2; omega) (by decide)
  have i420 : 0 < GST_ROUND_UP_4 w * GST_ROUND_UP_2 h
        + 2 * GST_ROUND_UP_4 (GST_ROUND_UP_4 w / 2) * (GST_ROUND_UP_2 h / 2)
      ∧ GST_ROUND_UP_4 w * GST_ROUND_UP_2 h
        + 2 * GST_ROUND_UP_4 (GST_ROUND_UP_4 w / 2) * (GST_ROUND_UP_2 h / 2)
          < 4294967296 := by
    have b1 := mul_le_of_bounds (GST_ROUND_UP_4 w) (GST_ROUND_UP_2 h) 32768 32768
      (by unfold GST_ROUND_UP_4; omega) (by unfold GST_ROUND_UP_4; omega)
      (by unfold GST_ROUND_UP_2; omega) (by unfold GST_ROUND_UP_2; omega)
    have b2 := mul_le_of_bounds (2 * GST_ROUND_UP_4 (GST_ROUND_UP_4 w / 2))
      (GST_ROUND_UP_2 h / 2) 32768 16384
      (by unfold GST_ROUND_UP_4; omega) (by unfold GST_ROUND_UP_4; omega)
      (by unfold GST_ROUND_UP_2; omega) (by unfold GST_ROUND_UP_2; omega)
    have p1 := mul_pos (show (0 : Int) < GST_ROUND_UP_4 w by unfold GST_ROUND_UP_4; omega)
      (show (0 : Int) < GST_ROUND_UP_2 h by unfold GST_ROUND_UP_2; omega)
    have p2 := mul_nonneg
      (show (0 : Int) ≤ 2 * GST_ROUND_UP_4 (GST_ROUND_UP_4 w / 2) by
        unfold GST_ROUND_UP_4; omega)
      (show (0 : Int) ≤ GST_ROUND_UP_2 h / 2 by unfold GST_ROUND_UP_2; omega)
    omega
  have r4 : 0 < GST_ROUND_UP_4 w ∧ GST_ROUND_UP_4 w ≤ 32768 := by
    unfold GST_ROUND_UP_4; omega
  have r4x2 : 0 < GST_ROUND_UP_4 (w * 2) ∧ GST_ROUND_UP_4 (w * 2) ≤ 65536 := by
    unfold GST_ROUND_UP_4; omega
  have r4x3 : 0 < GST_ROUND_UP_4 (w * 3) ∧ GST_ROUND_UP_4 (w * 3) ≤ 98304 := by
    unfold GST_ROUND_UP_4; omega
  have r8 : 0 < GST_ROUND_UP_8 w ∧ GST_ROUND_UP_8 w ≤ 32768 := by
    unfold GST_ROUND_UP_8; omega
  have r16 : 0 < GST_ROUND_UP_16 w / 2 ∧ GST_ROUND_UP_16 w / 2 ≤ 16384 := by
    unfold GST_ROUND_UP_16; omega
  refine ⟨?_, ?_⟩
  · cases f <;> simp [gst_video_scale_prepare_size, format_of_code_code_of_format]
  · intro img1 size hs
    cases f <;>
      simp [gst_video_scale_prepare_size, format_of_code_code_of_format, e16, e4, e2] at hs <;>
      obtain ⟨_, rfl⟩ := hs <;> apply fin
    all_goals first
      | exact (one _ (by omega) (by omega)).1
      | exact (one _ (by omega) (by omega)).2
      | exact i420.1
      | exact i420.2
      | (rw [mul_right_comm]; exact (one _ (by omega) (by omega)).1)
      | (rw [mul_right_comm]; exact (one _ (by omega) (by omega)).2)

/-- Witness of C29 at the largest RGBA frame, 32767x32767: the size
4294705156 exceeds `2 ^ 31` and is below `2 ^ 32`. -/
theorem C29_size_fits_guint_witness :
    gst_video_scale_prepare_size 0 ⟨0, 0, 0, 0⟩ 32767 32767
      = some (⟨0, 32767, 32767, 131068⟩, 4294705156)
    ∧ (2 : Int) ^ 31 < 4294705156 ∧ (4294705156 : Int) < 2 ^ 32
    ∧ to_gint 4294705156 = -262140
    ∧ to_guint (to_gint 4294705156) = 4294705156 :=
  ⟨by decide, by decide, by decide, by decide,
    ((C29_size_fits_guint GST_VIDEO_SCALE_RGBA 32767 32767 (by decide) (by decide)
      (by decide) (by decide) ⟨0, 0, 0, 0⟩).2 ⟨0, 32767, 32767, 131068⟩ 4294705156
      (by decide)).2.2.2⟩

/-! ## Auxiliary facts on the adder -/

theorem CLAMP_range (x low high : Int) (h : low ≤ high) :
    low ≤ CLAMP x low high ∧ CLAMP x low high ≤ high := by
  unfold CLAMP
  split_ifs <;> omega

theorem CLAMP_of_range (x low high : Int) (h1 : low ≤ x) (h2 : x ≤ high) :
    CLAMP x low high = x := by
  unfold CLAMP
  split_ifs <;> omega

theorem to_signed_8 (x : Int) :
    -128 ≤ to_signed 8 x ∧ to_signed 8 x ≤ 127
    ∧ (-128 ≤ x → x ≤ 127 → to_signed 8 x = x) := by
  unfold to_signed
  norm_num
  omega

theorem to_signed_16 (x : Int) :
    -32768 ≤ to_signed 16 x ∧ to_signed 16 x ≤ 32767
    ∧ (-32768 ≤ x → x ≤ 32767 → to_signed 16 x = x) := by
  unfold to_signed
  norm_num
  omega

theorem to_signed_32 (x : Int) :
    -2147483648 ≤ to_signed 32 x ∧ to_signed 32 x ≤ 2147483647
    ∧ (-2147483648 ≤ x → x ≤ 2147483647 → to_signed 32 x = x) := by
  unfold to_signed
  norm_num
  omega

theorem to_signed_64 (x : Int) (h1 : -9223372036854775808 ≤ x)
    (h2 : x ≤ 9223372036854775807) : to_signed 64 x = x := by
  unfold to_signed
  norm_num
  omega

/-- The three integer statements store the clamped exact sum of the two
samples read: neither the sum nor the store wraps. -/
theorem add_sample_eq (o x : Int) :
    add_sample_32 o x = CLAMP (to_signed 32 o + to_signed 32 x) MIN_INT_32 MAX_INT_32
    ∧ add_sample_16 o x = CLAMP (to_signed 16 o + to_signed 16 x) MIN_INT_16 MAX_INT_16
    ∧ add_sample_8 o x = CLAMP (to_signed 8 o + to_signed 8 x) MIN_INT_8 MAX_INT_8 := by
  obtain ⟨a1, a2, _⟩ := to_signed_32 o
  obtain ⟨b1, b2, _⟩ := to_signed_32 x
  obtain ⟨c1, c2, _⟩ := to_signed_16 o
  obtain ⟨d1, d2, _⟩ := to_signed_16 x
  obtain ⟨e1, e2, _⟩ := to_signed_8 o
  obtain ⟨f1, f2, _⟩ := to_signed_8 x
  refine ⟨?_, ?_, ?_⟩
  · unfold add_sample_32
    rw [to_signed_64 _ (by omega) (by omega)]
    have r := CLAMP_range (to_signed 32 o + to_signed 32 x) MIN_INT_32 MAX_INT_32 (by decide)
    unfold MIN_INT_32 MAX_INT_32 at r ⊢
    exact (to_signed_32 _).2.2 (by omega) (by omega)
  · unfold add_sample_16
    rw [(to_signed_32 _).2.2 (by omega) (by omega)]
    have r := CLAMP_range (to_signed 16 o + to_signed 16 x) MIN_INT_16 MAX_INT_16 (by decide)
    unfold MIN_INT_16 MAX_INT_16 at r ⊢
    exact (to_signed_16 _).2.2 (by omega) (by omega)
  · unfold add_sample_8
    rw [(to_signed_32 _).2.2 (by omega) (by omega)]
    have r := CLAMP_range (to_signed 8 o + to_signed 8 x) MIN_INT_8 MAX_INT_8 (by decide)
    unfold MIN_INT_8 MAX_INT_8 at r ⊢
    exact (to_signed_8 _).2.2 (by omega) (by omega)

theorem mix_loop_length (f : Int → Int → Int) (raw_in : Nat → Int) (i : Nat) (out : List Int) :
    (mix_loop f raw_in i out).length = out.length := by
  induction out generalizing i with
  | nil => rfl
  | cons o out ih => simp [mix_loop, ih]

theorem mix_loop_getD (f : Int → Int → Int) (raw_in : Nat → Int) (i k : Nat) (out : List Int)
    (hk : k < out.length) :
    (mix_loop f raw_in i out).getD k 0 = f (out.getD k 0) (raw_in (i + k)) := by
  induction out generalizing i k with
  | nil => simp at hk
  | cons o out ih =>
    cases k with
    | zero => simp [mix_loop]
    | succ k =>
      simp only [mix_loop, List.getD_cons_succ]
      rw [ih (i + 1) k (by simpa using hk)]
      congr 2
      omega

theorem mix_loop_mem (f : Int → Int → Int) (raw_in : Nat → Int) (i : Nat) (out : List Int)
    (s : Int) (hs : s ∈ mix_loop f raw_in i out) : ∃ o x, s = f o x := by
  induction out generalizing i with
  | nil => simp [mix_loop] at hs
  | cons o out ih =>
    simp only [mix_loop, List.mem_cons] at hs
    rcases hs with rfl | hs
    · exact ⟨o, raw_in i, rfl⟩
    · exact ih (i + 1) hs

theorem mix_loop_replicate (f : Int → Int → Int) (raw_in : Nat → Int) (i n : Nat) (z : Int) :
    mix_loop f raw_in i (List.replicate n z)
      = (List.range n).map (fun k => f z (raw_in (i + k))) := by
  induction n generalizing i with
  | zero => rfl
  | succ n ih =>
    rw [List.replicate_succ, mix_loop, ih, List.range_succ_eq_map]
    simp only [List.map_cons, List.map_map, Nat.add_zero]
    congr 1
    apply List.map_congr_left
    intro k _
    simp only [Function.comp]
    congr 2
    omega

theorem mix_loop_map (f : Int → Int → Int) (raw_in : Nat → Int) (n : Nat) (g : Nat → Int) :
    mix_loop f raw_in 0 ((List.range n).map g)
      = (List.range n).map (fun k => f (g k) (raw_in k)) := by
  have key : ∀ (l : List Nat) (i : Nat) (h : Nat → Nat),
      (∀ k, k < l.length → l.getD k 0 = h (i + k)) →
      mix_loop f raw_in i (l.map (fun j => g j))
        = (List.range l.length).map (fun k => f (g (h (i + k))) (raw_in (i + k))) := by
    intro l
    induction l with
    | nil => intro i h _; rfl
    | cons a l ih =>
      intro i h hl
      rw [List.map_cons, mix_loop, List.length_cons, List.range_succ_eq_map]
      have h0 := hl 0 (by simp)
      simp only [List.getD_cons_zero, Nat.add_zero] at h0
      rw [ih (i + 1) h (fun k hk => by
        have := hl (k + 1) (by simpa using hk)
        simp only [List.getD_cons_succ] at this
        rw [this]; congr 1; omega)]
      simp only [List.map_cons, List.map_map, Nat.add_zero, h0]
      congr 1
      apply List.map_congr_left
      intro k _
      simp only [Function.comp]
      have : i + 1 + k = i + (k + 1) := by omega
      rw [this]
  have := key (List.range n) 0 id (fun k hk => by
    simp only [List.length_range] at hk
    simp [List.getD_eq_getElem?_getD, List.getElem?_range hk])
  simpa using this

/-- For integer audio of width 8, 16 or 32 the mixing block is the loop that
stores the clamped exact sum of the samples read. -/
theorem mix_channel_int (float_mix : Int → Int → Int → Int) (adder : GstAdder)
    (hf : adder.format = GstAdderFormat.GST_ADDER_FORMAT_INT)
    (hw : adder.width = 8 ∨ adder.width = 16 ∨ adder.width = 32)
    (out : List Int) (raw_in : Nat → Int) :
    mix_channel float_mix adder out raw_in
      = some (mix_loop (fun o x => CLAMP (sample_read adder.width o + sample_read adder.width x)
          (sample_min adder.width) (sample_max adder.width)) raw_in 0 out) := by
  have e32 : add_sample_32 = fun o x => CLAMP (sample_read 32 o + sample_read 32 x)
      (sample_min 32) (sample_max 32) := by
    funext o x; exact (add_sample_eq o x).1
  have e16 : add_sample_16 = fun o x => CLAMP (sample_read 16 o + sample_read 16 x)
      (sample_min 16) (sample_max 16) := by
    funext o x; exact (add_sample_eq o x).2.1
  have e8 : add_sample_8 = fun o x => CLAMP (sample_read 8 o + sample_read 8 x)
      (sample_min 8) (sample_max 8) := by
    funext o x; exact (add_sample_eq o x).2.2
  unfold mix_channel
  rw [hf]
  rcases hw with h | h | h <;> rw [h] <;> simp only [e32, e16, e8] <;> rfl

/-- The samples read are in the range of their width, and reading a value of
that range gives the value. -/
theorem sample_read_range (width x : Int)
    (hw : width = 8 ∨ width = 16 ∨ width = 32) :
    sample_min width ≤ sample_read width x ∧ sample_read width x ≤ sample_max width
    ∧ (sample_min width ≤ x → x ≤ sample_max width → sample_read width x = x)
    ∧ sample_min width ≤ 0 ∧ 0 ≤ sample_max width := by
  rcases hw with rfl | rfl | rfl
  · have := to_signed_8 x
    simpa [sample_min, sample_max, sample_read, MIN_INT_8, MAX_INT_8] using this
  · have := to_signed_16 x
    simpa [sample_min, sample_max, sample_read, MIN_INT_16, MAX_INT_16] using this
  · have := to_signed_32 x
    simpa [sample_min, sample_max, sample_read, MIN_INT_32, MAX_INT_32] using this

/-- The loop over the inputs keeps the number of samples and keeps every
sample in the range of the width. -/
theorem mix_inputs_range (float_mix : Int → Int → Int → Int) (adder : GstAdder)
    (hf : adder.format = GstAdderFormat.GST_ADDER_FORMAT_INT)
    (hw : adder.width = 8 ∨ adder.width = 16 ∨ adder.width = 32)
    (inputs : List GstAdderInputChannel) (out out' : List Int)
    (hr : ∀ s ∈ out, sample_min adder.width ≤ s ∧ s ≤ sample_max adder.width)
    (h : mix_inputs float_mix adder out inputs = Except.ok out') :
    out'.length = out.length
    ∧ ∀ s ∈ out', sample_min adder.width ≤ s ∧ s ≤ sample_max adder.width := by
  obtain ⟨_, _, _, hz1, hz2⟩ := sample_read_range adder.width 0 hw
  have hpeek : ∀ (peeks : List PeekResult) (out out' : List Int),
      (∀ s ∈ out, sample_min adder.width ≤ s ∧ s ≤ sample_max adder.width) →
      peek_input float_mix adder out peeks = Except.ok out' →
      out'.length = out.length
      ∧ ∀ s ∈ out', sample_min adder.width ≤ s ∧ s ≤ sample_max adder.width := by
    intro peeks
    induction peeks with
    | nil =>
      intro out out' hr h
      simp only [peek_input] at h
      cases h
      exact ⟨rfl, hr⟩
    | cons p rest ih =>
      intro out out' hr h
      cases p with
      | data raw_in =>
        simp only [peek_input, mix_channel_int float_mix adder hf hw] at h
        cases h
        refine ⟨mix_loop_length _ _ _ _, ?_⟩
        intro s hs
        obtain ⟨o, x, rfl⟩ := mix_loop_mem _ _ _ _ s hs
        exact CLAMP_range _ _ _ (by omega)
      | short ev =>
        cases ev with
        | none =>
          simp only [peek_input] at h
          cases h
          exact ⟨rfl, hr⟩
        | some e =>
          cases e with
          | GST_EVENT_EOS =>
            simp only [peek_input] at h
            cases h
            exact ⟨rfl, hr⟩
          | GST_EVENT_INTERRUPT b =>
            cases b with
            | true => simp only [peek_input] at h; cases h
            | false => simp only [peek_input] at h; exact ih out out' hr h
          | other => simp only [peek_input] at h; exact ih out out' hr h
  induction inputs generalizing out with
  | nil =>
    simp only [mix_inputs] at h
    cases h
    exact ⟨rfl, hr⟩
  | cons input inputs ih =>
    simp only [mix_inputs] at h
    split at h
    · exact ih out hr h
    · cases hp : peek_input float_mix adder out input.peeks with
      | error r => rw [hp] at h; cases h
      | ok out1 =>
        rw [hp] at h
        obtain ⟨l1, r1⟩ := hpeek _ _ _ hr hp
        obtain ⟨l2, r2⟩ := ih out1 r1 h
        exact ⟨l2.trans l1, r2⟩

/-- The loop over the inputs never ends by pushing: it returns early only
after an interrupt or with the format error. -/
theorem mix_inputs_error (float_mix : Int → Int → Int → Int) (adder : GstAdder)
    (inputs : List GstAdderInputChannel) (out : List Int) (r : AdderResult)
    (h : mix_inputs float_mix adder out inputs = Except.error r) :
    r = AdderResult.interrupted ∨ r = AdderResult.error_format := by
  have hpeek : ∀ (peeks : List PeekResult) (out : List Int),
      peek_input float_mix adder out peeks = Except.error r →
      r = AdderResult.interrupted ∨ r = AdderResult.error_format := by
    intro peeks
    induction peeks with
    | nil => intro out h; simp only [peek_input] at h; cases h
    | cons p rest ih =>
      intro out h
      cases p with
      | data raw_in =>
        simp only [peek_input] at h
        split at h
        · cases h; exact Or.inr rfl
        · cases h
      | short ev =>
        cases ev with
        | none => simp only [peek_input] at h; cases h
        | some e =>
          cases e with
          | GST_EVENT_EOS => simp only [peek_input] at h; cases h
          | GST_EVENT_INTERRUPT b =>
            cases b with
            | true => simp only [peek_input] at h; cases h; exact Or.inl rfl
            | false => simp only [peek_input] at h; exact ih out h
          | other => simp only [peek_input] at h; exact ih out h
  induction inputs generalizing out with
  | nil => simp only [mix_inputs] at h; cases h
  | cons input inputs ih =>
    simp only [mix_inputs] at h
    split at h
    · exact ih out h
    · cases hp : peek_input float_mix adder out input.peeks with
      | error r1 =>
        rw [hp] at h
        cases h
        exact hpeek _ _ hp
      | ok out1 =>
        rw [hp] at h
        exact ih out1 h

/-! ## Mixing of integer audio: `gst_adder_loop` -/

/-- C30: in `gst_adder_loop`, for integer audio of width 8, 16 or 32, adding
an input channel stores in every output sample the exact sum of the previous
output sample and the input sample, clamped to the signed range of the width
(neither the sum nor the store wraps).  Every buffer the function pushes has
all its samples in that range, and with two usable inputs that deliver the
samples `a` and `b` sample `i` of the pushed buffer is the clamped sum of
`a i` and `b i`, the same for either order of the inputs. -/
theorem C30_saturating_mix (float_mix : Int → Int → Int → Int) (adder : GstAdder)
    (hf : adder.format = GstAdderFormat.GST_ADDER_FORMAT_INT)
    (hw : adder.width = 8 ∨ adder.width = 16 ∨ adder.width = 32) :
    (∀ (out : List Int) (raw_in : Nat → Int),
      (mix_channel float_mix adder out raw_in).isSome
      ∧ ∀ out', mix_channel float_mix adder out raw_in = some out' →
          out'.length = out.length
          ∧ ∀ i, i < out.length →
              out'.getD i 0
                = CLAMP (sample_read adder.width (out.getD i 0)
                    + sample_read adder.width (raw_in i))
                  (sample_min adder.width) (sample_max adder.width)
              ∧ sample_min adder.width ≤ out'.getD i 0
              ∧ out'.getD i 0 ≤ sample_max adder.width)
    ∧ (∀ (alloc_ok : Bool) (inputs : List GstAdderInputChannel) (buf : List Int),
        gst_adder_loop float_mix alloc_ok adder inputs = AdderResult.pushed buf →
        buf.length = sample_count adder
        ∧ ∀ s ∈ buf, sample_min adder.width ≤ s ∧ s ≤ sample_max adder.width)
    ∧ (∀ a b : Nat → Int, adder.channels ≠ 0 → adder.rate ≠ 0 →
        gst_adder_loop float_mix true adder
            [⟨true, [PeekResult.data a]⟩, ⟨true, [PeekResult.data b]⟩]
          = AdderResult.pushed ((List.range (sample_count adder)).map
              (fun i => CLAMP (sample_read adder.width (a i) + sample_read adder.width (b i))
                (sample_min adder.width) (sample_max adder.width)))
        ∧ gst_adder_loop float_mix true adder
            [⟨true, [PeekResult.data a]⟩, ⟨true, [PeekResult.data b]⟩]
          = gst_adder_loop float_mix true adder
            [⟨true, [PeekResult.data b]⟩, ⟨true, [PeekResult.data a]⟩]) := by
  have hrd := fun x => sample_read_range adder.width x hw
  obtain ⟨_, _, _, hz1, hz2⟩ := hrd 0
  have hrz : sample_read adder.width 0 = 0 := (hrd 0).2.2.1 hz1 hz2
  have two : ∀ a b : Nat → Int, adder.channels ≠ 0 → adder.rate ≠ 0 →
      gst_adder_loop float_mix true adder
          [⟨true, [PeekResult.data a]⟩, ⟨true, [PeekResult.data b]⟩]
        = AdderResult.pushed ((List.range (sample_count adder)).map
            (fun i => CLAMP (sample_read adder.width (a i) + sample_read adder.width (b i))
              (sample_min adder.width) (sample_max adder.width))) := by
    intro a b hc hr
    have hw0 : adder.width ≠ 0 := by omega
    have s1 : ∀ x, CLAMP (sample_read adder.width 0 + sample_read adder.width x)
        (sample_min adder.width) (sample_max adder.width) = sample_read adder.width x := by
      intro x
      rw [hrz, zero_add]
      exact CLAMP_of_range _ _ _ (hrd x).1 (hrd x).2.1
    have s2 : ∀ x, sample_read adder.width (sample_read adder.width x)
        = sample_read adder.width x := fun x => (hrd _).2.2.1 (hrd x).1 (hrd x).2.1
    simp only [gst_adder_loop, mix_inputs, peek_input, mix_channel_int float_mix adder hf hw,
      mix_loop_replicate, s1, Nat.zero_add, mix_loop_map, s2, if_neg hw0, if_neg hc, if_neg hr]
    simp
  refine ⟨?_, ?_, ?_⟩
  · intro out raw_in
    rw [mix_channel_int float_mix adder hf hw]
    refine ⟨rfl, ?_⟩
    intro out' h
    cases h
    refine ⟨mix_loop_length _ _ _ _, ?_⟩
    intro i hi
    rw [mix_loop_getD _ _ _ _ _ hi, Nat.zero_add]
    exact ⟨rfl, CLAMP_range _ _ _ (by omega)⟩
  · intro alloc_ok inputs buf h
    unfold gst_adder_loop at h
    cases alloc_ok with
    | false => simp at h
    | true =>
      simp only [Bool.not_true, Bool.false_eq_true, if_false] at h
      cases hm : mix_inputs float_mix adder (List.replicate (sample_count adder) 0) inputs with
      | error r =>
        rw [hm] at h
        simp only at h
        rcases mix_inputs_error float_mix adder inputs _ r hm with rfl | rfl <;> cases h
      | ok out1 =>
        rw [hm] at h
        simp only at h
        split_ifs at h
        cases h
        have := mix_inputs_range float_mix adder hf hw inputs _ _ (by
          intro s hs
          rw [List.eq_of_mem_replicate hs]
          exact ⟨hz1, hz2⟩) hm
        simpa using this
  · intro a b hc hr
    refine ⟨two a b hc hr, ?_⟩
    rw [two a b hc hr, two b a hc hr]
    congr 1
    apply List.map_congr_left
    intro i _
    rw [add_comm]

/-- Witness of C30 for 16-bit audio: adding the sample 10000 to an output
sample holding 30000 stores 32767, and two inputs that deliver 30000 and 10000
everywhere give a buffer of 512 samples, each the clamped sum. -/
theorem C30_saturating_mix_witness :
    ((16 : Int) = 8 ∨ (16 : Int) = 16 ∨ (16 : Int) = 32)
    ∧ mix_channel (fun _ _ x => x) ⟨GstAdderFormat.GST_ADDER_FORMAT_INT, 16, 2, 44100⟩
        [30000, -30000, 5] (fun _ => 10000) = some [32767, -20000, 10005]
    ∧ CLAMP (sample_read 16 30000 + sample_read 16 10000) (sample_min 16) (sample_max 16)
        = 32767
    ∧ gst_adder_loop (fun _ _ x => x) true ⟨GstAdderFormat.GST_ADDER_FORMAT_INT, 16, 2, 44100⟩
          [⟨true, [PeekResult.data (fun _ => 30000)]⟩,
           ⟨true, [PeekResult.data (fun _ => 10000)]⟩]
        = AdderResult.pushed ((List.range (sample_count
            ⟨GstAdderFormat.GST_ADDER_FORMAT_INT, 16, 2, 44100⟩)).map
            (fun _ => CLAMP (sample_read 16 30000 + sample_read 16 10000)
              (sample_min 16) (sample_max 16))) :=
  ⟨Or.inr (Or.inl rfl), by decide, by decide,
    ((C30_saturating_mix (fun _ _ x => x) ⟨GstAdderFormat.GST_ADDER_FORMAT_INT, 16, 2, 44100⟩
      rfl (Or.inr (Or.inl rfl))).2.2 (fun _ => 30000) (fun _ => 10000) (by decide)
      (by decide)).1⟩

/-! ## Nearest-neighbour scaling and identity -/

theorem nearest_sample (bytes : Int) (dest src : VSImage) (mem : Int → Int) (x y k : Int)
    (hb : 0 < bytes) (hx0 : 0 ≤ x) (hx : x < dest.width) (hy0 : 0 ≤ y) (hy : y < dest.height)
    (hk0 : 0 ≤ k) (hk : k < bytes) (hs : dest.width * bytes ≤ dest.stride) :
    vs_image_scale_nearest bytes dest src mem (sample_address dest bytes x y + k)
      = mem (sample_address src bytes (x * src.width / dest.width)
          (y * src.height / dest.height) + k) := by
  have hxb : x * bytes + k < dest.stride := by
    have : (x + 1) * bytes ≤ dest.width * bytes :=
      mul_le_mul_of_nonneg_right (by omega) (le_of_lt hb)
    have e : (x + 1) * bytes = x * bytes + bytes := by ring
    omega
  have hxb0 : 0 ≤ x * bytes := mul_nonneg hx0 (le_of_lt hb)
  have hS : 0 < dest.stride := by omega
  have hyS0 : 0 ≤ dest.stride * y := mul_nonneg (le_of_lt hS) hy0
  have eoff : sample_address dest bytes x y + k - dest.pixels
      = (x * bytes + k) + dest.stride * y := by
    unfold sample_address; ring
  have e1 : ((x * bytes + k) + dest.stride * y) / dest.stride = y := by
    rw [Int.add_mul_ediv_left _ _ (ne_of_gt hS), Int.ediv_eq_zero_of_lt (by omega) hxb]
    omega
  have e2 : ((x * bytes + k) + dest.stride * y) % dest.stride = x * bytes + k := by
    rw [Int.add_mul_emod_self_left, Int.emod_eq_of_lt (by omega) hxb]
  have e3 : (x * bytes + k) / bytes = x := by
    rw [add_comm, mul_comm, Int.add_mul_ediv_left _ _ (ne_of_gt hb),
      Int.ediv_eq_zero_of_lt hk0 hk]
    omega
  have e4 : (x * bytes + k) % bytes = k := by
    rw [add_comm, mul_comm, Int.add_mul_emod_self_left, Int.emod_eq_of_lt hk0 hk]
  unfold vs_image_scale_nearest
  simp only [eoff, e1, e2, e3, e4, nearest_source]
  rw [if_pos ⟨hb, hS, by omega, hy, hx⟩]

/-- C22: with method NEAREST and a catalog format, every kernel call of
`gst_video_scale_transform` is a nearest-neighbour call, and after it every
byte of the destination sample `(x, y)` of the call's plane holds the byte of
the source sample `(floor (x * src_w / dst_w), floor (y * src_h / dst_h))`.
For a 100x100 RGBA frame scaled to 50x50 there is one call, on the planes
`(outb, 50, 50, 200)` and `(inb, 100, 100, 400)`; destination pixel (0,0) is
source pixel (0,0) and destination pixel (49,49) is source pixel (98,98). -/
theorem C22_nearest_sampling (vs : GstVideoScale) (inb outb : Int) (f : VideoScaleFormat)
    (hf : format_of_code vs.format = some f) (hm : vs.method = GST_VIDEO_SCALE_NEAREST) :
    (∀ c ∈ (gst_video_scale_transform vs inb outb).2,
      c.kernel.method = KernelMethod.nearest
      ∧ ∀ (mem : Int → Int) (x y k : Int), 0 ≤ x → x < c.dest.width → 0 ≤ y →
          y < c.dest.height → 0 ≤ k → k < layout_bytes c.kernel.layout →
          c.dest.width * layout_bytes c.kernel.layout ≤ c.dest.stride →
          (kernel_run c mem).map
              (fun m => m (sample_address c.dest (layout_bytes c.kernel.layout) x y + k))
            = some (mem (sample_address c.src (layout_bytes c.kernel.layout)
                (x * c.src.width / c.dest.width) (y * c.src.height / c.dest.height) + k)))
    ∧ gst_video_scale_set_caps { gst_video_scale_init with method := GST_VIDEO_SCALE_NEAREST }
          ⟨some 100, some 100, none, code_of_format GST_VIDEO_SCALE_RGBA⟩
          ⟨some 50, some 50, none, code_of_format GST_VIDEO_SCALE_RGBA⟩
        = (true, ⟨GST_VIDEO_SCALE_NEAREST, 0, 100, 100, 50, 50, ⟨0, 100, 100, 400⟩,
            ⟨0, 50, 50, 200⟩, 40000, 10000, false, some 800⟩)
    ∧ gst_video_scale_transform
          ⟨GST_VIDEO_SCALE_NEAREST, 0, 100, 100, 50, 50, ⟨0, 100, 100, 400⟩,
            ⟨0, 50, 50, 200⟩, 40000, 10000, false, some 800⟩ inb outb
        = (GST_FLOW_OK, [⟨vs_image_scale_nearest_RGBA, Plane.main, ⟨outb, 50, 50, 200⟩,
            ⟨inb, 100, 100, 400⟩⟩])
    ∧ (∀ (mem : Int → Int) (k : Int), 0 ≤ k → k < 4 →
        vs_image_scale_nearest 4 ⟨outb, 50, 50, 200⟩ ⟨inb, 100, 100, 400⟩ mem
            (sample_address ⟨outb, 50, 50, 200⟩ 4 0 0 + k)
          = mem (sample_address ⟨inb, 100, 100, 400⟩ 4 0 0 + k)
        ∧ vs_image_scale_nearest 4 ⟨outb, 50, 50, 200⟩ ⟨inb, 100, 100, 400⟩ mem
            (sample_address ⟨outb, 50, 50, 200⟩ 4 49 49 + k)
          = mem (sample_address ⟨inb, 100, 100, 400⟩ 4 98 98 + k)) := by
  refine ⟨?_, by decide, ?_, ?_⟩
  · have hem : effective_method vs = GST_VIDEO_SCALE_NEAREST := by
      unfold effective_method
      rw [hm]
      exact if_neg (fun h => absurd h.2 (by decide))
    have hk : kernel_method_of (effective_method vs) = some KernelMethod.nearest := by
      rw [hem]; rfl
    have hpc : ∀ (l : TransformLocals) (c : KernelCall),
        c ∈ pass_calls KernelMethod.nearest f l → c.kernel.method = KernelMethod.nearest := by
      intro l c hc
      unfold pass_calls at hc
      by_cases hp : is_planar f
      · simp only [if_pos hp, List.mem_cons, List.mem_singleton] at hc
        rcases hc with rfl | rfl | rfl | h
        · rfl
        · rfl
        · rfl
        · exact absurd h (List.not_mem_nil _)
      · simp only [if_neg hp, List.mem_singleton] at hc
        subst hc; rfl
    intro c hc
    rw [transform_calls vs inb outb f _ hf hk] at hc
    have hcm : c.kernel.method = KernelMethod.nearest := by
      simp only at hc
      split at hc
      · rcases List.mem_append.1 hc with h | h
        · exact hpc _ c h
        · exact hpc _ c h
      · exact hpc _ c hc
    refine ⟨hcm, ?_⟩
    intro mem x y k hx0 hx hy0 hy hk0 hk1 hs
    have hb : 0 < layout_bytes c.kernel.layout := by omega
    unfold kernel_run
    rw [hcm]
    simp only [Option.map_some']
    rw [nearest_sample _ _ _ _ _ _ _ hb hx0 hx hy0 hy hk0 hk1 hs]
  · rw [transform_calls _ inb outb GST_VIDEO_SCALE_RGBA KernelMethod.nearest (by decide)
      (by decide)]
    rfl
  · intro mem k hk0 hk1
    have h1 := nearest_sample 4 ⟨outb, 50, 50, 200⟩ ⟨inb, 100, 100, 400⟩ mem 0 0 k
      (by decide) (by decide) (by norm_num) (by decide) (by norm_num) hk0 hk1 (by norm_num)
    have h2 := nearest_sample 4 ⟨outb, 50, 50, 200⟩ ⟨inb, 100, 100, 400⟩ mem 49 49 k
      (by decide) (by decide) (by norm_num) (by decide) (by norm_num) hk0 hk1 (by norm_num)
    exact ⟨h1, h2⟩

/-- Witness of C22 at a 4x4 GRAY8 frame (code 23) scaled to 2x2 with method
NEAREST: one nearest-neighbour call, and destination sample (1,1) is source
sample (2,2). -/
theorem C22_nearest_sampling_witness :
    format_of_code 23 = some GST_VIDEO_SCALE_GRAY8
    ∧ (gst_video_scale_transform
        ⟨0, 23, 4, 4, 2, 2, ⟨0, 4, 4, 4⟩, ⟨0, 2, 2, 4⟩, 16, 8, false, some 16⟩ 0 100).2
      = [⟨vs_image_scale_nearest_Y, Plane.main, ⟨100, 2, 2, 4⟩, ⟨0, 4, 4, 4⟩⟩]
    ∧ (kernel_run ⟨vs_image_scale_nearest_Y, Plane.main, ⟨100, 2, 2, 4⟩, ⟨0, 4, 4, 4⟩⟩
          (fun a => a)).map (fun m => m (sample_address ⟨100, 2, 2, 4⟩ 1 1 1 + 0))
      = some (sample_address ⟨0, 4, 4, 4⟩ 1 (1 * 4 / 2) (1 * 4 / 2) + 0) :=
  ⟨by decide, by decide,
    ((C22_nearest_sampling
      ⟨0, 23, 4, 4, 2, 2, ⟨0, 4, 4, 4⟩, ⟨0, 2, 2, 4⟩, 16, 8, false, some 16⟩ 0 100
      GST_VIDEO_SCALE_GRAY8 (by decide) rfl).1
      ⟨vs_image_scale_nearest_Y, Plane.main, ⟨100, 2, 2, 4⟩, ⟨0, 4, 4, 4⟩⟩ (by decide)).2
      (fun a => a) 1 1 0 (by decide) (by decide) (by decide) (by decide) (by decide)
      (by decide) (by decide)⟩

/-- C23: `gst_video_scale_class_init` sets `passthrough_on_same_caps`, so with
the same caps on both pads the base class pushes the input buffer as it is,
whatever the method and whatever the `transform` method would have written;
and the same caps stand for a frame scaled to its own dimensions: a
`gst_video_scale_set_caps` with them leaves equal source and destination
widths, heights, strides and sizes (for which a nearest-neighbour kernel, were
it run, would copy every sample from its own position). -/
theorem C23_identity_by_passthrough (klass : GstBaseTransformClass)
    (vs0 vs : GstVideoScale) (caps : Caps) (inbuf outbuf : List Int)
    (hcaps : gst_video_scale_set_caps vs0 caps caps = (true, vs)) :
    (gst_video_scale_class_init klass).passthrough_on_same_caps = true
    ∧ gst_base_transform_chain (gst_video_scale_class_init klass) true inbuf outbuf = inbuf
    ∧ vs.from_width = vs.to_width ∧ vs.from_height = vs.to_height
    ∧ vs.src.width = vs.dest.width ∧ vs.src.height = vs.dest.height
    ∧ vs.src.stride = vs.dest.stride ∧ vs.src_size = vs.dest_size
    ∧ vs.method = vs0.method
    ∧ (∀ x y : Int, 0 < vs.src.width → 0 < vs.src.height →
        nearest_source vs.dest vs.src x y = (x, y)) := by
  obtain ⟨h1, h2, h3, h4, _, _, hm, hsrc, hdest, _⟩ := set_caps_true vs0 vs caps caps hcaps
  have hw : vs.from_width = vs.to_width := Option.some.inj (h1.symm.trans h3)
  have hh : vs.from_height = vs.to_height := Option.some.inj (h2.symm.trans h4)
  rw [← hw, ← hh] at hdest
  have key : ∀ (fmt w h : Int) (a b a1 b1 : VSImage) (s1 s2 : Int),
      gst_video_scale_prepare_size fmt a w h = some (a1, s1) →
      gst_video_scale_prepare_size fmt b w h = some (b1, s2) →
      a1.width = b1.width ∧ a1.height = b1.height ∧ a1.stride = b1.stride ∧ s1 = s2 := by
    intro fmt w h a b a1 b1 s1 s2 ha hb
    unfold gst_video_scale_prepare_size at ha hb
    cases hf : format_of_code fmt with
    | none => simp [hf] at ha
    | some f =>
      cases f <;> simp [hf] at ha hb <;> obtain ⟨rfl, rfl⟩ := ha <;>
        obtain ⟨rfl, rfl⟩ := hb <;> exact ⟨rfl, rfl, rfl, rfl⟩
  obtain ⟨k1, k2, k3, k4⟩ := key _ _ _ _ _ _ _ _ _ hsrc hdest
  refine ⟨rfl, rfl, hw, hh, k1, k2, k3, k4, hm, ?_⟩
  intro x y hw0 hh0
  unfold nearest_source
  rw [← k1, ← k2, Int.mul_ediv_cancel _ (ne_of_gt hw0), Int.mul_ediv_cancel _ (ne_of_gt hh0)]

/-- Witness of C23 at a 64x64 I420 frame and method 4TAP. -/
theorem C23_identity_by_passthrough_witness :
    gst_video_scale_set_caps { gst_video_scale_init with method := GST_VIDEO_SCALE_4TAP }
        ⟨some 64, some 64, none, 17⟩ ⟨some 64, some 64, none, 17⟩
      = (true, ⟨2, 17, 64, 64, 64, 64, ⟨0, 64, 64, 64⟩, ⟨0, 64, 64, 64⟩, 6144, 6144, false,
          some 256⟩)
    ∧ gst_base_transform_chain (gst_video_scale_class_init ⟨false⟩) true [1, 2, 3] [9, 9, 9]
      = [1, 2, 3] :=
  have t := C23_identity_by_passthrough ⟨false⟩
    { gst_video_scale_init with method := GST_VIDEO_SCALE_4TAP }
    ⟨2, 17, 64, 64, 64, 64, ⟨0, 64, 64, 64⟩, ⟨0, 64, 64, 64⟩, 6144, 6144, false, some 256⟩
    ⟨some 64, some 64, none, 17⟩ [1, 2, 3] [9, 9, 9] (by decide)
  ⟨by decide, t.2.1⟩

/-! ## Auxiliary facts on the arithmetic of `double` -/

theorem bit_length_aux_eq (fuel n acc L : Nat) (hf : n < 2 ^ fuel)
    (h0 : n = 0 → L = 0) (h1 : 0 < n → 0 < L ∧ 2 ^ (L - 1) ≤ n ∧ n < 2 ^ L) :
    bit_length_aux fuel n acc = acc + L := by
  induction fuel generalizing n acc L with
  | zero =>
    have : n = 0 := by simpa using hf
    simp [bit_length_aux, h0 this]
  | succ fuel ih =>
    unfold bit_length_aux
    by_cases hn : n = 0
    · simp [hn, h0 hn]
    · rw [if_neg hn]
      obtain ⟨hL, hlo, hhi⟩ := h1 (Nat.pos_of_ne_zero hn)
      have e1 : 2 ^ L = 2 * 2 ^ (L - 1) := by
        rw [← pow_succ']; congr 1; omega
      have hf' : 2 ^ (fuel + 1) = 2 * 2 ^ fuel := pow_succ' 2 fuel
      rw [ih (n / 2) (acc + 1) (L - 1) (by omega)]
      · omega
      · intro hz
        have hn1 : n = 1 := by omega
        by_contra hne
        have hL2 : 2 ≤ L - 1 + 1 := by omega
        have : 2 ^ 1 ≤ 2 ^ (L - 1) := Nat.pow_le_pow_right (by decide) (by omega)
        omega
      · intro hpos
        have hL2 : 2 ≤ L := by
          by_contra hne
          have : L = 1 := by omega
          subst this
          simp at hhi
          omega
        have e2 : 2 ^ (L - 1) = 2 * 2 ^ (L - 1 - 1) := by
          rw [← pow_succ']; congr 1; omega
        exact ⟨by omega, by omega, by omega⟩

theorem bit_length_eq (n L : Nat) (hL : 0 < L) (hL2 : L ≤ 256) (hlo : 2 ^ (L - 1) ≤ n)
    (hhi : n < 2 ^ L) : bit_length n = L := by
  have hn : 0 < n := lt_of_lt_of_le (Nat.two_pow_pos _) hlo
  unfold bit_length
  rw [bit_length_aux_eq 256 n 0 L
    (lt_of_lt_of_le hhi (Nat.pow_le_pow_right (by decide) hL2))
    (by omega) (fun _ => ⟨hL, hlo, hhi⟩)]
  omega

theorem exists_bits (v : Nat) (hv : 0 < v) : ∃ L, 0 < L ∧ 2 ^ (L - 1) ≤ v ∧ v < 2 ^ L := by
  refine ⟨Nat.size v, Nat.size_pos.2 hv, ?_, Nat.lt_size_self v⟩
  exact Nat.lt_size.1 (by have := Nat.size_pos.2 hv; omega)

theorem bits_mul_pow (v L j : Nat) (hL : 0 < L) (hlo : 2 ^ (L - 1) ≤ v) (hhi : v < 2 ^ L) :
    2 ^ (L + j - 1) ≤ v * 2 ^ j ∧ v * 2 ^ j < 2 ^ (L + j) := by
  have e : L + j - 1 = (L - 1) + j := by omega
  rw [e, pow_add, pow_add]
  have hp : 0 < 2 ^ j := Nat.two_pow_pos _
  exact ⟨Nat.mul_le_mul_right _ hlo, Nat.mul_lt_mul_of_pos_right hhi hp⟩

/-- Rounding is exact on a number whose digits fit the significand: for `v`
of `L <= 53` digits, `v * 2 ^ j * 2 ^ e` is the `double` with the significand
`v * 2 ^ (53 - L)`, if its exponent is in range. -/
theorem round_to_double_exact (neg : Bool) (v L j : Nat) (e : Int)
    (hL : 0 < L) (hL53 : L ≤ 53) (hlo : 2 ^ (L - 1) ≤ v) (hhi : v < 2 ^ L) (hj : j ≤ 200)
    (he1 : -1074 ≤ e + j - 53 + L) (he2 : e + j - 53 + L ≤ 971) :
    round_to_double neg (v * 2 ^ j) e false
      = GDouble.fin ((if neg then -1 else 1) * ((v * 2 ^ (53 - L) : Nat) : Int))
          (e + j - 53 + L) := by
  have hv : 0 < v := lt_of_lt_of_le (Nat.two_pow_pos _) hlo
  have hm : v * 2 ^ j ≠ 0 := Nat.mul_ne_zero (by omega) (by positivity)
  obtain ⟨b1, b2⟩ := bits_mul_pow v L j hL hlo hhi
  have hbl : bit_length (v * 2 ^ j) = L + j := bit_length_eq _ _ (by omega) (by omega) b1 b2
  have hmax : max (((L + j : Nat) : Int) - 53) (-1074 - e) = (L : Int) + j - 53 := by
    rw [max_eq_left (by push_cast; omega)]; push_cast; ring
  unfold round_to_double
  simp only [if_neg hm, hbl, hmax]
  by_cases hs : (L : Int) + j - 53 ≤ 0
  · rw [if_pos hs, if_neg (by omega)]
    have ht : (-((L : Int) + j - 53)).toNat = 53 - L - j := by omega
    have hp : v * 2 ^ j * 2 ^ (53 - L - j) = v * 2 ^ (53 - L) := by
      rw [mul_assoc, ← pow_add]; congr 2; omega
    rw [ht, hp]
    congr 1
    ring
  · rw [if_neg hs]
    have ht : ((L : Int) + j - 53).toNat = L + j - 53 := by omega
    have hsplit : v * 2 ^ j = v * 2 ^ (53 - L) * 2 ^ (L + j - 53) := by
      rw [mul_assoc, ← pow_add]; congr 2; omega
    have hq : v * 2 ^ j / 2 ^ (L + j - 53) = v * 2 ^ (53 - L) := by
      rw [hsplit]; exact Nat.mul_div_cancel _ (Nat.two_pow_pos _)
    have hr : v * 2 ^ j % 2 ^ (L + j - 53) = 0 := by
      rw [hsplit]; exact Nat.mul_mod_left _ _
    have hhalf : 0 < 2 ^ (L + j - 53 - 1) := Nat.two_pow_pos _
    have hlt : v * 2 ^ (53 - L) < 2 ^ 53 := by
      have : v * 2 ^ (53 - L) < 2 ^ L * 2 ^ (53 - L) :=
        Nat.mul_lt_mul_of_pos_right hhi (Nat.two_pow_pos _)
      rw [← pow_add] at this
      have e53 : L + (53 - L) = 53 := by omega
      rw [e53] at this
      exact this
    simp only [ht, hq, hr]
    have c1 : ¬ (0 > 2 ^ (L + j - 53 - 1)) := by omega
    have c2 : ¬ (0 = 2 ^ (L + j - 53 - 1)) := by omega
    simp only [c1, c2, decide_False, Bool.false_and, Bool.or_self, Bool.false_eq_true,
      if_false]
    rw [if_neg (by omega), if_neg (by omega)]
    congr 1
    ring

theorem gdouble_of_int_eq (x : Int) (L : Nat) (hL : 0 < L) (hL53 : L ≤ 53)
    (hlo : 2 ^ (L - 1) ≤ x.natAbs) (hhi : x.natAbs < 2 ^ L) :
    gdouble_of_int x
      = GDouble.fin ((if x < 0 then -1 else 1) * ((x.natAbs * 2 ^ (53 - L) : Nat) : Int))
          ((L : Int) - 53) := by
  have h := round_to_double_exact (decide (x < 0)) x.natAbs L 0 0 hL hL53 hlo hhi (by decide)
    (by omega) (by omega)
  unfold gdouble_of_int
  simp only [pow_zero, mul_one] at h
  rw [h]
  simp
  omega

theorem bits_le_53 (v L : Nat) (hlo : 2 ^ (L - 1) ≤ v) (hv : v < 2 ^ 53) : L ≤ 53 := by
  by_contra hc
  have : 2 ^ 53 ≤ 2 ^ (L - 1) := Nat.pow_le_pow_right (by decide) (by omega)
  omega

theorem natAbs_signed (s : Int) (v : Nat) (hs : s = -1 ∨ s = 1) :
    (s * (v : Int)).natAbs = v := by
  rcases hs with rfl | rfl <;> simp

/-- A coordinate that is an integer `n` comes back unchanged from
`(n * w) / w` in `double` arithmetic when `w` is a positive `gint` and
`|n| * w < 2 ^ 53`: both operations are exact. -/
theorem gdouble_int_roundtrip (n w : Int) (hw : 1 ≤ w) (hw2 : w ≤ 2147483647)
    (h : n.natAbs * w.natAbs < 2 ^ 53) :
    gdouble_div (gdouble_mul (gdouble_of_int n) (gdouble_of_int w)) (gdouble_of_int w)
      = gdouble_of_int n := by
  have hw0 : 0 < w.natAbs := by omega
  have hwn : ¬ w < 0 := by omega
  obtain ⟨Lw, hLw, hwlo, hwhi⟩ := exists_bits w.natAbs hw0
  have hLw53 : Lw ≤ 53 := bits_le_53 _ _ hwlo (by omega)
  have ew := gdouble_of_int_eq w Lw hLw hLw53 hwlo hwhi
  rw [if_neg hwn, one_mul] at ew
  have hmw : 0 < w.natAbs * 2 ^ (53 - Lw) := Nat.mul_pos hw0 (Nat.two_pow_pos _)
  obtain ⟨w1, w2⟩ := bits_mul_pow w.natAbs Lw (53 - Lw) hLw hwlo hwhi
  have hblw : bit_length (w.natAbs * 2 ^ (53 - Lw)) = 53 := by
    have := bit_length_eq _ _ (by omega) (by omega) w1 w2
    rw [this]; omega
  by_cases hn : n = 0
  · subst hn
    have e0 : gdouble_of_int 0 = GDouble.fin 0 (-1074) := by decide
    rw [e0, ew]
    have hne : ((w.natAbs * 2 ^ (53 - Lw) : Nat) : Int) ≠ 0 := by
      exact_mod_cast (Nat.ne_of_gt hmw)
    have hw' : w ≠ 0 := by omega
    simp [gdouble_mul, gdouble_div, round_to_double, hne, hw']
  · have hn0 : 0 < n.natAbs := Int.natAbs_pos.2 hn
    obtain ⟨La, hLa, halo, hahi⟩ := exists_bits n.natAbs hn0
    have hnlt : n.natAbs < 2 ^ 53 :=
      lt_of_le_of_lt (Nat.le_mul_of_pos_right _ hw0) h
    have hLa53 : La ≤ 53 := bits_le_53 _ _ halo hnlt
    have ea := gdouble_of_int_eq n La hLa hLa53 halo hahi
    have hp0 : 0 < n.natAbs * w.natAbs := Nat.mul_pos hn0 hw0
    obtain ⟨Lp, hLp, hplo, hphi⟩ := exists_bits (n.natAbs * w.natAbs) hp0
    have hLp53 : Lp ≤ 53 := bits_le_53 _ _ hplo h
    obtain ⟨p1, p2⟩ := bits_mul_pow (n.natAbs * w.natAbs) Lp (53 - Lp) hLp hplo hphi
    have hblp : bit_length (n.natAbs * w.natAbs * 2 ^ (53 - Lp)) = 53 := by
      have := bit_length_eq _ _ (by omega) (by omega) p1 p2
      rw [this]; omega
    have hsg : (if n < 0 then (-1 : Int) else 1) = -1 ∨ (if n < 0 then (-1 : Int) else 1) = 1 := by
      split
      · exact Or.inl rfl
      · exact Or.inr rfl
    have hma : 0 < n.natAbs * 2 ^ (53 - La) := Nat.mul_pos hn0 (Nat.two_pow_pos _)
    have hmp : 0 < n.natAbs * w.natAbs * 2 ^ (53 - Lp) := Nat.mul_pos hp0 (Nat.two_pow_pos _)
    -- the sign of a significand `s * v` with `v > 0`
    have hsign : ∀ v : Nat, 0 < v →
        decide ((if n < 0 then (-1 : Int) else 1) * (v : Int) < 0) = decide (n < 0) := by
      intro v hv
      have hv' : (0 : Int) < v := by exact_mod_cast hv
      by_cases c : n < 0
      · simp only [if_pos c, decide_eq_decide]
        constructor
        · intro _; exact c
        · intro _; omega
      · simp only [if_neg c, decide_eq_decide]
        constructor
        · intro hlt; omega
        · intro hc; exact absurd hc c
    have hwpos : ¬ (((w.natAbs * 2 ^ (53 - Lw) : Nat) : Int) < 0) := by
      have : (0 : Int) ≤ ((w.natAbs * 2 ^ (53 - Lw) : Nat) : Int) := Int.natCast_nonneg _
      omega
    -- the product
    have hmul : gdouble_mul (gdouble_of_int n) (gdouble_of_int w)
        = GDouble.fin ((if n < 0 then -1 else 1)
            * ((n.natAbs * w.natAbs * 2 ^ (53 - Lp) : Nat) : Int)) ((Lp : Int) - 53) := by
      rw [ea, ew]
      simp only [gdouble_mul]
      rw [natAbs_signed _ _ hsg, Int.natAbs_ofNat, hsign _ hma]
      have hprod : n.natAbs * 2 ^ (53 - La) * (w.natAbs * 2 ^ (53 - Lw))
          = n.natAbs * w.natAbs * 2 ^ (106 - La - Lw) := by
        have : 106 - La - Lw = (53 - La) + (53 - Lw) := by omega
        rw [this, pow_add]; ring
      have hx := round_to_double_exact (decide (n < 0)) (n.natAbs * w.natAbs) Lp
        (106 - La - Lw) ((La : Int) - 53 + ((Lw : Int) - 53)) hLp hLp53 hplo hphi (by omega)
        (by omega) (by omega)
      simp only [decide_eq_false hwpos, Bool.xor_false, hprod]
      rw [hx]
      simp only [decide_eq_true_eq]
      congr 1
      omega
    rw [hmul, ew]
    -- the quotient
    have hne2 : ((w.natAbs * 2 ^ (53 - Lw) : Nat) : Int) ≠ 0 := by
      exact_mod_cast (Nat.ne_of_gt hmw)
    have hne1 : (if n < 0 then (-1 : Int) else 1)
        * ((n.natAbs * w.natAbs * 2 ^ (53 - Lp) : Nat) : Int) ≠ 0 := by
      have : (0 : Int) < ((n.natAbs * w.natAbs * 2 ^ (53 - Lp) : Nat) : Int) := by
        exact_mod_cast hmp
      rcases hsg with hs | hs <;> rw [hs] <;> omega
    simp only [gdouble_div, if_neg hne2, if_neg hne1]
    rw [natAbs_signed _ _ hsg, Int.natAbs_ofNat, hblw, hblp, hsign _ hmp]
    have hk : 55 + 53 - 53 = 55 := by decide
    simp only [hk]
    have hnum : n.natAbs * w.natAbs * 2 ^ (53 - Lp) * 2 ^ 55
        = n.natAbs * 2 ^ (55 + Lw - Lp) * (w.natAbs * 2 ^ (53 - Lw)) := by
      have e1 : (53 - Lp) + 55 = (55 + Lw - Lp) + (53 - Lw) := by omega
      calc n.natAbs * w.natAbs * 2 ^ (53 - Lp) * 2 ^ 55
          = n.natAbs * w.natAbs * 2 ^ ((53 - Lp) + 55) := by rw [pow_add]; ring
        _ = n.natAbs * w.natAbs * 2 ^ ((55 + Lw - Lp) + (53 - Lw)) := by rw [e1]
        _ = n.natAbs * 2 ^ (55 + Lw - Lp) * (w.natAbs * 2 ^ (53 - Lw)) := by
            rw [pow_add]; ring
    have hq : n.natAbs * w.natAbs * 2 ^ (53 - Lp) * 2 ^ 55 / (w.natAbs * 2 ^ (53 - Lw))
        = n.natAbs * 2 ^ (55 + Lw - Lp) := by
      rw [hnum]; exact Nat.mul_div_cancel _ hmw
    have hr : n.natAbs * w.natAbs * 2 ^ (53 - Lp) * 2 ^ 55 % (w.natAbs * 2 ^ (53 - Lw)) = 0 := by
      rw [hnum]; exact Nat.mul_mod_left _ _
    have hx := round_to_double_exact (decide (n < 0)) n.natAbs La (55 + Lw - Lp)
      ((Lp : Int) - 53 - ((Lw : Int) - 53) - ((55 : Nat) : Int)) hLa hLa53 halo hahi (by omega)
      (by omega) (by omega)
    simp only [hq, hr, decide_eq_false hwpos, Bool.xor_false, ne_eq, not_true_eq_false,
      decide_False]
    rw [hx, ea]
    simp only [decide_eq_true_eq]
    congr 1
    omega

theorem lookup_cons_eq (name k : String) (v : GValue) (rest : List (String × GValue)) :
    List.lookup name ((k, v) :: rest) = if name = k then some v else List.lookup name rest := by
  by_cases hn : name = k
  · subst hn
    simp [List.lookup]
  · have hb : (name == k) = false := by simpa using hn
    simp [List.lookup, hb, hn]

theorem lookup_set_double (fields : List (String × GValue)) (name key : String) (d : GDouble) :
    (gst_structure_set_double fields key d).lookup name
      = if name = key then (fields.lookup name).map (fun _ => GValue.double d)
        else fields.lookup name := by
  unfold gst_structure_set_double
  induction fields with
  | nil => simp
  | cons p rest ih =>
    obtain ⟨k, v⟩ := p
    by_cases hk : k = key
    · have hm : List.map (fun p : String × GValue => if p.1 = key then (p.1, GValue.double d) else p)
          ((k, v) :: rest)
          = (k, GValue.double d)
            :: List.map (fun p : String × GValue => if p.1 = key then (p.1, GValue.double d) else p)
              rest := by
        simp [hk]
      rw [hm, lookup_cons_eq, lookup_cons_eq, ih]
      subst hk
      by_cases hn : name = k
      · simp [hn]
      · simp [hn]
    · have hm : List.map (fun p : String × GValue => if p.1 = key then (p.1, GValue.double d) else p)
          ((k, v) :: rest)
          = (k, v)
            :: List.map (fun p : String × GValue => if p.1 = key then (p.1, GValue.double d) else p)
              rest := by
        simp [hk]
      rw [hm, lookup_cons_eq, lookup_cons_eq, ih]
      by_cases hn : name = k
      · subst hn
        simp [hk]
      · simp [hn]

theorem get_double_set_same (fields : List (String × GValue)) (name : String) (a d : GDouble)
    (h : gst_structure_get_double fields name = some a) :
    gst_structure_get_double (gst_structure_set_double fields name d) name = some d := by
  unfold gst_structure_get_double at h ⊢
  rw [lookup_set_double, if_pos rfl]
  cases hl : fields.lookup name with
  | none => simp [hl] at h
  | some v => simp

theorem get_double_set_other (fields : List (String × GValue)) (name key : String)
    (d : GDouble) (hne : name ≠ key) :
    gst_structure_get_double (gst_structure_set_double fields key d) name
      = gst_structure_get_double fields name := by
  unfold gst_structure_get_double
  rw [lookup_set_double, if_neg hne]

theorem set_double_names (fields : List (String × GValue)) (key : String) (d : GDouble) :
    (gst_structure_set_double fields key d).map Prod.fst = fields.map Prod.fst := by
  unfold gst_structure_set_double
  rw [List.map_map]
  apply List.map_congr_left
  intro p _
  simp only [Function.comp]
  split <;> rfl

theorem mem_set_double (fields : List (String × GValue)) (key : String) (d : GDouble)
    (p : String × GValue) (hp : p.1 ≠ key) :
    p ∈ gst_structure_set_double fields key d ↔ p ∈ fields := by
  unfold gst_structure_set_double
  simp only [List.mem_map]
  constructor
  · rintro ⟨q, hq, hqp⟩
    by_cases hk : q.1 = key
    · rw [if_pos hk] at hqp
      subst hqp
      exact absurd hk hp
    · rw [if_neg hk] at hqp
      subst hqp
      exact hq
  · intro h
    exact ⟨p, h, if_neg hp⟩

/-! ## Navigation events: rescaling of the pointer coordinates -/

theorem src_event_fst (videoscale : GstVideoScale) (parent_src_event : GstEvent → Bool)
    (event : GstEvent) :
    (gst_video_scale_src_event videoscale parent_src_event event).1
      = parent_src_event (gst_video_scale_src_event videoscale parent_src_event event).2 := rfl

theorem src_event_other (videoscale : GstVideoScale) (parent_src_event : GstEvent → Bool)
    (event : GstEvent) (h : event.type ≠ GstEventType.GST_EVENT_NAVIGATION) :
    (gst_video_scale_src_event videoscale parent_src_event event).2 = event := by
  unfold gst_video_scale_src_event
  obtain ⟨t, fields⟩ := event
  cases t with
  | GST_EVENT_NAVIGATION => exact absurd rfl h
  | other code => rfl

theorem src_event_navigation (videoscale : GstVideoScale) (parent_src_event : GstEvent → Bool)
    (event : GstEvent) (h : event.type = GstEventType.GST_EVENT_NAVIGATION) :
    (gst_video_scale_src_event videoscale parent_src_event event).2
      = { event with fields := navigation_fields videoscale event.fields } := by
  unfold gst_video_scale_src_event navigation_fields
  obtain ⟨t, fields⟩ := event
  cases t with
  | GST_EVENT_NAVIGATION => rfl
  | other code => cases h

theorem navigation_fields_names (videoscale : GstVideoScale) (s : List (String × GValue)) :
    (navigation_fields videoscale s).map Prod.fst = s.map Prod.fst := by
  unfold navigation_fields
  cases gst_structure_get_double s "pointer_x" <;>
    simp only <;> split <;> simp only [set_double_names]

theorem navigation_fields_mem (videoscale : GstVideoScale) (s : List (String × GValue))
    (p : String × GValue) (hx : p.1 ≠ "pointer_x") (hy : p.1 ≠ "pointer_y") :
    p ∈ navigation_fields videoscale s ↔ p ∈ s := by
  unfold navigation_fields
  cases gst_structure_get_double s "pointer_x" <;>
    simp only <;> split <;>
    simp only [mem_set_double _ _ _ _ hx, mem_set_double _ _ _ _ hy]

theorem navigation_fields_x (videoscale : GstVideoScale) (s : List (String × GValue)) :
    gst_structure_get_double (navigation_fields videoscale s) "pointer_x"
      = (gst_structure_get_double s "pointer_x").map (fun a =>
          gdouble_div (gdouble_mul a (gdouble_of_int videoscale.from_width))
            (gdouble_of_int videoscale.to_width)) := by
  have hne : ("pointer_x" : String) ≠ "pointer_y" := by decide
  unfold navigation_fields
  cases hx : gst_structure_get_double s "pointer_x" with
  | none =>
    simp only
    split
    · rw [get_double_set_other _ _ _ _ hne, hx]
      rfl
    · rw [hx]
      rfl
  | some a =>
    simp only
    split
    · rw [get_double_set_other _ _ _ _ hne, get_double_set_same _ _ a _ hx]
      rfl
    · rw [get_double_set_same _ _ a _ hx]
      rfl

theorem navigation_fields_y (videoscale : GstVideoScale) (s : List (String × GValue)) :
    gst_structure_get_double (navigation_fields videoscale s) "pointer_y"
      = (gst_structure_get_double s "pointer_y").map (fun a =>
          gdouble_div (gdouble_mul a (gdouble_of_int videoscale.from_height))
            (gdouble_of_int videoscale.to_height)) := by
  have hne : ("pointer_y" : String) ≠ "pointer_x" := by decide
  unfold navigation_fields
  cases hx : gst_structure_get_double s "pointer_x" with
  | none =>
    simp only
    cases hy : gst_structure_get_double s "pointer_y" with
    | none => simp [hy]
    | some b => simp [get_double_set_same _ _ b _ hy]
  | some a =>
    simp only
    have hy2 := get_double_set_other s "pointer_y" "pointer_x"
      (gdouble_div (gdouble_mul a (gdouble_of_int videoscale.from_width))
        (gdouble_of_int videoscale.to_width)) hne
    cases hy : gst_structure_get_double s "pointer_y" with
    | none =>
      rw [hy] at hy2
      simp [hy2]
    | some b =>
      rw [hy] at hy2
      simp [hy2, get_double_set_same _ _ b _ hy2]

set_option maxRecDepth 4000 in
/-- C21, counterexample: with equal source and destination sizes the
coordinates are not always left unchanged.  After negotiating 640x480 to
640x480, the navigation event with `pointer_x` the `double` 1.62
(`7295831396340204 * 2 ^ -52`) and `pointer_y` 100 leaves with `pointer_x`
the next `double`, `7295831396340205 * 2 ^ -52`: the product 1.62 * 640 is
rounded, and so is the quotient.  Before any negotiation both sizes are 0, and
the coordinate 5 becomes `5 * 0 / 0`, which is not a number. -/
theorem C21_counterexample :
    (gst_video_scale_set_caps gst_video_scale_init
        ⟨some 640, some 480, none, 0⟩ ⟨some 640, some 480, none, 0⟩).1 = true
    ∧ (gst_video_scale_set_caps gst_video_scale_init
        ⟨some 640, some 480, none, 0⟩ ⟨some 640, some 480, none, 0⟩).2.from_width
      = (gst_video_scale_set_caps gst_video_scale_init
        ⟨some 640, some 480, none, 0⟩ ⟨some 640, some 480, none, 0⟩).2.to_width
    ∧ (gst_video_scale_set_caps gst_video_scale_init
        ⟨some 640, some 480, none, 0⟩ ⟨some 640, some 480, none, 0⟩).2.from_height
      = (gst_video_scale_set_caps gst_video_scale_init
        ⟨some 640, some 480, none, 0⟩ ⟨some 640, some 480, none, 0⟩).2.to_height
    ∧ gst_video_scale_src_event
        (gst_video_scale_set_caps gst_video_scale_init
          ⟨some 640, some 480, none, 0⟩ ⟨some 640, some 480, none, 0⟩).2
        (fun _ => true)
        ⟨GstEventType.GST_EVENT_NAVIGATION,
          [("event", GValue.other "mouse-move"),
           ("pointer_x", GValue.double (GDouble.fin 7295831396340204 (-52))),
           ("pointer_y", GValue.double (gdouble_of_int 100))]⟩
      = (true,
        ⟨GstEventType.GST_EVENT_NAVIGATION,
          [("event", GValue.other "mouse-move"),
           ("pointer_x", GValue.double (GDouble.fin 7295831396340205 (-52))),
           ("pointer_y", GValue.double (gdouble_of_int 100))]⟩)
    ∧ gst_video_scale_init.from_width = gst_video_scale_init.to_width
    ∧ gst_video_scale_src_event gst_video_scale_init (fun _ => true)
        ⟨GstEventType.GST_EVENT_NAVIGATION,
          [("pointer_x", GValue.double (gdouble_of_int 5))]⟩
      = (true,
        ⟨GstEventType.GST_EVENT_NAVIGATION, [("pointer_x", GValue.double GDouble.nan)]⟩) := by
  decide

/-- C21, amended: `gst_video_scale_src_event` returns what the parent's
`src_event` returns on the event it hands over.  An event that is not a
navigation event is handed over unchanged.  A navigation event keeps its
type, the names of its fields and every field other than `pointer_x` and
`pointer_y`; a `pointer_x` that is a `double` `a` is replaced by the `double`
`(a * from_width) / to_width`, product and quotient each rounded to nearest,
and `pointer_y` likewise with the heights.  With equal sizes between 1 and
`G_MAXINT`, a coordinate that is an integer `n` with `|n| * size < 2 ^ 53` is
left as it is. -/
theorem C21_navigation_rescaled (videoscale : GstVideoScale)
    (parent_src_event : GstEvent → Bool) (event : GstEvent) :
    (gst_video_scale_src_event videoscale parent_src_event event).1
        = parent_src_event (gst_video_scale_src_event videoscale parent_src_event event).2
    ∧ (event.type ≠ GstEventType.GST_EVENT_NAVIGATION →
        (gst_video_scale_src_event videoscale parent_src_event event).2 = event)
    ∧ (event.type = GstEventType.GST_EVENT_NAVIGATION →
        (gst_video_scale_src_event videoscale parent_src_event event).2.type = event.type
        ∧ (gst_video_scale_src_event videoscale parent_src_event event).2.fields.map Prod.fst
            = event.fields.map Prod.fst
        ∧ (∀ p : String × GValue, p.1 ≠ "pointer_x" → p.1 ≠ "pointer_y" →
            (p ∈ (gst_video_scale_src_event videoscale parent_src_event event).2.fields
              ↔ p ∈ event.fields))
        ∧ gst_structure_get_double
              (gst_video_scale_src_event videoscale parent_src_event event).2.fields "pointer_x"
            = (gst_structure_get_double event.fields "pointer_x").map (fun a =>
                gdouble_div (gdouble_mul a (gdouble_of_int videoscale.from_width))
                  (gdouble_of_int videoscale.to_width))
        ∧ gst_structure_get_double
              (gst_video_scale_src_event videoscale parent_src_event event).2.fields "pointer_y"
            = (gst_structure_get_double event.fields "pointer_y").map (fun a =>
                gdouble_div (gdouble_mul a (gdouble_of_int videoscale.from_height))
                  (gdouble_of_int videoscale.to_height))
        ∧ (∀ n : Int, videoscale.from_width = videoscale.to_width →
            1 ≤ videoscale.to_width → videoscale.to_width ≤ G_MAXINT →
            n.natAbs * videoscale.to_width.natAbs < 2 ^ 53 →
            gst_structure_get_double event.fields "pointer_x" = some (gdouble_of_int n) →
            gst_structure_get_double
                (gst_video_scale_src_event videoscale parent_src_event event).2.fields
                "pointer_x"
              = some (gdouble_of_int n))
        ∧ (∀ n : Int, videoscale.from_height = videoscale.to_height →
            1 ≤ videoscale.to_height → videoscale.to_height ≤ G_MAXINT →
            n.natAbs * videoscale.to_height.natAbs < 2 ^ 53 →
            gst_structure_get_double event.fields "pointer_y" = some (gdouble_of_int n) →
            gst_structure_get_double
                (gst_video_scale_src_event videoscale parent_src_event event).2.fields
                "pointer_y"
              = some (gdouble_of_int n))) := by
  refine ⟨rfl, src_event_other videoscale parent_src_event event, ?_⟩
  intro h
  rw [src_event_navigation videoscale parent_src_event event h]
  refine ⟨rfl, navigation_fields_names videoscale event.fields,
    fun p hx hy => navigation_fields_mem videoscale event.fields p hx hy,
    navigation_fields_x videoscale event.fields,
    navigation_fields_y videoscale event.fields, ?_, ?_⟩
  · intro n heq h1 h2 hb hget
    have hx := navigation_fields_x videoscale event.fields
    simp only at hx ⊢
    rw [hx, hget, heq]
    simp only [Option.map_some']
    rw [gdouble_int_roundtrip n videoscale.to_width h1 (by unfold G_MAXINT at h2; exact h2) hb]
  · intro n heq h1 h2 hb hget
    have hy := navigation_fields_y videoscale event.fields
    simp only at hy ⊢
    rw [hy, hget, heq]
    simp only [Option.map_some']
    rw [gdouble_int_roundtrip n videoscale.to_height h1 (by unfold G_MAXINT at h2; exact h2) hb]

set_option maxRecDepth 4000 in
/-- C21, witness: between 320x240 and 640x480 a navigation event at (100, 50)
leaves at (50, 25) and keeps its other field, and an event of another type
passes as it is; with 640x480 on both sides the event at (100, 50) keeps its
coordinates. -/
theorem C21_navigation_rescaled_witness :
    gst_video_scale_src_event
        { gst_video_scale_init with
          from_width := 320, from_height := 240, to_width := 640, to_height := 480 }
        (fun _ => true)
        ⟨GstEventType.GST_EVENT_NAVIGATION,
          [("event", GValue.other "mouse-move"),
           ("pointer_x", GValue.double (gdouble_of_int 100)),
           ("pointer_y", GValue.double (gdouble_of_int 50))]⟩
      = (true,
        ⟨GstEventType.GST_EVENT_NAVIGATION,
          [("event", GValue.other "mouse-move"),
           ("pointer_x", GValue.double (gdouble_of_int 50)),
           ("pointer_y", GValue.double (gdouble_of_int 25))]⟩)
    ∧ (gst_video_scale_src_event
        { gst_video_scale_init with
          from_width := 320, from_height := 240, to_width := 640, to_height := 480 }
        (fun _ => true) ⟨GstEventType.other 7, [("pointer_x", GValue.double (gdouble_of_int 100))]⟩).2
      = ⟨GstEventType.other 7, [("pointer_x", GValue.double (gdouble_of_int 100))]⟩
    ∧ gst_structure_get_double
        (gst_video_scale_src_event
          { gst_video_scale_init with
            from_width := 640, from_height := 480, to_width := 640, to_height := 480 }
          (fun _ => true)
          ⟨GstEventType.GST_EVENT_NAVIGATION,
            [("event", GValue.other "mouse-move"),
             ("pointer_x", GValue.double (gdouble_of_int 100)),
             ("pointer_y", GValue.double (gdouble_of_int 50))]⟩).2.fields "pointer_x"
      = some (gdouble_of_int 100) :=
  ⟨by decide,
    (C21_navigation_rescaled
      { gst_video_scale_init with
        from_width := 320, from_height := 240, to_width := 640, to_height := 480 }
      (fun _ => true)
      ⟨GstEventType.other 7, [("pointer_x", GValue.double (gdouble_of_int 100))]⟩).2.1
      (by decide),
    ((C21_navigation_rescaled
      { gst_video_scale_init with
        from_width := 640, from_height := 480, to_width := 640, to_height := 480 }
      (fun _ => true)
      ⟨GstEventType.GST_EVENT_NAVIGATION,
        [("event", GValue.other "mouse-move"),
         ("pointer_x", GValue.double (gdouble_of_int 100)),
         ("pointer_y", GValue.double (gdouble_of_int 50))]⟩).2.2 rfl).2.2.2.2.2.1
      100 rfl (by decide) (by decide) (by decide) (by decide)⟩

end VideoScale
